import Mathlib

/-!
Alexmos serial gimbal driver (libraries/AP_Mount/AP_Mount_Alexmos.cpp).

A shallow embedding of the driver's serial protocol code: the send path
(`send_command`), the byte-at-a-time receive state machine (`read_incoming`)
and the payload interpreter (`parse_body`).

Conventions of the embedding.
* `uint8_t` values are natural numbers below 256; every arithmetic operation
  that can leave that range is followed by an explicit `% 256`.
* `float` values are exact rationals (`ℚ`): rounding of the machine format is
  not modelled.
* The packed structures overlaid on the receive buffer are read byte by byte,
  least significant byte first (the byte order of the boards the driver runs
  on); signed fields are two's complement.
* `AP_HAL::micros64()` time stamps are not modelled.
-/

namespace AP_Mount_Alexmos

/-! ## Protocol constants (AP_Mount_Alexmos.h) -/

/-- Command id of a parameter read, the character R. -/
abbrev CMD_READ_PARAMS : Nat := 82
/-- Command id of a parameter write, the character W. -/
abbrev CMD_WRITE_PARAMS : Nat := 87
/-- Command id of the board information query, the character V. -/
abbrev CMD_BOARD_INFO : Nat := 86
/-- Command id that switches the motors on, the character M. -/
abbrev CMD_MOTORS_ON : Nat := 77
/-- Command id that switches the motors off, the character m. -/
abbrev CMD_MOTORS_OFF : Nat := 109
/-- Command id of the axis control command, the character C. -/
abbrev CMD_CONTROL : Nat := 67
/-- Command id of the basic angle query, the character I. -/
abbrev CMD_GET_ANGLES : Nat := 73
/-- Command id of the extended angle query. -/
abbrev CMD_GET_ANGLES_EXT : Nat := 61

/-- Start-of-frame marker, the character written as a greater-than sign. -/
abbrev SYNC : Nat := 62

/-- Size in bytes of the packed structure alexmos_version. -/
abbrev sizeof_alexmos_version : Nat := 6
/-- Size in bytes of the packed structure alexmos_angles. -/
abbrev sizeof_alexmos_angles : Nat := 18
/-- Size in bytes of the packed structure alexmos_angles_ext. -/
abbrev sizeof_alexmos_angles_ext : Nat := 54
/-- Size in bytes of the packed structure alexmos_angles_speed. -/
abbrev sizeof_alexmos_angles_speed : Nat := 15
/-- Size in bytes of the packed structure alexmos_params (105 one-byte-aligned
bytes: 93 single-byte fields and 6 two-byte fields). -/
abbrev sizeof_alexmos_params : Nat := 105
/-- Size in bytes of the union alexmos_parameters, the type of `_buffer`:
the largest of its members. -/
abbrev sizeof_buffer : Nat :=
  max sizeof_alexmos_version (max sizeof_alexmos_angles
    (max sizeof_alexmos_angles_ext (max sizeof_alexmos_params sizeof_alexmos_angles_speed)))

/-! ## Collaborators that are declared outside the driver -/

/-- Modelled from the spec: the per-axis input mode of AP_Mount.h, which is not
part of the sources at hand. The three named modes are the enumerators the
driver compares against; `Other` stands for any other stored value. -/
inductive Input_Mode where
  | Input_Mode_Angle_Body_Frame
  | Input_Mode_Angular_Rate
  | Input_Mode_Angle_Absolute_Frame
  | Other (raw : Nat)
  deriving DecidableEq, Repr

open Input_Mode

/-- Three float components, as in AP_Math Vector3f. -/
structure Vector3f where
  x : ℚ
  y : ℚ
  z : ℚ
  deriving DecidableEq, Repr

/-- Modelled from the spec: the pointing modes of the MAVLink enumeration
MAV_MOUNT_MODE, which is not part of the sources at hand. The five named modes
are the cases of the switch in `update`; `MAV_MOUNT_MODE_OTHER` stands for any
other value, which the switch sends to its default case. -/
inductive MAV_MOUNT_MODE where
  | MAV_MOUNT_MODE_RETRACT
  | MAV_MOUNT_MODE_NEUTRAL
  | MAV_MOUNT_MODE_MAVLINK_TARGETING
  | MAV_MOUNT_MODE_RC_TARGETING
  | MAV_MOUNT_MODE_GPS_POINT
  | MAV_MOUNT_MODE_OTHER (raw : Nat)
  deriving DecidableEq, Repr

open MAV_MOUNT_MODE

/-- A position, as in AP_Common Location: latitude, longitude, altitude, and
the two altitude flags that the Planck interface sets (the bit width of the
altitude is not modelled). -/
structure Location where
  lat : Int
  lng : Int
  alt : Int
  relative_alt : Bool
  terrain_alt : Bool
  deriving DecidableEq, Repr

/-- The part of the front end state (`_state`) that the driver reads: the input
mode of each axis, the pointing mode, the configured retract and neutral
angles in degrees and the region of interest. -/
structure mount_state where
  _roll_input_mode : Input_Mode
  _pitch_input_mode : Input_Mode
  _yaw_input_mode : Input_Mode
  _mode : MAV_MOUNT_MODE
  _retract_angles : Vector3f
  _neutral_angles : Vector3f
  _roi_target : Location
  deriving DecidableEq, Repr

/-- The fields of the AP_Mount singleton that `parse_body` touches. -/
structure AP_Mount where
  yaw_encoder_readback : ℚ
  mount_yaw_follow_mode : Nat
  deriving DecidableEq, Repr

/-- Modelled from the spec: the fix quality that `AP::gps().status()` reports
counts upwards from no receiver (0) and no fix (1); 2 is the two-dimensional
fix that `update` asks for (AP_GPS.h is not part of the sources at hand). -/
abbrev GPS_OK_FIX_2D : Nat := 2

/-- The collaborators that `update` and `control_axis` call and that are not
part of the sources at hand: the fix quality of the GPS, the constant
RAD_TO_DEG, the value of the enumerator `AP_Mount::gimbal_yaw_follows_vehicle`,
and the two functions of the mount back end that recompute the target vector,
from the pilot's inputs and from the position of the region of interest. -/
structure Environment where
  gps_status : Nat
  RAD_TO_DEG : ℚ
  gimbal_yaw_follows_vehicle : Nat
  update_targets_from_rc : Vector3f → Vector3f
  calc_angle_to_location : Location → Vector3f → Vector3f

/-- Modelled from the spec: the serial transport behind `_port`
(AP_HAL::UARTDriver, not part of the sources at hand): the bytes received and
not yet read, the bytes written so far, and the free space that `txspace()`
reports. -/
structure UARTDriver where
  rx : List Nat
  tx : List Nat
  txfree : Nat
  deriving DecidableEq, Repr

namespace UARTDriver

/-- The number of bytes that can be written, as reported by the port. -/
def txspace (p : UARTDriver) : Nat := p.txfree

/-- Writing one byte: the value is converted to `uint8_t`, appended to the
output and takes one unit of the free space. -/
def write (p : UARTDriver) (b : Nat) : UARTDriver :=
  { p with tx := p.tx ++ [b % 256], txfree := p.txfree - 1 }

/-- The number of received bytes waiting to be read (an unsigned 32-bit count
in AP_HAL). -/
def available (p : UARTDriver) : Nat := p.rx.length

end UARTDriver

/-! ## Driver state -/

/-- The member variables of the class AP_Mount_Alexmos (without `_port`, which
is passed alongside) and the target vector `_angle_ef_target_rad` of its base
class, together with the AP_Mount singleton the driver reaches through
`AP::mount()` (`none` when the pointer is null). -/
structure Driver where
  _yaw_follow_mode : Nat
  _log_encoder_readback : ℚ
  _buffer : List Nat
  _current_parameters : List Nat
  _initialised : Bool
  _board_version : Nat
  _current_firmware_version : ℚ
  _firmware_beta_version : Nat
  _gimbal_3axis : Bool
  _gimbal_bat_monitoring : Bool
  _current_angle : Vector3f
  _param_read_once : Bool
  _checksum : Nat
  _step : Nat
  _command_id : Nat
  _payload_length : Nat
  _payload_counter : Nat
  _last_command_confirmed : Bool
  gimbal_yaw_scale : ℚ
  _state : mount_state
  mount : Option AP_Mount
  _angle_ef_target_rad : Vector3f
  deriving DecidableEq, Repr

/-- A freshly constructed driver: every member zero, both byte arrays of their
declared size, default input modes taken as angular rate, retract mode, no
front end. -/
def Driver.fresh : Driver :=
  { _yaw_follow_mode := 0, _log_encoder_readback := 0,
    _buffer := List.replicate sizeof_buffer 0,
    _current_parameters := List.replicate sizeof_buffer 0,
    _initialised := false, _board_version := 0, _current_firmware_version := 0,
    _firmware_beta_version := 0, _gimbal_3axis := false,
    _gimbal_bat_monitoring := false, _current_angle := ⟨0, 0, 0⟩,
    _param_read_once := false, _checksum := 0, _step := 0, _command_id := 0,
    _payload_length := 0, _payload_counter := 0, _last_command_confirmed := false,
    gimbal_yaw_scale := 0,
    _state :=
      { _roll_input_mode := Input_Mode_Angular_Rate
        _pitch_input_mode := Input_Mode_Angular_Rate
        _yaw_input_mode := Input_Mode_Angular_Rate
        _mode := MAV_MOUNT_MODE_RETRACT
        _retract_angles := ⟨0, 0, 0⟩
        _neutral_angles := ⟨0, 0, 0⟩
        _roi_target := ⟨0, 0, 0, false, false⟩ },
    mount := none,
    _angle_ef_target_rad := ⟨0, 0, 0⟩ }

/-! ## Reading the packed structures out of the byte buffer -/

/-- The byte at offset `i` of a byte array. -/
def byteAt (b : List Nat) (i : Nat) : Nat := b.getD i 0

/-- An unsigned 16-bit field at offset `i`. -/
def u16At (b : List Nat) (i : Nat) : Nat := byteAt b i + 256 * byteAt b (i + 1)

/-- A signed 16-bit field at offset `i`. -/
def i16At (b : List Nat) (i : Nat) : Int :=
  if u16At b i < 32768 then (u16At b i : Int) else (u16At b i : Int) - 65536

/-- An unsigned 32-bit field at offset `i`. -/
def u32At (b : List Nat) (i : Nat) : Nat :=
  byteAt b i + 256 * byteAt b (i + 1) + 65536 * byteAt b (i + 2) + 16777216 * byteAt b (i + 3)

/-- A signed 32-bit field at offset `i`. -/
def i32At (b : List Nat) (i : Nat) : Int :=
  if u32At b i < 2147483648 then (u32At b i : Int) else (u32At b i : Int) - 4294967296

/-- Field `_board_version` of alexmos_version. -/
def version_board_version (b : List Nat) : Nat := byteAt b 0
/-- Field `_firmware_version` of alexmos_version. -/
def version_firmware_version (b : List Nat) : Nat := u16At b 1
/-- Field `_board_features` of alexmos_version. -/
def version_board_features (b : List Nat) : Nat := u16At b 4

/-- Field `angle_roll` of alexmos_angles. -/
def angles_angle_roll (b : List Nat) : Int := i16At b 0
/-- Field `angle_pitch` of alexmos_angles. -/
def angles_angle_pitch (b : List Nat) : Int := i16At b 6
/-- Field `angle_yaw` of alexmos_angles. -/
def angles_angle_yaw (b : List Nat) : Int := i16At b 12

/-- Field `angle_roll` of alexmos_angles_ext. -/
def angles_ext_angle_roll (b : List Nat) : Int := i16At b 0
/-- Field `stator_rotor_angle_roll` of alexmos_angles_ext. -/
def angles_ext_stator_rotor_angle_roll (b : List Nat) : Int := i32At b 4
/-- Field `angle_pitch` of alexmos_angles_ext. -/
def angles_ext_angle_pitch (b : List Nat) : Int := i16At b 18
/-- Field `stator_rotor_angle_pitch` of alexmos_angles_ext. -/
def angles_ext_stator_rotor_angle_pitch (b : List Nat) : Int := i32At b 22
/-- Field `angle_yaw` of alexmos_angles_ext. -/
def angles_ext_angle_yaw (b : List Nat) : Int := i16At b 36
/-- Field `stator_rotor_angle_yaw` of alexmos_angles_ext. -/
def angles_ext_stator_rotor_angle_yaw (b : List Nat) : Int := i32At b 40

/-- The conversion VALUE_TO_DEGREE: wire units to degrees, 16384 units to the
full circle. -/
def VALUE_TO_DEGREE (d : Int) : ℚ := (d : ℚ) * (360 / 16384)

/-! ## send_command -/

/-- The body of the `for` loop of `send_command`, run for `i = 0, ..., size - 1`
(the loop counter is a `uint8_t` and `size` is at most 255, so the counter
reaches `size` without wrapping): the checksum accumulates `data[i]` and the
byte is written. The state is the port and the running checksum. -/
def send_command_loop (data : List Nat) (size : Nat) (st : UARTDriver × Nat) :
    UARTDriver × Nat :=
  (List.range size).foldl
    (fun acc i => (acc.1.write (byteAt data i), (acc.2 + byteAt data i) % 256)) st

/-- The function `send_command(cmd, data, size)`: nothing is written when the
port reports less than `size + 5` bytes of space; otherwise the header, the
`size` data bytes and the checksum are written. Returns the port. -/
def send_command (port : UARTDriver) (cmd : Nat) (data : List Nat) (size : Nat) :
    UARTDriver :=
  if port.txspace < size + 5 then port
  else
    let p1 := port.write SYNC
    let p2 := p1.write cmd
    let p3 := p2.write size
    let p4 := p3.write (cmd + size)
    let r := send_command_loop data size (p4, 0)
    r.1.write r.2

/-! ## parse_body -/

/-- The case CMD_BOARD_INFO of `parse_body`. -/
def parse_body_board_info (s : Driver) : Driver :=
  { s with
    _board_version := version_board_version s._buffer / 10
    _current_firmware_version := (version_firmware_version s._buffer : ℚ) / 1000
    _firmware_beta_version := version_firmware_version s._buffer % 10
    _gimbal_3axis := (version_board_features s._buffer &&& 1) != 0
    _gimbal_bat_monitoring := (version_board_features s._buffer &&& 2) != 0 }

/-- The case CMD_GET_ANGLES of `parse_body`. -/
def parse_body_angles (s : Driver) : Driver :=
  { s with
    _current_angle :=
      { x := VALUE_TO_DEGREE (angles_angle_roll s._buffer)
        y := VALUE_TO_DEGREE (angles_angle_pitch s._buffer)
        z := VALUE_TO_DEGREE (angles_angle_yaw s._buffer) } }

/-- The angle vector that the case CMD_GET_ANGLES_EXT of `parse_body` assigns
to `_current_angle`: the plain angle fields first, then the stator-rotor field
for roll and for pitch when the axis is in body frame mode, and for yaw unless
the axis is in absolute frame mode. -/
def angles_ext_current_angle (st : mount_state) (buf : List Nat) : Vector3f :=
  let x0 := VALUE_TO_DEGREE (angles_ext_angle_roll buf)
  let y0 := VALUE_TO_DEGREE (angles_ext_angle_pitch buf)
  let z0 := VALUE_TO_DEGREE (angles_ext_angle_yaw buf)
  let x1 := if st._roll_input_mode = Input_Mode_Angle_Body_Frame then
      VALUE_TO_DEGREE (angles_ext_stator_rotor_angle_roll buf) else x0
  let y1 := if st._pitch_input_mode = Input_Mode_Angle_Body_Frame then
      VALUE_TO_DEGREE (angles_ext_stator_rotor_angle_pitch buf) else y0
  let z1 := if st._yaw_input_mode ≠ Input_Mode_Angle_Absolute_Frame then
      VALUE_TO_DEGREE (angles_ext_stator_rotor_angle_yaw buf) else z0
  { x := x1, y := y1, z := z1 }

/-- The case CMD_GET_ANGLES_EXT of `parse_body`: the current angle is set, and
when the AP_Mount singleton exists the yaw read back is published to it and its
yaw follow mode is copied. -/
def parse_body_angles_ext (s : Driver) : Driver :=
  let a := angles_ext_current_angle s._state s._buffer
  match s.mount with
  | none => { s with _current_angle := a }
  | some m =>
    { s with
      _current_angle := a
      mount := some { m with yaw_encoder_readback := a.z }
      _log_encoder_readback := a.z
      _yaw_follow_mode := m.mount_yaw_follow_mode % 256 }

/-- The case CMD_READ_PARAMS of `parse_body`: the structure `params` of the
buffer is copied into the structure `params` of `_current_parameters`. -/
def parse_body_read_params (s : Driver) : Driver :=
  { s with
    _param_read_once := true
    _current_parameters :=
      s._buffer.take sizeof_alexmos_params ++ s._current_parameters.drop sizeof_alexmos_params }

/-- The function `parse_body`: the receive buffer is interpreted according to
`_command_id`. -/
def parse_body (s : Driver) : Driver :=
  if s._command_id = CMD_BOARD_INFO then parse_body_board_info s
  else if s._command_id = CMD_GET_ANGLES then parse_body_angles s
  else if s._command_id = CMD_GET_ANGLES_EXT then parse_body_angles_ext s
  else if s._command_id = CMD_READ_PARAMS then parse_body_read_params s
  else if s._command_id = CMD_WRITE_PARAMS then s
  else { s with _last_command_confirmed := true }

/-- The function `has_pan_control`. -/
def has_pan_control (s : Driver) : Bool := s._gimbal_3axis

/-! ## read_incoming -/

/-- The `switch (_step)` of `read_incoming` for one byte `data`, up to the call
of `parse_body`: the new state, and whether control reaches `parse_body()`. -/
def read_byte (s : Driver) (data : Nat) : Driver × Bool :=
  if s._step = 0 then
    if SYNC = data then
      ({ s with _step := 1, _checksum := 0, _last_command_confirmed := false }, false)
    else (s, false)
  else if s._step = 1 then
    ({ s with _checksum := data, _command_id := data, _step := (s._step + 1) % 256 }, false)
  else if s._step = 2 then
    ({ s with _checksum := (s._checksum + data) % 256, _payload_length := data,
              _step := (s._step + 1) % 256 }, false)
  else if s._step = 3 then
    if s._checksum ≠ data then
      ({ s with _step := 0, _checksum := 0 }, false)
    else
      ({ s with _step := (s._step + 1) % 256, _checksum := 0, _payload_counter := 0 }, false)
  else if s._step = 4 then
    let s1 := { s with _checksum := (s._checksum + data) % 256 }
    let s2 := if s1._payload_counter < sizeof_buffer then
        { s1 with _buffer := s1._buffer.set s1._payload_counter data } else s1
    let s3 := { s2 with _payload_counter := (s2._payload_counter + 1) % 256 }
    if s3._payload_counter = s3._payload_length then
      ({ s3 with _step := (s3._step + 1) % 256 }, false)
    else (s3, false)
  else if s._step = 5 then
    let s1 := { s with _step := 0 }
    if s1._checksum ≠ data then (s1, false) else (s1, true)
  else (s, false)

/-- One iteration of the `for` loop of `read_incoming`: the byte returned by
`_port->read()` is converted to `uint8_t`, the switch is run, and `parse_body`
is called when the switch reaches it. -/
def step (s : Driver) (b : Nat) : Driver :=
  let r := read_byte s (b % 256)
  if r.2 then parse_body r.1 else r.1

/-- The `for` loop of `read_incoming` over the bytes that are read. -/
def process (s : Driver) (bytes : List Nat) : Driver := bytes.foldl step s

/-- The value of `numc`: the unsigned count returned by `available()` is stored
in a variable of type `int16_t`, which keeps its low 16 bits as a two's
complement number. -/
def numc_of (count : Nat) : Int :=
  if count % 65536 < 32768 then ((count % 65536 : Nat) : Int)
  else ((count % 65536 : Nat) : Int) - 65536

/-- The function `read_incoming`: `numc` bytes are read from the port and run
through the state machine; nothing is read when `numc` is negative. Returns
the driver and the port. -/
def read_incoming (s : Driver) (port : UARTDriver) : Driver × UARTDriver :=
  let numc := numc_of port.available
  if numc < 0 then (s, port)
  else (process s (port.rx.take numc.toNat), { port with rx := port.rx.drop numc.toNat })

/-! ## Observation of the receive loop -/

/-- The driver states in which `parse_body` is entered while the bytes are
processed, in order. -/
def parse_calls : Driver → List Nat → List Driver
  | _, [] => []
  | s, b :: bs =>
    (if (read_byte s (b % 256)).2 then [(read_byte s (b % 256)).1] else [])
      ++ parse_calls (step s b) bs

/-- The buffer index written by the switch for one byte in state `s`, if the
switch stores the byte. -/
def store_index (s : Driver) : Option Nat :=
  if s._step = 4 then
    if s._payload_counter < sizeof_buffer then some s._payload_counter else none
  else none

/-- The buffer indices written while the bytes are processed, in order. -/
def store_indices : Driver → List Nat → List Nat
  | _, [] => []
  | s, b :: bs => (store_index s).toList ++ store_indices (step s b) bs

/-- The bytes written to the port between two of its states. -/
def bytes_written (before after : UARTDriver) : List Nat :=
  after.tx.drop before.tx.length

/-- The result of storing the bytes one after the other from offset `k`, as the
body state of the switch does: a byte at an offset outside the buffer is
skipped. -/
def store_body : List Nat → Nat → List Nat → List Nat
  | buf, _, [] => buf
  | buf, k, b :: bs => store_body (if k < sizeof_buffer then buf.set k b else buf) (k + 1) bs

/-- The frame that carries command `c` and payload `p`. -/
def frame (c : Nat) (p : List Nat) : List Nat :=
  [SYNC, c, p.length, (c + p.length) % 256] ++ p ++ [p.sum % 256]

/-- The driver state once the four header bytes of a frame have been read. -/
def after_header (s : Driver) (c n : Nat) : Driver :=
  { s with _step := 4, _checksum := 0, _last_command_confirmed := false,
           _command_id := c, _payload_length := n, _payload_counter := 0 }

/-- The driver state when the body of a frame with command `c` and body `p` has
been read and the body checksum is awaited. -/
def before_checksum (s : Driver) (c : Nat) (p : List Nat) : Driver :=
  { s with _step := 5, _checksum := p.sum % 256, _last_command_confirmed := false,
           _command_id := c, _payload_length := p.length, _payload_counter := p.length,
           _buffer := store_body s._buffer 0 p }

/-- The driver state in which `parse_body` is entered for a frame with command
`c` and body `p`. -/
def received (s : Driver) (c : Nat) (p : List Nat) : Driver :=
  { before_checksum s c p with _step := 0 }

/-- The arrival of bytes at the port: they queue up behind the bytes that are
still unread. -/
def deliver (port : UARTDriver) (bytes : List Nat) : UARTDriver :=
  { port with rx := port.rx ++ bytes }

/-- The bytes that one call of `read_incoming` reads from the port. -/
def bytes_read (port : UARTDriver) : List Nat :=
  if numc_of port.available < 0 then [] else port.rx.take (numc_of port.available).toNat

/-- The values that `parse_body` decodes out of received frames. -/
structure Decoded where
  board_version : Nat
  firmware_version : ℚ
  firmware_beta_version : Nat
  gimbal_3axis : Bool
  gimbal_bat_monitoring : Bool
  current_angle : Vector3f
  current_parameters : List Nat
  param_read_once : Bool
  log_encoder_readback : ℚ
  yaw_follow_mode : Nat
  mount : Option AP_Mount
  deriving DecidableEq, Repr

/-- The decoded values held by a driver. -/
def decoded (s : Driver) : Decoded :=
  { board_version := s._board_version
    firmware_version := s._current_firmware_version
    firmware_beta_version := s._firmware_beta_version
    gimbal_3axis := s._gimbal_3axis
    gimbal_bat_monitoring := s._gimbal_bat_monitoring
    current_angle := s._current_angle
    current_parameters := s._current_parameters
    param_read_once := s._param_read_once
    log_encoder_readback := s._log_encoder_readback
    yaw_follow_mode := s._yaw_follow_mode
    mount := s.mount }

/-- The number of leading buffer bytes that make up the structure which
`parse_body` reads for command `c`. -/
def struct_size (c : Nat) : Nat :=
  if c = CMD_BOARD_INFO then sizeof_alexmos_version
  else if c = CMD_GET_ANGLES then sizeof_alexmos_angles
  else if c = CMD_GET_ANGLES_EXT then sizeof_alexmos_angles_ext
  else if c = CMD_READ_PARAMS then sizeof_alexmos_params
  else 0

/-! ## The angle codec (AP_Mount_Alexmos.h) -/

/-- The conversion of a `float` to an integer type drops the fraction: the
value is rounded toward zero. -/
def trunc_toward_zero (q : ℚ) : Int := if 0 ≤ q then ⌊q⌋ else ⌈q⌉

/-- The value kept by an `int16_t`: the low 16 bits as a two's complement
number. Values from -32768 to 32767 are kept as they are. -/
def to_int16 (z : Int) : Int := (z + 32768) % 65536 - 32768

/-- The conversion DEGREE_TO_VALUE: degrees to wire units, the product with
`16384 / 360` cast to `int16_t`. The product is exact here; the roundings of
the type `float` are carried by `DEGREE_TO_VALUE_binary32` below. -/
def DEGREE_TO_VALUE (d : ℚ) : Int := to_int16 (trunc_toward_zero (d * (16384 / 360)))

/-- The conversion DEGREE_PER_SEC_TO_VALUE: degrees per second to wire units,
the product with `1 / 0.1220740379` cast to `int16_t`. -/
def DEGREE_PER_SEC_TO_VALUE (d : ℚ) : Int :=
  to_int16 (trunc_toward_zero (d * (1 / (1220740379 / 10000000000))))

/-! ### The angle codec in single precision

The macros compute in the type `float`. Where a result depends on the rounding
of that arithmetic, `float` is taken as IEEE 754 binary32 with rounding to
nearest, ties to even, each operation rounded to a `float`; the values are
kept as rationals. -/

/-- The integer nearest to `q`, the even one of the two when `q` lies half way
between two integers: the rounding of a significand. -/
def round_ties_even (q : ℚ) : Int :=
  if q - ⌊q⌋ < 1 / 2 then ⌊q⌋
  else if 1 / 2 < q - ⌊q⌋ then ⌊q⌋ + 1
  else if ⌊q⌋ % 2 = 0 then ⌊q⌋ else ⌊q⌋ + 1

/-- The binary exponent of the unit in the last place of a `float` of the
magnitude of `q`: 24 significant bits, and -126 the least exponent of a normal
number. -/
def binary32_ulp_exponent (q : ℚ) : Int := max (Int.log 2 |q|) (-126) - 23

/-- The `float` nearest to `q`, ties to even. The overflow to infinity of
magnitudes from `2 ^ 128` on is not modelled. -/
def binary32_round (q : ℚ) : ℚ :=
  (round_ties_even (q / 2 ^ binary32_ulp_exponent q) : ℚ) * 2 ^ binary32_ulp_exponent q

/-- The macro DEGREE_TO_VALUE as it is computed, in single precision: the
argument cast to `float`, the quotient `16384.0f / 360.0f` and the product each
rounded to a `float`, and the product cast to `int16_t`. `DEGREE_TO_VALUE`
above is the same expression without the three roundings. -/
def DEGREE_TO_VALUE_binary32 (d : ℚ) : Int :=
  to_int16
    (trunc_toward_zero (binary32_round (binary32_round d * binary32_round (16384 / 360))))

/-! ## Commands to the gimbal -/

/-- Control mode tag: the axis is driven at a speed. -/
abbrev AP_MOUNT_ALEXMOS_MODE_SPEED : Nat := 1
/-- Control mode tag: the axis is driven to an angle. -/
abbrev AP_MOUNT_ALEXMOS_MODE_ANGLE : Nat := 2
/-- Control mode tag: the axis is driven to an angle relative to the frame. -/
abbrev AP_MOUNT_ALEXMOS_MODE_ANGLE_REL_FRAME : Nat := 5

/-- The function `get_angles_ext`. -/
def get_angles_ext (port : UARTDriver) : UARTDriver :=
  send_command port CMD_GET_ANGLES_EXT [1] 1

/-- The function `get_boardinfo`: the query is sent only while no board
version is known. -/
def get_boardinfo (s : Driver) (port : UARTDriver) : UARTDriver :=
  if s._board_version ≠ 0 then port else send_command port CMD_BOARD_INFO [1] 1

/-- The function `read_params`. -/
def read_params (port : UARTDriver) (profile_id : Nat) : UARTDriver :=
  send_command port CMD_READ_PARAMS [profile_id % 256] 1

/-- The function `write_params`: the stored parameter structure is sent once
parameters have been read. -/
def write_params (s : Driver) (port : UARTDriver) : UARTDriver :=
  if !s._param_read_once then port
  else send_command port CMD_WRITE_PARAMS s._current_parameters sizeof_alexmos_params

/-- The function `get_control_mode`. -/
def get_control_mode (input_mode : Input_Mode) : Nat :=
  match input_mode with
  | Input_Mode_Angle_Body_Frame => AP_MOUNT_ALEXMOS_MODE_ANGLE_REL_FRAME
  | Input_Mode_Angular_Rate => AP_MOUNT_ALEXMOS_MODE_SPEED
  | Input_Mode_Angle_Absolute_Frame => AP_MOUNT_ALEXMOS_MODE_ANGLE
  | Input_Mode.Other _ => AP_MOUNT_ALEXMOS_MODE_ANGLE

/-- The two bytes of an `int16_t` field of a packed structure, least
significant byte first. -/
def int16_bytes (v : Int) : List Nat :=
  [(v % 65536).toNat % 256, (v % 65536).toNat / 256]

/-- The bytes of the structure alexmos_angles_speed that `control_axis` fills
in for a target in degrees: the three mode bytes, then speed and angle of
roll, of pitch and of yaw. -/
def angles_speed_bytes (st : mount_state) (target_deg : Vector3f) : List Nat :=
  [get_control_mode st._roll_input_mode % 256, get_control_mode st._pitch_input_mode % 256,
    get_control_mode st._yaw_input_mode % 256]
    ++ int16_bytes (DEGREE_PER_SEC_TO_VALUE target_deg.x)
    ++ int16_bytes (DEGREE_TO_VALUE target_deg.x)
    ++ int16_bytes (DEGREE_PER_SEC_TO_VALUE target_deg.y)
    ++ int16_bytes (DEGREE_TO_VALUE target_deg.y)
    ++ int16_bytes (DEGREE_PER_SEC_TO_VALUE target_deg.z)
    ++ int16_bytes (DEGREE_TO_VALUE target_deg.z)

/-- The target of `control_axis` in degrees: the vector itself, or its product
with RAD_TO_DEG when it is not given in degrees. -/
def target_in_deg (e : Environment) (angle : Vector3f) (target_in_degrees : Bool) : Vector3f :=
  if target_in_degrees then angle
  else { x := angle.x * e.RAD_TO_DEG, y := angle.y * e.RAD_TO_DEG, z := angle.z * e.RAD_TO_DEG }

/-- The function `control_axis`. -/
def control_axis (e : Environment) (s : Driver) (port : UARTDriver) (angle : Vector3f)
    (target_in_degrees : Bool) : UARTDriver :=
  send_command port CMD_CONTROL
    (angles_speed_bytes s._state (target_in_deg e angle target_in_degrees))
    sizeof_alexmos_angles_speed

/-! ## init, set_mode and update -/

/-- The function `init`; `found` is the port that the serial manager finds for
the protocol, if any. Returns the driver and the port. -/
def init (s : Driver) (found : Option UARTDriver) : Driver × Option UARTDriver :=
  let r : Driver × Option UARTDriver :=
    match found with
    | some port =>
      let s1 := { s with _initialised := true }
      (s1, some (read_params (get_boardinfo s1 port) 0))
    | none => (s, none)
  ({ r.1 with _log_encoder_readback := 0, _yaw_follow_mode := 7, gimbal_yaw_scale := 1 / 20 },
    r.2)

/-- The function `set_mode`. -/
def set_mode (s : Driver) (mode : MAV_MOUNT_MODE) : Driver :=
  { s with _state := { s._state with _mode := mode } }

/-- The `switch (get_mode())` of `update` up to its calls of `control_axis`:
the driver after the target vector has been updated, and the two arguments of
`control_axis` when the case calls it. -/
def update_target (e : Environment) (s : Driver) : Driver × Option (Vector3f × Bool) :=
  match s._state._mode with
  | MAV_MOUNT_MODE_RETRACT => (s, some (s._state._retract_angles, true))
  | MAV_MOUNT_MODE_NEUTRAL => (s, some (s._state._neutral_angles, true))
  | MAV_MOUNT_MODE_MAVLINK_TARGETING =>
    let s1 :=
      match s.mount with
      | some m =>
        if m.mount_yaw_follow_mode = e.gimbal_yaw_follows_vehicle then
          { s with _angle_ef_target_rad :=
              { s._angle_ef_target_rad with z := -s._current_angle.z * s.gimbal_yaw_scale } }
        else s
      | none => s
    (s1, some (s1._angle_ef_target_rad, false))
  | MAV_MOUNT_MODE_RC_TARGETING =>
    let s1 := { s with _angle_ef_target_rad := e.update_targets_from_rc s._angle_ef_target_rad }
    (s1, some (s1._angle_ef_target_rad, false))
  | MAV_MOUNT_MODE_GPS_POINT =>
    if e.gps_status ≥ GPS_OK_FIX_2D then
      let s1 := { s with _angle_ef_target_rad :=
        e.calc_angle_to_location s._state._roi_target s._angle_ef_target_rad }
      (s1, some (s1._angle_ef_target_rad, false))
    else (s, none)
  | MAV_MOUNT_MODE_OTHER _ => (s, none)

/-- The function `update`, one control tick: nothing when the driver is not
initialised; otherwise the extended angles are requested, the incoming bytes
are read, and the target of the pointing mode is sent. Returns the driver and
the port. -/
def update (e : Environment) (s : Driver) (port : UARTDriver) : Driver × UARTDriver :=
  if !s._initialised then (s, port)
  else
    let r := read_incoming s (get_angles_ext port)
    let t := update_target e r.1
    match t.2 with
    | some a => (t.1, control_axis e t.1 r.2 a.1 a.2)
    | none => (t.1, r.2)

/-- The board information held by a driver: board version, firmware version,
beta digit, three-axis flag and battery flag. -/
def board_info (s : Driver) : Nat × ℚ × Nat × Bool × Bool :=
  (s._board_version, s._current_firmware_version, s._firmware_beta_version, s._gimbal_3axis,
    s._gimbal_bat_monitoring)

/-- The members that neither the switch of `read_incoming` nor `parse_body`
assigns, with the yaw follow mode of the AP_Mount singleton. -/
def settings (s : Driver) : mount_state × Bool × ℚ × Vector3f × Option Nat :=
  (s._state, s._initialised, s.gimbal_yaw_scale, s._angle_ef_target_rad,
    s.mount.map AP_Mount.mount_yaw_follow_mode)

/-- The relation between the header checksum accumulator and the stored header
bytes while a header is being read: after the command id the accumulator is
the command id, after the length it is their sum modulo 256. -/
def header_invariant (s : Driver) : Prop :=
  (s._step = 2 → s._checksum = s._command_id) ∧
  (s._step = 3 → s._checksum = (s._command_id + s._payload_length) % 256)

/-! ## Sample inputs -/

/-- A sample payload of an extended angles frame: roll angle 100 with
stator-rotor angle 70000, pitch angle -2 with stator-rotor angle 5, yaw angle
300 with stator-rotor angle -1; the remaining fields are zero. -/
def sample_angles_ext_payload : List Nat :=
  [100, 0, 0, 0, 112, 17, 1, 0] ++ List.replicate 10 0
    ++ [254, 255, 0, 0, 5, 0, 0, 0] ++ List.replicate 10 0
    ++ [44, 1, 0, 0, 255, 255, 255, 255] ++ List.replicate 10 0

/-- A fresh driver whose roll axis is in body frame mode, whose pitch axis is
in angular rate mode and whose yaw axis is in absolute frame mode. -/
def sample_driver : Driver :=
  { Driver.fresh with
    _state :=
      { Driver.fresh._state with
        _roll_input_mode := Input_Mode_Angle_Body_Frame
        _pitch_input_mode := Input_Mode_Angular_Rate
        _yaw_input_mode := Input_Mode_Angle_Absolute_Frame } }

/-- A sample environment: a three-dimensional fix, RAD_TO_DEG taken as 57.3,
yaw-follows-vehicle encoded as 1, and back end functions that leave the target
vector as it is. -/
def sample_environment : Environment :=
  { gps_status := 3
    RAD_TO_DEG := 573 / 10
    gimbal_yaw_follows_vehicle := 1
    update_targets_from_rc := fun v => v
    calc_angle_to_location := fun _ v => v }

/-- A fresh driver that is initialised and in GPS point mode, with a target
vector of 0.1, 0.2 and 0.3 radians. -/
def sample_gps_point_driver : Driver :=
  { Driver.fresh with
    _initialised := true
    _angle_ef_target_rad := ⟨1 / 10, 2 / 10, 3 / 10⟩
    _state := { Driver.fresh._state with _mode := MAV_MOUNT_MODE_GPS_POINT } }

/-- A fresh driver that is initialised and in MAVLink targeting mode, with a
target vector of 0.1, 0.2 and 0.3 radians, a follow gain of 1/20, a current yaw
of 40 degrees and an AP_Mount singleton whose yaw follow mode is 1. -/
def sample_targeting_driver : Driver :=
  { Driver.fresh with
    _initialised := true
    _angle_ef_target_rad := ⟨1 / 10, 2 / 10, 3 / 10⟩
    _current_angle := ⟨0, 0, 40⟩
    gimbal_yaw_scale := 1 / 20
    mount := some ⟨0, 1⟩
    _state := { Driver.fresh._state with _mode := MAV_MOUNT_MODE_MAVLINK_TARGETING } }

end AP_Mount_Alexmos

/-!
The Planck companion interface (libraries/AC_Planck/AC_Planck.cpp): the handler
of incoming MAVLink messages and the getters of the received command.
-/

namespace AC_Planck

open AP_Mount_Alexmos (Vector3f Location trunc_toward_zero)

/-- The kinds of command that the handler tells apart (the enumeration of
`_cmd.type`). -/
inductive cmd_type where
  | NONE
  | POSITION
  | VELOCITY
  | POSVEL
  | ATTITUDE
  | ACCEL
  deriving DecidableEq, Repr

open cmd_type

/-- The member `_cmd`: the last command received. -/
structure planck_cmd where
  pos : Location
  vel_cms : Vector3f
  accel_cmss : Vector3f
  att_cd : Vector3f
  is_yaw_rate : Bool
  type : cmd_type
  is_new : Bool
  deriving DecidableEq, Repr

/-- The member `_status`: the last status received. -/
structure planck_status where
  timestamp_ms : Nat
  takeoff_ready : Bool
  land_ready : Bool
  commbox_ok : Bool
  commbox_gps_ok : Bool
  tracking_tag : Bool
  tracking_commbox_gps : Bool
  takeoff_complete : Bool
  at_location : Bool
  deriving DecidableEq, Repr

/-- The values of `_ack_status`; the handler assigns the first two. -/
inductive ack_status where
  | PLANCK_ACK
  | PLANCK_NACK
  | PLANCK_OTHER (raw : Nat)
  deriving DecidableEq, Repr

/-- The member variables of the class AC_Planck that the handler and the
getters use. -/
structure State where
  _cmd : planck_cmd
  _status : planck_status
  _ack_status : ack_status
  _last_cmd_req_id : Nat
  _last_cmd_req_t_ms : Nat
  _chan : Nat
  _was_at_location : Bool
  deriving DecidableEq, Repr

/-- The fields of a decoded command acknowledgement that the handler reads. -/
structure mavlink_command_ack_t where
  command : Nat
  result : Nat
  deriving DecidableEq, Repr

/-- The fields of a decoded Planck status message that the handler reads. -/
structure mavlink_planck_status_t where
  takeoff_ready : Nat
  land_ready : Nat
  failsafe : Nat
  status : Nat
  takeoff_complete : Nat
  at_location : Nat
  deriving DecidableEq, Repr

/-- The fields of a decoded Planck command message: position, frame, the
three-element arrays of velocity, acceleration and attitude, and the 16-bit
type mask. -/
structure mavlink_planck_cmd_msg_t where
  lat : Int
  lon : Int
  alt : ℚ
  frame : Nat
  vel : Vector3f
  acc : Vector3f
  att : Vector3f
  type_mask : Nat
  deriving DecidableEq, Repr

/-- The payload of a MAVLink message, by message id: the three messages that
the handler has a case for, and every other message. -/
inductive mavlink_payload where
  | COMMAND_ACK (ack : mavlink_command_ack_t)
  | PLANCK_STATUS (ps : mavlink_planck_status_t)
  | PLANCK_CMD_MSG (pc : mavlink_planck_cmd_msg_t)
  | OTHER (msgid : Nat)
  deriving DecidableEq, Repr

open mavlink_payload

/-- A MAVLink message: the component id of its sender and its payload. -/
structure mavlink_message_t where
  compid : Nat
  payload : mavlink_payload
  deriving DecidableEq, Repr

/-- The six values of the MAVLink enumeration MAV_FRAME that the handler names
(the enumeration is not part of the sources at hand). -/
abbrev MAV_FRAME_GLOBAL : Nat := 0
/-- MAV_FRAME value: global position with altitude relative to home. -/
abbrev MAV_FRAME_GLOBAL_RELATIVE_ALT : Nat := 3
/-- MAV_FRAME value: global position, integer encoding. -/
abbrev MAV_FRAME_GLOBAL_INT : Nat := 5
/-- MAV_FRAME value: altitude relative to home, integer encoding. -/
abbrev MAV_FRAME_GLOBAL_RELATIVE_ALT_INT : Nat := 6
/-- MAV_FRAME value: global position with altitude above terrain. -/
abbrev MAV_FRAME_GLOBAL_TERRAIN_ALT : Nat := 10
/-- MAV_FRAME value: altitude above terrain, integer encoding. -/
abbrev MAV_FRAME_GLOBAL_TERRAIN_ALT_INT : Nat := 11

/-- What the handler takes from outside the class and what is declared outside
the sources at hand: the two identifiers it compares an acknowledgement with,
the altitude of home from the AHRS, the clock `AP_HAL::millis()` and the factor
of `ToDeg`. -/
structure Context where
  PLANCK_CTRL_COMP_ID : Nat
  MAVLINK_MSG_ID_PLANCK_CMD_REQUEST : Nat
  home_alt : Int
  millis : Nat
  RAD_TO_DEG : ℚ

/-- The function `ToDeg`. -/
def ToDeg (c : Context) (rad : ℚ) : ℚ := rad * c.RAD_TO_DEG

/-- The command type that the handler derives from the type mask: the seven
tests of the mask and the chain of `if` and `else if` on them. -/
def command_type (type_mask : Nat) : cmd_type :=
  let use_pos := decide (type_mask &&& 0x0007 = 0x0007)
  let use_vel := decide (type_mask &&& 0x0038 = 0x0038)
  let use_vz := decide (type_mask &&& 0x0020 = 0x0020)
  let use_acc := decide (type_mask &&& 0x01C0 = 0x01C0)
  let use_att := decide (type_mask &&& 0x0E00 = 0x0E00)
  let use_y := decide (type_mask &&& 0x0800 = 0x0800)
  let use_yr := decide (type_mask &&& 0x1000 = 0x1000)
  if use_pos && !use_vel then POSITION
  else if use_pos && use_vel then POSVEL
  else if use_vel then VELOCITY
  else if use_vz && !use_acc && use_att && (use_y || use_yr) then ATTITUDE
  else if use_vz && use_acc && !use_att && (use_y || use_yr) then ACCEL
  else NONE

/-- The position that the handler stores for a command message: latitude and
longitude as sent, the altitude in centimetres, made relative to home when
the frame is neither relative nor terrain, and the two altitude flags. -/
def command_position (c : Context) (pc : mavlink_planck_cmd_msg_t) : Location :=
  let alt := trunc_toward_zero (pc.alt * 100)
  if pc.frame = MAV_FRAME_GLOBAL_RELATIVE_ALT ∨ pc.frame = MAV_FRAME_GLOBAL_RELATIVE_ALT_INT then
    { lat := pc.lat, lng := pc.lon, alt := alt, relative_alt := true, terrain_alt := false }
  else if pc.frame = MAV_FRAME_GLOBAL_TERRAIN_ALT ∨ pc.frame = MAV_FRAME_GLOBAL_TERRAIN_ALT_INT then
    { lat := pc.lat, lng := pc.lon, alt := alt, relative_alt := true, terrain_alt := true }
  else
    { lat := pc.lat, lng := pc.lon, alt := alt - c.home_alt, relative_alt := true,
      terrain_alt := false }

/-- The function `handle_planck_mavlink_msg`. -/
def handle_planck_mavlink_msg (c : Context) (s : State) (chan : Nat)
    (mav_msg : mavlink_message_t) : State :=
  match mav_msg.payload with
  | COMMAND_ACK ack =>
    if mav_msg.compid ≠ c.PLANCK_CTRL_COMP_ID ∨
        ack.command ≠ c.MAVLINK_MSG_ID_PLANCK_CMD_REQUEST then s
    else if ack.command = s._last_cmd_req_id ∧ s._last_cmd_req_t_ms > 0 then
      { s with _ack_status :=
          if ack.result = 1 then ack_status.PLANCK_ACK else ack_status.PLANCK_NACK }
    else s
  | PLANCK_STATUS ps =>
    let st : planck_status :=
      { timestamp_ms := c.millis
        takeoff_ready := ps.takeoff_ready != 0
        land_ready := ps.land_ready != 0
        commbox_ok := (ps.failsafe &&& 0x01) != 0
        commbox_gps_ok := (ps.failsafe &&& 0x02) != 0
        tracking_tag := (ps.status &&& 0x01) != 0
        tracking_commbox_gps := (ps.status &&& 0x02) != 0
        takeoff_complete := ps.takeoff_complete != 0
        at_location := ps.at_location != 0 }
    { s with
      _chan := chan
      _status := st
      _was_at_location :=
        if !s._was_at_location && st.at_location then true else s._was_at_location }
  | PLANCK_CMD_MSG pc =>
    { s with
      _cmd :=
        { pos := command_position c pc
          vel_cms := { x := pc.vel.x * 100, y := pc.vel.y * 100, z := pc.vel.z * 100 }
          accel_cmss := { x := pc.acc.x * 100, y := pc.acc.y * 100, z := pc.acc.z * 100 }
          att_cd :=
            { x := ToDeg c pc.att.x * 100, y := ToDeg c pc.att.y * 100,
              z := ToDeg c pc.att.z * 100 }
          is_yaw_rate := decide (pc.type_mask &&& 0x1000 = 0x1000)
          type := command_type pc.type_mask
          is_new := true } }
  | OTHER _ => s

/-- The function `get_accel_yaw_zrate_cmd`; the four output arguments are
passed in and returned after the return value. -/
def get_accel_yaw_zrate_cmd (s : State) (accel_cmss : Vector3f) (yaw_cd vz_cms : ℚ)
    (is_yaw_rate : Bool) : Bool × (Vector3f × ℚ × ℚ × Bool) × State :=
  if !s._cmd.is_new then (false, (accel_cmss, yaw_cd, vz_cms, is_yaw_rate), s)
  else (true, (s._cmd.accel_cmss, s._cmd.att_cd.z, s._cmd.vel_cms.z, s._cmd.is_yaw_rate),
    { s with _cmd := { s._cmd with is_new := false } })

/-- The function `get_attitude_zrate_cmd`. -/
def get_attitude_zrate_cmd (s : State) (att_cd : Vector3f) (vz_cms : ℚ) (is_yaw_rate : Bool) :
    Bool × (Vector3f × ℚ × Bool) × State :=
  if !s._cmd.is_new then (false, (att_cd, vz_cms, is_yaw_rate), s)
  else (true, (s._cmd.att_cd, s._cmd.vel_cms.z, s._cmd.is_yaw_rate),
    { s with _cmd := { s._cmd with is_new := false } })

/-- The function `get_velocity_cmd`. -/
def get_velocity_cmd (s : State) (vel_cms : Vector3f) : Bool × Vector3f × State :=
  if !s._cmd.is_new then (false, vel_cms, s)
  else (true, s._cmd.vel_cms, { s with _cmd := { s._cmd with is_new := false } })

/-- The function `get_position_cmd`. -/
def get_position_cmd (s : State) (loc : Location) : Bool × Location × State :=
  if !s._cmd.is_new then (false, loc, s)
  else (true, s._cmd.pos, { s with _cmd := { s._cmd with is_new := false } })

/-- The function `get_posvel_cmd`. -/
def get_posvel_cmd (s : State) (loc : Location) (vel_cms : Vector3f) :
    Bool × (Location × Vector3f) × State :=
  if !s._cmd.is_new then (false, (loc, vel_cms), s)
  else (true, (s._cmd.pos, s._cmd.vel_cms),
    { s with _cmd := { s._cmd with is_new := false } })

/-- The five getters of the received command. -/
inductive Getter where
  | accel_yaw_zrate
  | attitude_zrate
  | velocity
  | position
  | posvel
  deriving DecidableEq, Repr

/-- The return value of a getter and the state it leaves, whatever the values
its output arguments hold before the call. -/
def call_getter (g : Getter) (s : State) (v : Vector3f) (q : ℚ) (b : Bool) (loc : Location) :
    Bool × State :=
  match g with
  | Getter.accel_yaw_zrate =>
    ((get_accel_yaw_zrate_cmd s v q q b).1, (get_accel_yaw_zrate_cmd s v q q b).2.2)
  | Getter.attitude_zrate =>
    ((get_attitude_zrate_cmd s v q b).1, (get_attitude_zrate_cmd s v q b).2.2)
  | Getter.velocity => ((get_velocity_cmd s v).1, (get_velocity_cmd s v).2.2)
  | Getter.position => ((get_position_cmd s loc).1, (get_position_cmd s loc).2.2)
  | Getter.posvel => ((get_posvel_cmd s loc v).1, (get_posvel_cmd s loc v).2.2)

/-- A sample state: everything zero or false, no new command. -/
def sample_state : State :=
  { _cmd :=
      { pos := ⟨0, 0, 0, false, false⟩, vel_cms := ⟨0, 0, 0⟩, accel_cmss := ⟨0, 0, 0⟩,
        att_cd := ⟨0, 0, 0⟩, is_yaw_rate := false, type := NONE, is_new := false }
    _status := ⟨0, false, false, false, false, false, false, false, false⟩
    _ack_status := ack_status.PLANCK_OTHER 0
    _last_cmd_req_id := 0
    _last_cmd_req_t_ms := 0
    _chan := 0
    _was_at_location := false }

/-- A sample context. -/
def sample_context : Context :=
  { PLANCK_CTRL_COMP_ID := 90, MAVLINK_MSG_ID_PLANCK_CMD_REQUEST := 9001, home_alt := 1000,
    millis := 5, RAD_TO_DEG := 573 / 10 }

/-- A sample command message with a given type mask. -/
def sample_cmd_msg (type_mask : Nat) : mavlink_message_t :=
  { compid := 90
    payload := PLANCK_CMD_MSG
      { lat := 1, lon := 2, alt := 3, frame := MAV_FRAME_GLOBAL_RELATIVE_ALT, vel := ⟨1, 2, 3⟩,
        acc := ⟨4, 5, 6⟩, att := ⟨0, 0, 1⟩, type_mask := type_mask } }

end AC_Planck

namespace AP_Mount_Alexmos

open Input_Mode MAV_MOUNT_MODE

/-! ## The send path -/

theorem write_tx (p : UARTDriver) (b : Nat) : (p.write b).tx = p.tx ++ [b % 256] := rfl

theorem write_rx (p : UARTDriver) (b : Nat) : (p.write b).rx = p.rx := rfl

theorem send_command_loop_tx (data : List Nat) (size : Nat) (p : UARTDriver) (cs : Nat) :
    (send_command_loop data size (p, cs)).1.tx
      = p.tx ++ (List.range size).map (fun i => byteAt data i % 256) := by
  induction size with
  | zero => simp [send_command_loop]
  | succ n ih =>
    unfold send_command_loop at ih ⊢
    rw [List.range_succ, List.foldl_append, List.map_append]
    simp only [List.foldl_cons, List.foldl_nil, List.map_cons, List.map_nil, write_tx, ih,
      List.append_assoc]

theorem send_command_loop_rx (data : List Nat) (size : Nat) (p : UARTDriver) (cs : Nat) :
    (send_command_loop data size (p, cs)).1.rx = p.rx := by
  induction size with
  | zero => simp [send_command_loop]
  | succ n ih =>
    unfold send_command_loop at ih ⊢
    rw [List.range_succ, List.foldl_append]
    simp only [List.foldl_cons, List.foldl_nil, write_rx, ih]

theorem send_command_loop_checksum (data : List Nat) (size : Nat) (p : UARTDriver) (cs : Nat) :
    (send_command_loop data size (p, cs)).2
      = (cs + ((List.range size).map (fun i => byteAt data i)).sum) % 256 ∨
    (size = 0 ∧ (send_command_loop data size (p, cs)).2 = cs) := by
  induction size with
  | zero => right; simp [send_command_loop]
  | succ n ih =>
    left
    unfold send_command_loop at ih ⊢
    rw [List.range_succ, List.foldl_append, List.map_append, List.sum_append]
    simp only [List.foldl_cons, List.foldl_nil, List.map_cons, List.map_nil, List.sum_cons,
      List.sum_nil, Nat.add_zero]
    rcases ih with h | ⟨h0, h⟩
    · rw [h]; omega
    · subst h0; rw [h]; simp

theorem range_map_byteAt (p : List Nat) :
    (List.range p.length).map (fun i => byteAt p i) = p := by
  apply List.ext_getElem
  · simp
  · intro i h1 h2
    simp [byteAt, List.getElem?_eq_getElem h2]

theorem range_map_byteAt_mod (p : List Nat) (hp : ∀ b ∈ p, b < 256) :
    (List.range p.length).map (fun i => byteAt p i % 256) = p := by
  apply List.ext_getElem
  · simp
  · intro i h1 h2
    simp only [List.getElem_map, List.getElem_range, byteAt, List.getD_eq_getElem _ _ h2]
    exact Nat.mod_eq_of_lt (hp _ (List.getElem_mem h2))

theorem send_command_tx (port : UARTDriver) (c : Nat) (p : List Nat)
    (hc : c < 256) (hn : p.length ≤ 255) (hp : ∀ b ∈ p, b < 256)
    (hroom : p.length + 5 ≤ port.txspace) :
    (send_command port c p p.length).tx = port.tx ++ frame c p := by
  have hnot : ¬ port.txspace < p.length + 5 := by omega
  unfold send_command
  rw [if_neg hnot]
  simp only [write_tx, send_command_loop_tx, range_map_byteAt_mod p hp]
  have hcs : (send_command_loop p p.length
      ((((port.write SYNC).write c).write p.length).write (c + p.length), 0)).2 % 256
      = p.sum % 256 := by
    rcases send_command_loop_checksum p p.length
      ((((port.write SYNC).write c).write p.length).write (c + p.length)) 0 with h | ⟨h0, h⟩
    · rw [h, range_map_byteAt]; simp
    · rw [h]
      have : p = [] := List.length_eq_zero.mp h0
      subst this; simp
  rw [hcs]
  simp [frame, Nat.mod_eq_of_lt hc, Nat.mod_eq_of_lt (show p.length < 256 by omega),
    Nat.mod_eq_of_lt (show SYNC < 256 by decide)]

/-! ## The receive state machine, one byte at a time -/

theorem process_nil (s : Driver) : process s [] = s := rfl

theorem process_cons (s : Driver) (b : Nat) (bs : List Nat) :
    process s (b :: bs) = process (step s b) bs := rfl

theorem process_append (s : Driver) (a b : List Nat) :
    process s (a ++ b) = process (process s a) b := by
  simp [process, List.foldl_append]

theorem parse_calls_append (s : Driver) (a b : List Nat) :
    parse_calls s (a ++ b) = parse_calls s a ++ parse_calls (process s a) b := by
  induction a generalizing s with
  | nil => simp [parse_calls, process_nil]
  | cons x xs ih => simp [parse_calls, process_cons, ih]

theorem read_byte_sync (s : Driver) (hs : s._step = 0) :
    read_byte s SYNC
      = ({ s with _step := 1, _checksum := 0, _last_command_confirmed := false }, false) := by
  simp [read_byte, hs]

theorem read_byte_noise (s : Driver) (hs : s._step = 0) (b : Nat) (hb : b ≠ SYNC) :
    read_byte s b = (s, false) := by
  have : ¬ SYNC = b := fun h => hb h.symm
  simp [read_byte, hs, this]

theorem read_byte_command (s : Driver) (hs : s._step = 1) (b : Nat) :
    read_byte s b = ({ s with _checksum := b, _command_id := b, _step := 2 }, false) := by
  simp [read_byte, hs]

theorem read_byte_length (s : Driver) (hs : s._step = 2) (b : Nat) :
    read_byte s b
      = ({ s with _checksum := (s._checksum + b) % 256, _payload_length := b, _step := 3 },
          false) := by
  simp [read_byte, hs]

theorem read_byte_header_ok (s : Driver) (hs : s._step = 3) (b : Nat) (h : s._checksum = b) :
    read_byte s b
      = ({ s with _step := 4, _checksum := 0, _payload_counter := 0 }, false) := by
  simp [read_byte, hs, h]

theorem read_byte_header_bad (s : Driver) (hs : s._step = 3) (b : Nat) (h : s._checksum ≠ b) :
    read_byte s b = ({ s with _step := 0, _checksum := 0 }, false) := by
  simp [read_byte, hs, h]

theorem read_byte_body (s : Driver) (hs : s._step = 4) (b : Nat) :
    read_byte s b
      = ({ s with
            _checksum := (s._checksum + b) % 256
            _buffer := if s._payload_counter < sizeof_buffer then
                s._buffer.set s._payload_counter b else s._buffer
            _payload_counter := (s._payload_counter + 1) % 256
            _step := if (s._payload_counter + 1) % 256 = s._payload_length then 5 else 4 },
          false) := by
  unfold read_byte
  simp only [hs]
  by_cases h1 : s._payload_counter < sizeof_buffer <;>
    by_cases h2 : (s._payload_counter + 1) % 256 = s._payload_length <;>
    simp [h1, h2]

theorem read_byte_checksum_ok (s : Driver) (hs : s._step = 5) (b : Nat) (h : s._checksum = b) :
    read_byte s b = ({ s with _step := 0 }, true) := by
  simp [read_byte, hs, h]

theorem read_byte_checksum_bad (s : Driver) (hs : s._step = 5) (b : Nat)
    (h : s._checksum ≠ b) :
    read_byte s b = ({ s with _step := 0 }, false) := by
  simp [read_byte, hs, h]

theorem step_of_read_byte (s t : Driver) (b : Nat) (hb : b < 256)
    (h : read_byte s b = (t, false)) : step s b = t := by
  simp [step, Nat.mod_eq_of_lt hb, h]

theorem step_of_read_byte_call (s t : Driver) (b : Nat) (hb : b < 256)
    (h : read_byte s b = (t, true)) : step s b = parse_body t := by
  simp [step, Nat.mod_eq_of_lt hb, h]

theorem parse_calls_cons_false (s t : Driver) (b : Nat) (bs : List Nat) (hb : b < 256)
    (h : read_byte s b = (t, false)) : parse_calls s (b :: bs) = parse_calls t bs := by
  simp [parse_calls, step, Nat.mod_eq_of_lt hb, h]

theorem parse_calls_cons_true (s t : Driver) (b : Nat) (bs : List Nat) (hb : b < 256)
    (h : read_byte s b = (t, true)) :
    parse_calls s (b :: bs) = t :: parse_calls (parse_body t) bs := by
  simp [parse_calls, step, Nat.mod_eq_of_lt hb, h]

theorem process_header (s : Driver) (hs : s._step = 0) (c n : Nat) (hc : c < 256)
    (hn : n < 256) :
    process s [SYNC, c, n, (c + n) % 256] = after_header s c n ∧
    parse_calls s [SYNC, c, n, (c + n) % 256] = [] := by
  have hm : (c + n) % 256 < 256 := Nat.mod_lt _ (by decide)
  have h1 := read_byte_sync s hs
  constructor
  · rw [process_cons, step_of_read_byte _ _ _ (by decide) h1,
      process_cons, step_of_read_byte _ _ _ hc (read_byte_command _ rfl c),
      process_cons, step_of_read_byte _ _ _ hn (read_byte_length _ rfl n),
      process_cons, step_of_read_byte _ _ _ hm (read_byte_header_ok _ rfl _ rfl)]
    rfl
  · rw [parse_calls_cons_false _ _ _ _ (by decide) h1,
      parse_calls_cons_false _ _ _ _ hc (read_byte_command _ rfl c),
      parse_calls_cons_false _ _ _ _ hn (read_byte_length _ rfl n),
      parse_calls_cons_false _ _ _ _ hm (read_byte_header_ok _ rfl _ rfl)]
    rfl

theorem process_body (bytes : List Nat) : ∀ s : Driver, s._step = 4 →
    s._payload_counter + bytes.length = s._payload_length → bytes ≠ [] →
    s._payload_length < 256 → s._checksum < 256 → (∀ b ∈ bytes, b < 256) →
    process s bytes
      = { s with _step := 5, _checksum := (s._checksum + bytes.sum) % 256,
                 _payload_counter := s._payload_length,
                 _buffer := store_body s._buffer s._payload_counter bytes } ∧
    parse_calls s bytes = [] := by
  induction bytes with
  | nil => intro s _ _ h; exact absurd rfl h
  | cons b bs ih =>
    intro s hs hlen _ hn hcs hb
    have hb256 : b < 256 := hb b (List.mem_cons_self _ _)
    have hrb := read_byte_body s hs b
    rw [process_cons, step_of_read_byte _ _ _ hb256 hrb,
      parse_calls_cons_false _ _ _ _ hb256 hrb]
    simp only [List.length_cons] at hlen
    by_cases hbs : bs = []
    · subst hbs
      have h1 : (s._payload_counter + 1) % 256 = s._payload_length := by
        simp only [List.length_nil] at hlen; omega
      simp only [process_nil, parse_calls, h1, if_true, List.sum_cons, List.sum_nil,
        Nat.add_zero, store_body, and_true]
    · have hpos : 0 < bs.length := List.length_pos.mpr hbs
      have h1 : (s._payload_counter + 1) % 256 = s._payload_counter + 1 := by omega
      have h2 : ¬ (s._payload_counter + 1 = s._payload_length) := by omega
      simp only [h1, if_neg h2]
      have hmod : (s._checksum + b) % 256 < 256 := Nat.mod_lt _ (by decide)
      obtain ⟨e1, e2⟩ := ih { s with
            _checksum := (s._checksum + b) % 256
            _buffer := if s._payload_counter < sizeof_buffer then
                s._buffer.set s._payload_counter b else s._buffer
            _payload_counter := s._payload_counter + 1
            _step := 4 } rfl (by show s._payload_counter + 1 + bs.length = s._payload_length; omega) hbs hn
        hmod (fun x hx => hb x (List.mem_cons_of_mem _ hx))
      rw [e1, e2]
      simp only [List.sum_cons, store_body, and_true, Nat.mod_add_mod, Nat.add_assoc]

/-! ## The buffer after a body has been stored -/

theorem store_body_length (bytes : List Nat) :
    ∀ (buf : List Nat) (k : Nat), (store_body buf k bytes).length = buf.length := by
  induction bytes with
  | nil => intro buf k; rfl
  | cons b bs ih =>
    intro buf k
    simp only [store_body]
    rw [ih]
    split <;> simp

theorem store_body_getElem? (bytes : List Nat) :
    ∀ (buf : List Nat) (k : Nat), buf.length = sizeof_buffer → ∀ i : Nat,
      (store_body buf k bytes)[i]?
        = if k ≤ i ∧ i < k + bytes.length ∧ i < sizeof_buffer then bytes[i - k]? else buf[i]? := by
  induction bytes with
  | nil =>
    intro buf k _ i
    have : ¬ (k ≤ i ∧ i < k + 0 ∧ i < sizeof_buffer) := by omega
    simp only [store_body, List.length_nil, if_neg this]
  | cons b bs ih =>
    intro buf k hbuf i
    simp only [store_body, List.length_cons]
    have hlen : (if k < sizeof_buffer then buf.set k b else buf).length = sizeof_buffer := by
      split <;> simp [hbuf]
    rw [ih _ (k + 1) hlen i]
    by_cases hik : i = k
    · subst hik
      have h1 : ¬ (i + 1 ≤ i ∧ i < i + 1 + bs.length ∧ i < sizeof_buffer) := by omega
      rw [if_neg h1]
      by_cases hi : i < sizeof_buffer
      · have h2 : i ≤ i ∧ i < i + (bs.length + 1) ∧ i < sizeof_buffer := by omega
        rw [if_pos h2, if_pos hi, List.getElem?_set]
        simp [hbuf, hi]
      · have h2 : ¬ (i ≤ i ∧ i < i + (bs.length + 1) ∧ i < sizeof_buffer) := by omega
        rw [if_neg h2, if_neg hi]
    · have hset : (if k < sizeof_buffer then buf.set k b else buf)[i]? = buf[i]? := by
        split
        · rw [List.getElem?_set]; simp [Ne.symm hik]
        · rfl
      rw [hset]
      by_cases hc : k + 1 ≤ i ∧ i < k + 1 + bs.length ∧ i < sizeof_buffer
      · have h2 : k ≤ i ∧ i < k + (bs.length + 1) ∧ i < sizeof_buffer := by omega
        rw [if_pos hc, if_pos h2]
        have : i - k = (i - (k + 1)) + 1 := by omega
        rw [this, List.getElem?_cons_succ]
      · have h2 : ¬ (k ≤ i ∧ i < k + (bs.length + 1) ∧ i < sizeof_buffer) := by omega
        rw [if_neg hc, if_neg h2]

theorem store_body_eq (buf p : List Nat) (hbuf : buf.length = sizeof_buffer) :
    store_body buf 0 p = p.take sizeof_buffer ++ buf.drop (min p.length sizeof_buffer) := by
  apply List.ext_getElem?
  intro i
  rw [store_body_getElem? p buf 0 hbuf i, List.getElem?_append]
  by_cases hi : i < p.length ∧ i < sizeof_buffer
  · have h1 : 0 ≤ i ∧ i < 0 + p.length ∧ i < sizeof_buffer := by omega
    have h2 : i < (p.take sizeof_buffer).length := by
      rw [List.length_take]; omega
    rw [if_pos h1, if_pos h2, List.getElem?_take_of_lt hi.2]
    simp
  · have h1 : ¬ (0 ≤ i ∧ i < 0 + p.length ∧ i < sizeof_buffer) := by omega
    have h2 : ¬ i < (p.take sizeof_buffer).length := by
      rw [List.length_take]; omega
    rw [if_neg h1, if_neg h2, List.getElem?_drop, List.length_take]
    by_cases hb : i < sizeof_buffer
    · congr 1; omega
    · rw [List.getElem?_eq_none (by omega), List.getElem?_eq_none (by omega)]

theorem store_body_take (buf p : List Nat) (hbuf : buf.length = sizeof_buffer)
    (hp : p.length ≤ sizeof_buffer) : (store_body buf 0 p).take p.length = p := by
  rw [store_body_eq buf p hbuf, List.take_of_length_le hp]
  exact List.take_left _ _

theorem byteAt_store_body (buf p : List Nat) (hbuf : buf.length = sizeof_buffer) (i : Nat)
    (hi : i < p.length) (hi2 : i < sizeof_buffer) :
    byteAt (store_body buf 0 p) i = byteAt p i := by
  have h1 : 0 ≤ i ∧ i < 0 + p.length ∧ i < sizeof_buffer := by omega
  simp only [byteAt, List.getD_eq_getElem?_getD, store_body_getElem? p buf 0 hbuf i, if_pos h1,
    Nat.sub_zero]

/-! ## Whole frames -/

theorem process_header_body (s : Driver) (hs : s._step = 0) (c : Nat) (hc : c < 256)
    (p : List Nat) (hne : p ≠ []) (hlen : p.length ≤ 255) (hp : ∀ b ∈ p, b < 256) :
    process s ([SYNC, c, p.length, (c + p.length) % 256] ++ p) = before_checksum s c p ∧
    parse_calls s ([SYNC, c, p.length, (c + p.length) % 256] ++ p) = [] := by
  obtain ⟨h1, h2⟩ := process_header s hs c p.length hc (by omega)
  obtain ⟨h3, h4⟩ := process_body p (after_header s c p.length) rfl
    (by simp [after_header]) hne (by show p.length < 256; omega)
    (by show 0 < 256; decide) hp
  rw [process_append, parse_calls_append, h1, h2, h3, h4]
  constructor
  · simp [after_header, before_checksum]
  · rfl

theorem process_frame (s : Driver) (hs : s._step = 0) (c : Nat) (hc : c < 256)
    (p : List Nat) (hne : p ≠ []) (hlen : p.length ≤ 255) (hp : ∀ b ∈ p, b < 256) :
    process s (frame c p) = parse_body (received s c p) ∧
    parse_calls s (frame c p) = [received s c p] := by
  obtain ⟨h1, h2⟩ := process_header_body s hs c hc p hne hlen hp
  have hm : p.sum % 256 < 256 := Nat.mod_lt _ (by decide)
  have hrb := read_byte_checksum_ok (before_checksum s c p) rfl (p.sum % 256) rfl
  unfold frame
  rw [process_append, parse_calls_append, h1, h2, process_cons,
    step_of_read_byte_call _ _ _ hm hrb, parse_calls_cons_true _ _ _ _ hm hrb]
  constructor
  · rfl
  · rfl

theorem process_bad_checksum (s : Driver) (hs : s._step = 0) (c : Nat) (hc : c < 256)
    (p : List Nat) (hne : p ≠ []) (hlen : p.length ≤ 255) (hp : ∀ b ∈ p, b < 256)
    (x : Nat) (hx : x < 256) (hbad : p.sum % 256 ≠ x) :
    process s ([SYNC, c, p.length, (c + p.length) % 256] ++ p ++ [x])
      = { before_checksum s c p with _step := 0 } ∧
    parse_calls s ([SYNC, c, p.length, (c + p.length) % 256] ++ p ++ [x]) = [] := by
  obtain ⟨h1, h2⟩ := process_header_body s hs c hc p hne hlen hp
  have hrb := read_byte_checksum_bad (before_checksum s c p) rfl x hbad
  rw [process_append, parse_calls_append, h1, h2, process_cons,
    step_of_read_byte _ _ _ hx hrb, parse_calls_cons_false _ _ _ _ hx hrb]
  constructor
  · rfl
  · rfl

/-! ## read_incoming on a port that holds fewer than 32768 bytes -/

theorem numc_of_small (n : Nat) (h : n < 32768) : numc_of n = (n : Int) := by
  unfold numc_of
  have : n % 65536 = n := Nat.mod_eq_of_lt (by omega)
  rw [this, if_pos h]

theorem read_incoming_small (s : Driver) (port : UARTDriver) (h : port.rx.length < 32768) :
    read_incoming s port = (process s port.rx, { port with rx := [] }) := by
  unfold read_incoming UARTDriver.available
  simp only [numc_of_small _ h]
  have h0 : ¬ ((port.rx.length : Int) < 0) := by omega
  rw [if_neg h0]
  simp

theorem frame_length (c : Nat) (p : List Nat) : (frame c p).length = p.length + 5 := by
  simp [frame]

theorem bytes_read_small (port : UARTDriver) (h : port.rx.length < 32768) :
    bytes_read port = port.rx := by
  unfold bytes_read UARTDriver.available
  simp only [numc_of_small _ h]
  have h0 : ¬ ((port.rx.length : Int) < 0) := by omega
  rw [if_neg h0]
  simp

theorem read_incoming_fst (s : Driver) (port : UARTDriver) :
    (read_incoming s port).1 = process s (bytes_read port) := by
  unfold read_incoming bytes_read
  by_cases h : numc_of port.available < 0
  · simp [h, process_nil]
  · simp [h]

theorem process_noise (bytes : List Nat) (s : Driver) (hs : s._step = 0)
    (h : ∀ b ∈ bytes, b % 256 ≠ SYNC) : process s bytes = s := by
  induction bytes with
  | nil => rfl
  | cons b bs ih =>
    have hb := h b (List.mem_cons_self _ _)
    have hstep : step s b = s := by
      simp [step, read_byte_noise s hs (b % 256) hb]
    rw [process_cons, hstep]
    exact ih (fun x hx => h x (List.mem_cons_of_mem _ hx))

/-! ## The send path: claims -/

/-- C5: when the port reports less free space than the payload size plus five,
`send_command` writes no byte: the port, the only state the function touches,
is returned as it was. -/
theorem send_command_refuses_without_space (port : UARTDriver) (cmd : Nat) (data : List Nat)
    (size : Nat) (h : port.txspace < size + 5) :
    send_command port cmd data size = port ∧
    bytes_written port (send_command port cmd data size) = [] := by
  have e : send_command port cmd data size = port := by
    unfold send_command
    rw [if_pos h]
  rw [e]
  exact ⟨rfl, by simp [bytes_written]⟩

theorem send_command_refuses_without_space_witness :
    send_command ⟨[], [9], 5⟩ CMD_MOTORS_ON [1] 1 = ⟨[], [9], 5⟩ ∧
    bytes_written ⟨[], [9], 5⟩ (send_command ⟨[], [9], 5⟩ CMD_MOTORS_ON [1] 1) = [] :=
  send_command_refuses_without_space ⟨[], [9], 5⟩ CMD_MOTORS_ON [1] 1 (by decide)

theorem send_command_written (port : UARTDriver) (c : Nat) (p : List Nat)
    (hc : c < 256) (hn : p.length ≤ 255) (hp : ∀ b ∈ p, b < 256)
    (hroom : p.length + 5 ≤ port.txspace) :
    bytes_written port (send_command port c p p.length) = frame c p := by
  unfold bytes_written
  rw [send_command_tx port c p hc hn hp hroom]
  simp

/-- C6: with room for the payload and five more bytes, `send_command` writes
the sync byte, the command id, the length, the header checksum, the payload
bytes in order and the payload sum modulo 256: the payload length plus five
bytes in total. -/
theorem send_command_wire_format (port : UARTDriver) (c : Nat) (p : List Nat)
    (hc : c < 256) (hn : p.length ≤ 255) (hp : ∀ b ∈ p, b < 256)
    (hroom : p.length + 5 ≤ port.txspace) :
    bytes_written port (send_command port c p p.length)
      = [62, c, p.length, (c + p.length) % 256] ++ p ++ [p.sum % 256] ∧
    (bytes_written port (send_command port c p p.length)).length = p.length + 5 := by
  rw [send_command_written port c p hc hn hp hroom]
  exact ⟨rfl, frame_length c p⟩

theorem send_command_wire_format_witness :
    bytes_written ⟨[], [], 8⟩ (send_command ⟨[], [], 8⟩ 86 [200, 100, 7] [200, 100, 7].length)
      = [62, 86, [200, 100, 7].length, (86 + [200, 100, 7].length) % 256] ++ [200, 100, 7]
          ++ [[200, 100, 7].sum % 256] ∧
    (bytes_written ⟨[], [], 8⟩
        (send_command ⟨[], [], 8⟩ 86 [200, 100, 7] [200, 100, 7].length)).length
      = [200, 100, 7].length + 5 :=
  send_command_wire_format ⟨[], [], 8⟩ 86 [200, 100, 7] (by decide) (by decide) (by decide)
    (by decide)

/-! ## Round trip through the receiver -/

theorem parse_body_parser_fields (s : Driver) :
    (parse_body s)._step = s._step ∧ (parse_body s)._buffer = s._buffer ∧
    (parse_body s)._command_id = s._command_id ∧
    (parse_body s)._checksum = s._checksum ∧
    (parse_body s)._payload_length = s._payload_length ∧
    (parse_body s)._payload_counter = s._payload_counter ∧
    (parse_body s)._state = s._state := by
  unfold parse_body
  split_ifs
  · simp [parse_body_board_info]
  · simp [parse_body_angles]
  · unfold parse_body_angles_ext
    cases s.mount <;> simp
  · simp [parse_body_read_params]
  · simp
  · simp

/-- Round trip for a non-empty payload: the frame written by `send_command`,
read by `read_incoming` from the wait-for-sync state, enters `parse_body` once,
with the command id and, when the payload fits the buffer, the payload at the
start of the buffer, and leaves the receiver waiting for sync. -/
theorem send_receive_nonempty (s : Driver) (hs : s._step = 0)
    (hbuf : s._buffer.length = sizeof_buffer) (port : UARTDriver) (c : Nat) (p : List Nat)
    (hc : c < 256) (hne : p ≠ []) (hn : p.length ≤ sizeof_buffer) (hp : ∀ b ∈ p, b < 256)
    (hroom : p.length + 5 ≤ port.txspace) (rest : UARTDriver)
    (hrx : rest.rx = bytes_written port (send_command port c p p.length)) :
    ∃ t, parse_calls s (bytes_read rest) = [t] ∧ t._command_id = c ∧
      t._buffer.take p.length = p ∧ (read_incoming s rest).1 = parse_body t ∧
      (read_incoming s rest).1._step = 0 := by
  have hn2 : p.length ≤ 255 := le_trans hn (by decide)
  have e : rest.rx = frame c p := by
    rw [hrx, send_command_written port c p hc hn2 hp hroom]
  have hsmall : rest.rx.length < 32768 := by rw [e, frame_length]; omega
  obtain ⟨h1, h2⟩ := process_frame s hs c hc p hne hn2 hp
  refine ⟨received s c p, ?_, rfl, ?_, ?_, ?_⟩
  · rw [bytes_read_small rest hsmall, e, h2]
  · exact store_body_take s._buffer p hbuf hn
  · rw [read_incoming_fst, bytes_read_small rest hsmall, e, h1]
  · rw [read_incoming_fst, bytes_read_small rest hsmall, e, h1,
      (parse_body_parser_fields _).1]
    rfl

/-- C1, at the failing input: the frame that `send_command` writes for an empty
payload (here for the motors-on command) is not accepted by `read_incoming`:
the receiver takes the checksum byte for a body byte, never enters `parse_body`
and is left in the body state instead of waiting for sync. -/
theorem send_receive_empty_payload_stalls :
    bytes_written ⟨[], [], 5⟩ (send_command ⟨[], [], 5⟩ CMD_MOTORS_ON [] 0)
      = [62, 77, 0, 77, 0] ∧
    parse_calls Driver.fresh (bytes_read ⟨[62, 77, 0, 77, 0], [], 0⟩) = [] ∧
    (read_incoming Driver.fresh ⟨[62, 77, 0, 77, 0], [], 0⟩).1._step = 4 ∧
    (read_incoming Driver.fresh ⟨[62, 77, 0, 77, 0], [], 0⟩).1._payload_counter = 1 := by
  refine ⟨by decide, by decide, by decide, by decide⟩

theorem empty_frame_stalls (s : Driver) (hs : s._step = 0) (c : Nat) (hc : c < 256) :
    (process s (frame c []))._step = 4 ∧ parse_calls s (frame c []) = [] := by
  obtain ⟨h1, h2⟩ := process_header s hs c 0 hc (by decide)
  have hrb := read_byte_body (after_header s c 0) rfl 0
  have e : frame c [] = [SYNC, c, 0, (c + 0) % 256] ++ [0] := rfl
  rw [e, process_append, parse_calls_append, h1, h2, process_cons,
    step_of_read_byte _ _ _ (by decide) hrb, parse_calls_cons_false _ _ _ _ (by decide) hrb]
  exact ⟨rfl, rfl⟩

/-! ## Splitting the input of read_incoming -/

/-- C2, as amended: when the bytes pending in the port and the byte sequences
`a` and `b` together number fewer than 32768, calling `read_incoming` after `a`
has arrived and again after `b` has arrived leaves the driver and the port in
exactly the state that one call after the arrival of `a ++ b` leaves them in. -/
theorem read_incoming_split (s : Driver) (port : UARTDriver) (a b : List Nat)
    (h : port.rx.length + (a.length + b.length) < 32768) :
    read_incoming (read_incoming s (deliver port a)).1
        (deliver (read_incoming s (deliver port a)).2 b)
      = read_incoming s (deliver port (a ++ b)) := by
  have h1 : (deliver port a).rx.length < 32768 := by simp [deliver]; omega
  rw [read_incoming_small s _ h1]
  rw [read_incoming_small _ _ (by simp [deliver]; omega),
    read_incoming_small _ _ (by simp [deliver]; omega)]
  simp [deliver, process_append]

theorem read_incoming_split_witness :
    read_incoming (read_incoming Driver.fresh (deliver ⟨[], [], 0⟩ [62, 73])).1
        (deliver (read_incoming Driver.fresh (deliver ⟨[], [], 0⟩ [62, 73])).2 [1, 74, 5, 5])
      = read_incoming Driver.fresh (deliver ⟨[], [], 0⟩ ([62, 73] ++ [1, 74, 5, 5])) :=
  read_incoming_split Driver.fresh ⟨[], [], 0⟩ [62, 73] [1, 74, 5, 5] (by decide)

theorem read_incoming_split_differs (noise : List Nat) (hlen : noise.length = 32767)
    (hnoise : ∀ b ∈ noise, b % 256 ≠ SYNC) :
    read_incoming (read_incoming Driver.fresh (deliver ⟨[], [], 0⟩ noise)).1
        (deliver (read_incoming Driver.fresh (deliver ⟨[], [], 0⟩ noise)).2 [62])
      ≠ read_incoming Driver.fresh (deliver ⟨[], [], 0⟩ (noise ++ [62])) := by
  have hd : ∀ l : List Nat, deliver ⟨[], [], 0⟩ l = ⟨l, [], 0⟩ := fun l => rfl
  have hl : read_incoming Driver.fresh ⟨noise, [], 0⟩ = (Driver.fresh, ⟨[], [], 0⟩) := by
    rw [read_incoming_small _ _ (by show noise.length < 32768; omega),
      process_noise noise _ rfl hnoise]
  have hr : (read_incoming Driver.fresh ⟨noise ++ [62], [], 0⟩).1 = Driver.fresh := by
    unfold read_incoming UARTDriver.available
    have : numc_of (noise ++ [62]).length = -32768 := by
      simp [numc_of, hlen]
    simp only [this]
    rfl
  intro heq
  have h1 := congrArg (fun r => r.1._step) heq
  simp only [hd, hl, hr] at h1
  revert h1
  decide

/-- C2, counterexample: with 32767 noise bytes arriving first and a sync byte
arriving later, two calls of `read_incoming` read everything and leave the
receiver past the sync byte, while one call after all 32768 bytes have arrived
finds a negative count in `numc` and reads nothing. -/
theorem read_incoming_split_counterexample :
    read_incoming (read_incoming Driver.fresh (deliver ⟨[], [], 0⟩ (List.replicate 32767 0))).1
        (deliver (read_incoming Driver.fresh (deliver ⟨[], [], 0⟩ (List.replicate 32767 0))).2
          [62])
      ≠ read_incoming Driver.fresh (deliver ⟨[], [], 0⟩ (List.replicate 32767 0 ++ [62])) :=
  read_incoming_split_differs (List.replicate 32767 0) (List.length_replicate _ _)
    (fun b hb => by rw [List.eq_of_mem_replicate hb]; decide)

/-! ## A corrupted payload byte -/

theorem sum_set_add (p : List Nat) : ∀ (i v : Nat) (hi : i < p.length),
    (p.set i v).sum + p[i] = p.sum + v := by
  induction p with
  | nil => intro i v hi; exact absurd hi (Nat.not_lt_zero _)
  | cons x xs ih =>
    intro i v hi
    cases i with
    | zero => simp; omega
    | succ j =>
      have := ih j v (by simpa using hi)
      simp only [List.set_cons_succ, List.sum_cons, List.getElem_cons_succ]
      omega

theorem frame_set_payload (c : Nat) (p : List Nat) (i v : Nat) (hi : i < p.length) :
    (frame c p).set (4 + i) v
      = [SYNC, c, (p.set i v).length, (c + (p.set i v).length) % 256] ++ p.set i v
          ++ [p.sum % 256] := by
  have e : 4 + i = i + 1 + 1 + 1 + 1 := by omega
  rw [e]
  simp only [frame, List.cons_append, List.nil_append, List.set_cons_succ, List.length_set,
    List.set_append_left _ _ hi]

/-- C3: when one payload byte of the frame written by `send_command` for a
non-empty payload is replaced by a different byte value, `read_incoming`,
started waiting for sync, reaches the body checksum with an accumulated sum that
differs from the checksum byte, never enters `parse_body`, changes no decoded
value and ends waiting for sync. -/
theorem corrupted_payload_byte_rejected (s : Driver) (hs : s._step = 0) (port : UARTDriver)
    (c : Nat) (p : List Nat) (hc : c < 256) (hne : 1 ≤ p.length) (hn : p.length ≤ 255)
    (hp : ∀ b ∈ p, b < 256) (hroom : p.length + 5 ≤ port.txspace)
    (i v : Nat) (hi : i < p.length) (hv : v < 256) (hdiff : v ≠ byteAt p i)
    (rest : UARTDriver)
    (hrx : rest.rx = (bytes_written port (send_command port c p p.length)).set (4 + i) v) :
    (read_incoming s rest).1._step = 0 ∧
    parse_calls s (bytes_read rest) = [] ∧
    decoded (read_incoming s rest).1 = decoded s ∧
    (process s (rest.rx.take (4 + p.length)))._step = 5 ∧
    (process s (rest.rx.take (4 + p.length)))._checksum ≠ byteAt rest.rx (4 + p.length) := by
  have e : rest.rx = [SYNC, c, (p.set i v).length, (c + (p.set i v).length) % 256]
      ++ p.set i v ++ [p.sum % 256] := by
    rw [hrx, send_command_written port c p hc hn hp hroom]
    exact frame_set_payload c p i v hi
  have hlen : (p.set i v).length = p.length := List.length_set _ _ _
  have hne2 : p.set i v ≠ [] := by
    intro h0
    rw [h0] at hlen
    simp at hlen
    omega
  have hp2 : ∀ b ∈ p.set i v, b < 256 := by
    intro b hb
    rcases List.mem_or_eq_of_mem_set hb with h | h
    · exact hp b h
    · rw [h]; exact hv
  have hsum : (p.set i v).sum % 256 ≠ p.sum % 256 := by
    have h1 := sum_set_add p i v hi
    have h2 : p[i] < 256 := hp _ (List.getElem_mem hi)
    have h3 : v ≠ p[i] := by
      simpa [byteAt, List.getElem?_eq_getElem hi] using hdiff
    omega
  have hsmall : rest.rx.length < 32768 := by
    rw [e]; simp; omega
  obtain ⟨h1, h2⟩ := process_bad_checksum s hs c hc (p.set i v) hne2 (by omega) hp2
    (p.sum % 256) (Nat.mod_lt _ (by decide)) hsum
  obtain ⟨h3, _⟩ := process_header_body s hs c hc (p.set i v) hne2 (by omega) hp2
  have htake : rest.rx.take (4 + p.length)
      = [SYNC, c, (p.set i v).length, (c + (p.set i v).length) % 256] ++ p.set i v := by
    rw [e]
    apply List.take_left'
    simp
    omega
  have hlast : byteAt rest.rx (4 + p.length) = p.sum % 256 := by
    have hl : ([SYNC, c, (p.set i v).length, (c + (p.set i v).length) % 256]
        ++ p.set i v).length = 4 + p.length := by
      simp; omega
    rw [e]
    unfold byteAt
    rw [List.getD_eq_getElem?_getD, List.getElem?_append_right (by rw [hl]), hl, Nat.sub_self]
    rfl
  refine ⟨?_, ?_, ?_, ?_, ?_⟩
  · rw [read_incoming_fst, bytes_read_small rest hsmall, e, h1]
  · rw [bytes_read_small rest hsmall, e, h2]
  · rw [read_incoming_fst, bytes_read_small rest hsmall, e, h1]
    rfl
  · rw [htake, h3]; rfl
  · rw [htake, h3, hlast]
    exact hsum

theorem corrupted_payload_byte_rejected_witness :
    (read_incoming Driver.fresh ⟨[62, 86, 3, 89, 200, 101, 7, 51], [], 0⟩).1._step = 0 ∧
    parse_calls Driver.fresh (bytes_read ⟨[62, 86, 3, 89, 200, 101, 7, 51], [], 0⟩) = [] ∧
    decoded (read_incoming Driver.fresh ⟨[62, 86, 3, 89, 200, 101, 7, 51], [], 0⟩).1
      = decoded Driver.fresh ∧
    (process Driver.fresh
      ((⟨[62, 86, 3, 89, 200, 101, 7, 51], [], 0⟩ : UARTDriver).rx.take
        (4 + [200, 100, 7].length)))._step = 5 ∧
    (process Driver.fresh
      ((⟨[62, 86, 3, 89, 200, 101, 7, 51], [], 0⟩ : UARTDriver).rx.take
        (4 + [200, 100, 7].length)))._checksum
      ≠ byteAt (⟨[62, 86, 3, 89, 200, 101, 7, 51], [], 0⟩ : UARTDriver).rx
          (4 + [200, 100, 7].length) :=
  corrupted_payload_byte_rejected Driver.fresh rfl ⟨[], [], 8⟩ 86 [200, 100, 7] (by decide)
    (by decide) (by decide) (by decide) (by decide) 1 101 (by decide) (by decide) (by decide)
    ⟨[62, 86, 3, 89, 200, 101, 7, 51], [], 0⟩ (by decide)

/-! ## Stores into the receive buffer -/

theorem read_byte_buffer (s : Driver) (d : Nat) :
    (read_byte s d).1._buffer
      = match store_index s with
        | some i => s._buffer.set i d
        | none => s._buffer := by
  by_cases h4 : s._step = 4
  · rw [read_byte_body s h4 d]
    unfold store_index
    rw [if_pos h4]
    by_cases hc : s._payload_counter < sizeof_buffer
    · simp only [if_pos hc]
    · simp only [if_neg hc]
  · have hnone : store_index s = none := by
      unfold store_index
      rw [if_neg h4]
    rw [hnone]
    unfold read_byte
    split_ifs <;> first | rfl | exact absurd (by assumption) h4 | (simp only []; split_ifs <;> rfl)

theorem step_buffer (s : Driver) (b : Nat) :
    (step s b)._buffer
      = match store_index s with
        | some i => s._buffer.set i (b % 256)
        | none => s._buffer := by
  have h := read_byte_buffer s (b % 256)
  unfold step
  by_cases hc : (read_byte s (b % 256)).2 = true
  · simp only [hc, if_true]
    rw [(parse_body_parser_fields _).2.1, h]
  · simp only [hc]
    exact h

theorem step_buffer_length (s : Driver) (b : Nat) :
    (step s b)._buffer.length = s._buffer.length := by
  rw [step_buffer]
  split <;> simp

theorem process_buffer_length (bytes : List Nat) :
    ∀ s : Driver, (process s bytes)._buffer.length = s._buffer.length := by
  induction bytes with
  | nil => intro s; rfl
  | cons b bs ih => intro s; rw [process_cons, ih, step_buffer_length]

theorem store_index_lt (s : Driver) (i : Nat) (h : store_index s = some i) :
    i < sizeof_buffer := by
  unfold store_index at h
  split_ifs at h with h1 h2
  simp only [Option.some.injEq] at h
  omega

theorem store_indices_lt (bytes : List Nat) :
    ∀ s : Driver, ∀ i ∈ store_indices s bytes, i < sizeof_buffer := by
  induction bytes with
  | nil => intro s i hi; simp [store_indices] at hi
  | cons b bs ih =>
    intro s i hi
    simp only [store_indices, List.mem_append, Option.mem_toList, Option.mem_def] at hi
    rcases hi with h | h
    · exact store_index_lt s i h
    · exact ih _ i h

theorem step_buffer_beyond (s : Driver) (b : Nat) (i : Nat) (hi : sizeof_buffer ≤ i) :
    (step s b)._buffer[i]? = s._buffer[i]? := by
  rw [step_buffer]
  cases h : store_index s with
  | none => rfl
  | some j =>
    have hj := store_index_lt s j h
    exact List.getElem?_set_ne (by omega)

theorem process_buffer_beyond (bytes : List Nat) (i : Nat) (hi : sizeof_buffer ≤ i) :
    ∀ s : Driver, (process s bytes)._buffer[i]? = s._buffer[i]? := by
  induction bytes with
  | nil => intro s; rfl
  | cons b bs ih => intro s; rw [process_cons, ih, step_buffer_beyond s b i hi]

/-- C4: whatever the driver state and the bytes in the port, `read_incoming`
writes no cell at or behind offset 105 of the memory that starts at `_buffer`
(the list `_buffer` of the state may be longer than the array, its cells from
offset 105 on stand for what lies behind the array) and the buffer keeps its
size. Each byte run through the switch changes the buffer by at most one store,
at the index `store_index` of the state before the byte, and every index at
which a byte is stored is below the size of the buffer. -/
theorem receive_buffer_never_overrun (s : Driver) (port : UARTDriver) :
    (∀ i, sizeof_buffer ≤ i → (read_incoming s port).1._buffer[i]? = s._buffer[i]?) ∧
    (read_incoming s port).1._buffer.length = s._buffer.length ∧
    (∀ (t : Driver) (d : Nat),
      (read_byte t d).1._buffer
        = match store_index t with
          | some i => t._buffer.set i d
          | none => t._buffer) ∧
    (∀ (t : Driver) (b : Nat),
      (step t b)._buffer
        = match store_index t with
          | some i => t._buffer.set i (b % 256)
          | none => t._buffer) ∧
    (∀ i ∈ store_indices s (bytes_read port), i < sizeof_buffer) := by
  refine ⟨?_, ?_, read_byte_buffer, step_buffer, store_indices_lt _ s⟩
  · intro i hi
    rw [read_incoming_fst]
    exact process_buffer_beyond _ i hi s
  · rw [read_incoming_fst, process_buffer_length]

set_option maxRecDepth 100000 in
/-- A store behind the array is skipped: in the body state with the payload
counter at 200 and 300 cells of memory from the start of the buffer on, a byte
is counted and added to the checksum, and no cell is changed. -/
theorem store_beyond_capacity_skipped :
    (step { Driver.fresh with
        _step := 4, _payload_length := 255, _payload_counter := 200,
        _buffer := List.replicate 300 0 } 7)._buffer = List.replicate 300 0 ∧
    (step { Driver.fresh with
        _step := 4, _payload_length := 255, _payload_counter := 200,
        _buffer := List.replicate 300 0 } 7)._payload_counter = 201 ∧
    (step { Driver.fresh with
        _step := 4, _payload_length := 255, _payload_counter := 200,
        _buffer := List.replicate 300 0 } 7)._checksum = 7 ∧
    (step { Driver.fresh with
        _step := 4, _payload_length := 255, _payload_counter := 104,
        _buffer := List.replicate 300 0 } 7)._buffer
      = (List.replicate 300 0).set 104 7 := by
  refine ⟨by decide, by decide, by decide, by decide⟩

set_option maxRecDepth 100000 in
/-- A frame that declares 110 body bytes: the first 105 are stored, at the
offsets 0 to 104, and the last five are counted without being stored. -/
theorem store_indices_oversized_frame :
    store_indices Driver.fresh ([62, 73, 110, 183] ++ List.replicate 110 7)
      = List.range 105 ∧
    (process Driver.fresh ([62, 73, 110, 183] ++ List.replicate 110 7))._step = 5 ∧
    (process Driver.fresh ([62, 73, 110, 183] ++ List.replicate 110 7))._payload_counter
      = 110 := by
  decide

/-! ## Bit tests and field reads -/

theorem and_one_ne_zero (m : Nat) : ((m &&& 1) != 0) = m.testBit 0 := by
  rw [Nat.and_one_is_mod, Nat.testBit_zero]
  rcases Nat.mod_two_eq_zero_or_one m with h | h <;> simp [h]

theorem testBit_two (i : Nat) : Nat.testBit 2 i = decide (1 = i) := by
  have h := @Nat.testBit_two_pow 1 i
  simpa using h

theorem and_two_ne_zero (m : Nat) : ((m &&& 2) != 0) = m.testBit 1 := by
  have h : m &&& 2 = if m.testBit 1 then 2 else 0 := by
    apply Nat.eq_of_testBit_eq
    intro i
    rw [Nat.testBit_and, testBit_two]
    by_cases hi : 1 = i
    · subst hi
      cases hm : m.testBit 1 <;> simp [testBit_two]
    · cases hm : m.testBit 1 <;> simp [hi, testBit_two]
  rw [h]
  cases m.testBit 1 <;> simp

theorem byteAt_take (b : List Nat) (k i : Nat) (h : i < k) :
    byteAt (b.take k) i = byteAt b i := by
  simp only [byteAt, List.getD_eq_getElem?_getD, List.getElem?_take_of_lt h]

theorem byteAt_eq_of_take_eq (b1 b2 : List Nat) (k i : Nat) (h : b1.take k = b2.take k)
    (hi : i < k) : byteAt b1 i = byteAt b2 i := by
  rw [← byteAt_take b1 k i hi, ← byteAt_take b2 k i hi, h]

theorem u16At_eq_of_take_eq (b1 b2 : List Nat) (k i : Nat) (h : b1.take k = b2.take k)
    (hi : i + 1 < k) : u16At b1 i = u16At b2 i := by
  unfold u16At
  rw [byteAt_eq_of_take_eq b1 b2 k i h (by omega),
    byteAt_eq_of_take_eq b1 b2 k (i + 1) h hi]

theorem i16At_eq_of_take_eq (b1 b2 : List Nat) (k i : Nat) (h : b1.take k = b2.take k)
    (hi : i + 1 < k) : i16At b1 i = i16At b2 i := by
  unfold i16At
  rw [u16At_eq_of_take_eq b1 b2 k i h hi]

theorem u32At_eq_of_take_eq (b1 b2 : List Nat) (k i : Nat) (h : b1.take k = b2.take k)
    (hi : i + 3 < k) : u32At b1 i = u32At b2 i := by
  unfold u32At
  rw [byteAt_eq_of_take_eq b1 b2 k i h (by omega),
    byteAt_eq_of_take_eq b1 b2 k (i + 1) h (by omega),
    byteAt_eq_of_take_eq b1 b2 k (i + 2) h (by omega),
    byteAt_eq_of_take_eq b1 b2 k (i + 3) h hi]

theorem i32At_eq_of_take_eq (b1 b2 : List Nat) (k i : Nat) (h : b1.take k = b2.take k)
    (hi : i + 3 < k) : i32At b1 i = i32At b2 i := by
  unfold i32At
  rw [u32At_eq_of_take_eq b1 b2 k i h hi]

theorem store_body_take_eq (buf p : List Nat) (hbuf : buf.length = sizeof_buffer) (k : Nat)
    (hk : k ≤ p.length) (hk2 : k ≤ sizeof_buffer) :
    (store_body buf 0 p).take k = p.take k := by
  rw [store_body_eq buf p hbuf, List.take_append_of_le_length (by rw [List.length_take]; omega),
    List.take_take, Nat.min_eq_left hk2]

theorem VALUE_TO_DEGREE_injective (a b : Int) (h : VALUE_TO_DEGREE a = VALUE_TO_DEGREE b) :
    a = b := by
  unfold VALUE_TO_DEGREE at h
  have h2 : (a : ℚ) = (b : ℚ) := by
    have hne : (360 / 16384 : ℚ) ≠ 0 := by norm_num
    exact mul_right_cancel₀ hne h
  exact_mod_cast h2

/-! ## Decoding a received frame -/

theorem read_incoming_frame (s : Driver) (hs : s._step = 0) (c : Nat) (hc : c < 256)
    (p : List Nat) (hne : p ≠ []) (hlen : p.length ≤ 255) (hp : ∀ b ∈ p, b < 256)
    (port : UARTDriver) (hrx : port.rx = frame c p) :
    (read_incoming s port).1 = parse_body (received s c p) := by
  have hsmall : port.rx.length < 32768 := by rw [hrx, frame_length]; omega
  rw [read_incoming_fst, bytes_read_small port hsmall, hrx,
    (process_frame s hs c hc p hne hlen hp).1]

theorem received_buffer_take (s : Driver) (hbuf : s._buffer.length = sizeof_buffer) (c : Nat)
    (p : List Nat) (k : Nat) (hk : k ≤ p.length) (hk2 : k ≤ sizeof_buffer) :
    (received s c p)._buffer.take k = p.take k :=
  store_body_take_eq s._buffer p hbuf k hk hk2

theorem parse_body_of_board_info (s : Driver) (h : s._command_id = CMD_BOARD_INFO) :
    parse_body s = parse_body_board_info s := by
  unfold parse_body
  rw [if_pos h]

theorem parse_body_of_angles (s : Driver) (h : s._command_id = CMD_GET_ANGLES) :
    parse_body s = parse_body_angles s := by
  unfold parse_body
  rw [if_neg (by rw [h]; decide), if_pos h]

theorem parse_body_of_angles_ext (s : Driver) (h : s._command_id = CMD_GET_ANGLES_EXT) :
    parse_body s = parse_body_angles_ext s := by
  unfold parse_body
  rw [if_neg (by rw [h]; decide), if_neg (by rw [h]; decide), if_pos h]

theorem parse_body_of_read_params (s : Driver) (h : s._command_id = CMD_READ_PARAMS) :
    parse_body s = parse_body_read_params s := by
  unfold parse_body
  rw [if_neg (by rw [h]; decide), if_neg (by rw [h]; decide), if_neg (by rw [h]; decide),
    if_pos h]

theorem parse_body_of_write_params (s : Driver) (h : s._command_id = CMD_WRITE_PARAMS) :
    parse_body s = s := by
  unfold parse_body
  rw [if_neg (by rw [h]; decide), if_neg (by rw [h]; decide), if_neg (by rw [h]; decide),
    if_neg (by rw [h]; decide), if_pos h]

theorem parse_body_of_other (s : Driver) (h1 : s._command_id ≠ CMD_BOARD_INFO)
    (h2 : s._command_id ≠ CMD_GET_ANGLES) (h3 : s._command_id ≠ CMD_GET_ANGLES_EXT)
    (h4 : s._command_id ≠ CMD_READ_PARAMS) (h5 : s._command_id ≠ CMD_WRITE_PARAMS) :
    parse_body s = { s with _last_command_confirmed := true } := by
  unfold parse_body
  rw [if_neg h1, if_neg h2, if_neg h3, if_neg h4, if_neg h5]

/-- C10: after a board information frame whose payload starts with the board
version byte `b`, the firmware word `f`, a debug byte and the feature word `m`
(least significant byte first), the driver holds board version `b / 10`,
firmware version `f / 1000` as a rational, beta digit `f % 10`, the three-axis
flag equal to bit 0 of `m` and the battery flag equal to bit 1 of `m`, and
`has_pan_control` returns the three-axis flag. -/
theorem board_info_decode (s : Driver) (hs : s._step = 0)
    (hbuf : s._buffer.length = sizeof_buffer) (b f dbg m : Nat) (tail : List Nat)
    (hb : b < 256) (hf : f < 65536) (hdbg : dbg < 256) (hm : m < 65536)
    (htail : ∀ x ∈ tail, x < 256) (hlen : tail.length + 6 ≤ 255) (port : UARTDriver)
    (hrx : port.rx
      = frame CMD_BOARD_INFO (b :: f % 256 :: f / 256 :: dbg :: m % 256 :: m / 256 :: tail)) :
    (read_incoming s port).1._board_version = b / 10 ∧
    (read_incoming s port).1._current_firmware_version = (f : ℚ) / 1000 ∧
    (read_incoming s port).1._firmware_beta_version = f % 10 ∧
    (read_incoming s port).1._gimbal_3axis = m.testBit 0 ∧
    (read_incoming s port).1._gimbal_bat_monitoring = m.testBit 1 ∧
    has_pan_control (read_incoming s port).1 = m.testBit 0 := by
  have hp : ∀ x ∈ b :: f % 256 :: f / 256 :: dbg :: m % 256 :: m / 256 :: tail, x < 256 := by
    intro x hx
    simp only [List.mem_cons] at hx
    rcases hx with h | h | h | h | h | h | h
    · omega
    · omega
    · omega
    · omega
    · omega
    · omega
    · exact htail x h
  have hr := read_incoming_frame s hs CMD_BOARD_INFO (by decide) _ (by simp)
    (by simp; omega) hp port hrx
  have htk := received_buffer_take s hbuf CMD_BOARD_INFO
    (b :: f % 256 :: f / 256 :: dbg :: m % 256 :: m / 256 :: tail) 6 (by simp) (by decide)
  have e0 : version_board_version (received s CMD_BOARD_INFO
      (b :: f % 256 :: f / 256 :: dbg :: m % 256 :: m / 256 :: tail))._buffer = b := by
    unfold version_board_version
    rw [byteAt_eq_of_take_eq _ _ 6 0 htk (by decide)]
    rfl
  have e1 : version_firmware_version (received s CMD_BOARD_INFO
      (b :: f % 256 :: f / 256 :: dbg :: m % 256 :: m / 256 :: tail))._buffer = f := by
    unfold version_firmware_version
    rw [u16At_eq_of_take_eq _ _ 6 1 htk (by decide)]
    show f % 256 + 256 * (f / 256) = f
    omega
  have e2 : version_board_features (received s CMD_BOARD_INFO
      (b :: f % 256 :: f / 256 :: dbg :: m % 256 :: m / 256 :: tail))._buffer = m := by
    unfold version_board_features
    rw [u16At_eq_of_take_eq _ _ 6 4 htk (by decide)]
    show m % 256 + 256 * (m / 256) = m
    omega
  have hpb : parse_body (received s CMD_BOARD_INFO
      (b :: f % 256 :: f / 256 :: dbg :: m % 256 :: m / 256 :: tail))
      = parse_body_board_info (received s CMD_BOARD_INFO
      (b :: f % 256 :: f / 256 :: dbg :: m % 256 :: m / 256 :: tail)) :=
    parse_body_of_board_info _ rfl
  rw [hr, hpb]
  unfold has_pan_control parse_body_board_info
  simp only [e0, e1, e2, and_one_ne_zero, and_two_ne_zero, and_self]

theorem board_info_decode_witness :
    (read_incoming Driver.fresh ⟨frame CMD_BOARD_INFO
        [31, 2826 % 256, 2826 / 256, 0, 3 % 256, 3 / 256], [], 0⟩).1._board_version = 31 / 10 ∧
    (read_incoming Driver.fresh ⟨frame CMD_BOARD_INFO
        [31, 2826 % 256, 2826 / 256, 0, 3 % 256, 3 / 256], [], 0⟩).1._current_firmware_version
      = ((2826 : Nat) : ℚ) / 1000 ∧
    (read_incoming Driver.fresh ⟨frame CMD_BOARD_INFO
        [31, 2826 % 256, 2826 / 256, 0, 3 % 256, 3 / 256], [], 0⟩).1._firmware_beta_version
      = 2826 % 10 ∧
    (read_incoming Driver.fresh ⟨frame CMD_BOARD_INFO
        [31, 2826 % 256, 2826 / 256, 0, 3 % 256, 3 / 256], [], 0⟩).1._gimbal_3axis
      = Nat.testBit 3 0 ∧
    (read_incoming Driver.fresh ⟨frame CMD_BOARD_INFO
        [31, 2826 % 256, 2826 / 256, 0, 3 % 256, 3 / 256], [], 0⟩).1._gimbal_bat_monitoring
      = Nat.testBit 3 1 ∧
    has_pan_control (read_incoming Driver.fresh ⟨frame CMD_BOARD_INFO
        [31, 2826 % 256, 2826 / 256, 0, 3 % 256, 3 / 256], [], 0⟩).1 = Nat.testBit 3 0 :=
  board_info_decode Driver.fresh rfl (by decide) 31 2826 0 3 [] (by decide) (by decide)
    (by decide) (by decide) (by decide) (by decide) _ rfl

/-! ## Extended angles -/

theorem parse_body_angles_ext_current_angle (s : Driver) :
    (parse_body_angles_ext s)._current_angle = angles_ext_current_angle s._state s._buffer := by
  unfold parse_body_angles_ext
  cases s.mount <;> rfl

theorem angles_ext_current_angle_of_take (st : mount_state) (b1 b2 : List Nat)
    (h : b1.take sizeof_alexmos_angles_ext = b2.take sizeof_alexmos_angles_ext) :
    angles_ext_current_angle st b1 = angles_ext_current_angle st b2 := by
  unfold angles_ext_current_angle angles_ext_angle_roll angles_ext_angle_pitch
    angles_ext_angle_yaw angles_ext_stator_rotor_angle_roll
    angles_ext_stator_rotor_angle_pitch angles_ext_stator_rotor_angle_yaw
  rw [i16At_eq_of_take_eq b1 b2 _ 0 h (by decide),
    i16At_eq_of_take_eq b1 b2 _ 18 h (by decide),
    i16At_eq_of_take_eq b1 b2 _ 36 h (by decide),
    i32At_eq_of_take_eq b1 b2 _ 4 h (by decide),
    i32At_eq_of_take_eq b1 b2 _ 22 h (by decide),
    i32At_eq_of_take_eq b1 b2 _ 40 h (by decide)]

theorem read_incoming_angles_ext (s : Driver) (hs : s._step = 0)
    (hbuf : s._buffer.length = sizeof_buffer) (p : List Nat)
    (hmin : sizeof_alexmos_angles_ext ≤ p.length) (hlen : p.length ≤ 255)
    (hp : ∀ b ∈ p, b < 256) (port : UARTDriver) (hrx : port.rx = frame CMD_GET_ANGLES_EXT p) :
    (read_incoming s port).1._current_angle = angles_ext_current_angle s._state p := by
  have hne : p ≠ [] := by
    intro h0
    rw [h0] at hmin
    exact absurd hmin (by decide)
  rw [read_incoming_frame s hs CMD_GET_ANGLES_EXT (by decide) p hne hlen hp port hrx,
    parse_body_of_angles_ext _ rfl, parse_body_angles_ext_current_angle]
  have htk := received_buffer_take s hbuf CMD_GET_ANGLES_EXT p sizeof_alexmos_angles_ext hmin
    (by decide)
  have h2 : (received s CMD_GET_ANGLES_EXT p)._buffer.take sizeof_alexmos_angles_ext
      = p.take sizeof_alexmos_angles_ext := htk
  rw [angles_ext_current_angle_of_take _ _ _ h2]
  rfl

theorem byteAt_append_right (l1 l2 : List Nat) (n i : Nat) (h : l1.length = n) :
    byteAt (l1 ++ l2) (n + i) = byteAt l2 i := by
  unfold byteAt
  rw [List.getD_eq_getElem?_getD, List.getD_eq_getElem?_getD,
    List.getElem?_append_right (by omega)]
  congr 2
  omega

theorem i16At_append_right (l1 l2 : List Nat) (n i : Nat) (h : l1.length = n) :
    i16At (l1 ++ l2) (n + i) = i16At l2 i := by
  have h1 := byteAt_append_right l1 l2 n (i + 1) h
  rw [← Nat.add_assoc] at h1
  unfold i16At u16At
  rw [byteAt_append_right l1 l2 n i h, h1]

theorem i32At_append_right (l1 l2 : List Nat) (n i : Nat) (h : l1.length = n) :
    i32At (l1 ++ l2) (n + i) = i32At l2 i := by
  have h1 := byteAt_append_right l1 l2 n (i + 1) h
  have h2 := byteAt_append_right l1 l2 n (i + 2) h
  have h3 := byteAt_append_right l1 l2 n (i + 3) h
  rw [← Nat.add_assoc] at h1 h2 h3
  unfold i32At u32At
  rw [byteAt_append_right l1 l2 n i h, h1, h2, h3]

/-- The two angle fields at the head of the block of one axis of an extended
angles payload: the 16-bit word `w` and the 32-bit word `r`, least significant
byte first, read as two's complement numbers. -/
theorem axis_block_fields (w c0 c1 r : Nat) (tl : List Nat) :
    i16At ([w % 256, w / 256, c0, c1, r % 256, r / 256 % 256, r / 65536 % 256, r / 16777216]
        ++ tl) 0
      = (if w < 32768 then (w : Int) else (w : Int) - 65536) ∧
    i32At ([w % 256, w / 256, c0, c1, r % 256, r / 256 % 256, r / 65536 % 256, r / 16777216]
        ++ tl) 4
      = (if r < 2147483648 then (r : Int) else (r : Int) - 4294967296) := by
  have e1 : w % 256 + 256 * (w / 256) = w := by omega
  have e2 : r % 256 + 256 * (r / 256 % 256) + 65536 * (r / 65536 % 256)
      + 16777216 * (r / 16777216) = r := by omega
  constructor
  · show (if w % 256 + 256 * (w / 256) < 32768 then ((w % 256 + 256 * (w / 256) : Nat) : Int)
        else ((w % 256 + 256 * (w / 256) : Nat) : Int) - 65536) = _
    rw [e1]
  · show (if r % 256 + 256 * (r / 256 % 256) + 65536 * (r / 65536 % 256)
          + 16777216 * (r / 16777216) < 2147483648
        then ((r % 256 + 256 * (r / 256 % 256) + 65536 * (r / 65536 % 256)
          + 16777216 * (r / 16777216) : Nat) : Int)
        else ((r % 256 + 256 * (r / 256 % 256) + 65536 * (r / 65536 % 256)
          + 16777216 * (r / 16777216) : Nat) : Int) - 4294967296) = _
    rw [e2]

/-- C7: after an extended angles frame whose payload carries, least significant
byte first, the 16-bit angle word `wr` at offset 0 and the 32-bit stator-rotor
word `rr` at offset 4 for roll, and the 16-bit word `wp` at offset 18 and the
32-bit word `rp` at offset 22 for pitch (the words read as two's complement
numbers): for roll and for pitch the current angle is the decoded stator-rotor
word of the axis when the input mode of the axis is body frame and the decoded
plain angle word for every other input mode; when the two words differ in
value, the angle is the decoded stator-rotor word exactly when the mode is body
frame. -/
theorem angles_ext_roll_pitch_decode (s : Driver) (hs : s._step = 0)
    (hbuf : s._buffer.length = sizeof_buffer) (wr cr0 cr1 rr wp cp0 cp1 rp : Nat)
    (res rest : List Nat) (hres : res.length = 10) (p : List Nat)
    (hpay : p
      = [wr % 256, wr / 256, cr0, cr1, rr % 256, rr / 256 % 256, rr / 65536 % 256, rr / 16777216]
        ++ res
        ++ [wp % 256, wp / 256, cp0, cp1, rp % 256, rp / 256 % 256, rp / 65536 % 256,
            rp / 16777216]
        ++ rest)
    (hmin : sizeof_alexmos_angles_ext ≤ p.length) (hlen : p.length ≤ 255)
    (hp : ∀ b ∈ p, b < 256) (port : UARTDriver) (hrx : port.rx = frame CMD_GET_ANGLES_EXT p) :
    ((s._state._roll_input_mode = Input_Mode_Angle_Body_Frame →
        (read_incoming s port).1._current_angle.x
          = VALUE_TO_DEGREE (if rr < 2147483648 then (rr : Int) else (rr : Int) - 4294967296)) ∧
      (s._state._roll_input_mode ≠ Input_Mode_Angle_Body_Frame →
        (read_incoming s port).1._current_angle.x
          = VALUE_TO_DEGREE (if wr < 32768 then (wr : Int) else (wr : Int) - 65536)) ∧
      ((if rr < 2147483648 then (rr : Int) else (rr : Int) - 4294967296)
          ≠ (if wr < 32768 then (wr : Int) else (wr : Int) - 65536) →
        ((read_incoming s port).1._current_angle.x
            = VALUE_TO_DEGREE
                (if rr < 2147483648 then (rr : Int) else (rr : Int) - 4294967296)
          ↔ s._state._roll_input_mode = Input_Mode_Angle_Body_Frame))) ∧
    ((s._state._pitch_input_mode = Input_Mode_Angle_Body_Frame →
        (read_incoming s port).1._current_angle.y
          = VALUE_TO_DEGREE (if rp < 2147483648 then (rp : Int) else (rp : Int) - 4294967296)) ∧
      (s._state._pitch_input_mode ≠ Input_Mode_Angle_Body_Frame →
        (read_incoming s port).1._current_angle.y
          = VALUE_TO_DEGREE (if wp < 32768 then (wp : Int) else (wp : Int) - 65536)) ∧
      ((if rp < 2147483648 then (rp : Int) else (rp : Int) - 4294967296)
          ≠ (if wp < 32768 then (wp : Int) else (wp : Int) - 65536) →
        ((read_incoming s port).1._current_angle.y
            = VALUE_TO_DEGREE
                (if rp < 2147483648 then (rp : Int) else (rp : Int) - 4294967296)
          ↔ s._state._pitch_input_mode = Input_Mode_Angle_Body_Frame))) := by
  rw [read_incoming_angles_ext s hs hbuf p hmin hlen hp port hrx]
  have e1 : p
      = [wr % 256, wr / 256, cr0, cr1, rr % 256, rr / 256 % 256, rr / 65536 % 256, rr / 16777216]
        ++ (res
          ++ ([wp % 256, wp / 256, cp0, cp1, rp % 256, rp / 256 % 256, rp / 65536 % 256,
              rp / 16777216]
          ++ rest)) := by
    rw [hpay, List.append_assoc, List.append_assoc]
  have e2 : p
      = ([wr % 256, wr / 256, cr0, cr1, rr % 256, rr / 256 % 256, rr / 65536 % 256,
            rr / 16777216]
          ++ res)
        ++ ([wp % 256, wp / 256, cp0, cp1, rp % 256, rp / 256 % 256, rp / 65536 % 256,
              rp / 16777216]
          ++ rest) := by
    rw [hpay, List.append_assoc]
  have h18 : ([wr % 256, wr / 256, cr0, cr1, rr % 256, rr / 256 % 256, rr / 65536 % 256,
      rr / 16777216] ++ res).length = 18 := by
    rw [List.length_append, hres]
    rfl
  have hA : angles_ext_angle_roll p
      = (if wr < 32768 then (wr : Int) else (wr : Int) - 65536) := by
    unfold angles_ext_angle_roll
    rw [e1]
    exact (axis_block_fields wr cr0 cr1 rr _).1
  have hB : angles_ext_stator_rotor_angle_roll p
      = (if rr < 2147483648 then (rr : Int) else (rr : Int) - 4294967296) := by
    unfold angles_ext_stator_rotor_angle_roll
    rw [e1]
    exact (axis_block_fields wr cr0 cr1 rr _).2
  have hC : angles_ext_angle_pitch p
      = (if wp < 32768 then (wp : Int) else (wp : Int) - 65536) := by
    unfold angles_ext_angle_pitch
    rw [e2]
    exact (i16At_append_right _ _ 18 0 h18).trans (axis_block_fields wp cp0 cp1 rp _).1
  have hD : angles_ext_stator_rotor_angle_pitch p
      = (if rp < 2147483648 then (rp : Int) else (rp : Int) - 4294967296) := by
    unfold angles_ext_stator_rotor_angle_pitch
    rw [e2]
    exact (i32At_append_right _ _ 18 4 h18).trans (axis_block_fields wp cp0 cp1 rp _).2
  unfold angles_ext_current_angle
  rw [hA, hB, hC, hD]
  refine ⟨⟨?_, ?_, ?_⟩, ?_, ?_, ?_⟩
  · intro h; simp only [if_pos h]
  · intro h; simp only [if_neg h]
  · intro hd
    by_cases h : s._state._roll_input_mode = Input_Mode_Angle_Body_Frame
    · simp only [h, if_true]
    · simp only [if_neg h, h, iff_false]
      exact fun e => hd (VALUE_TO_DEGREE_injective _ _ e).symm
  · intro h; simp only [if_pos h]
  · intro h; simp only [if_neg h]
  · intro hd
    by_cases h : s._state._pitch_input_mode = Input_Mode_Angle_Body_Frame
    · simp only [h, if_true]
    · simp only [if_neg h, h, iff_false]
      exact fun e => hd (VALUE_TO_DEGREE_injective _ _ e).symm

/-- A witness of C7: with roll in body frame mode and pitch in angular rate
mode, the sample payload (roll words 100 and 70000, pitch words 65534, that is
-2, and 5) gives the roll angle of the stator-rotor word 70000 and the pitch
angle of the plain word -2. -/
theorem angles_ext_roll_pitch_decode_witness :
    (read_incoming sample_driver
        ⟨frame CMD_GET_ANGLES_EXT sample_angles_ext_payload, [], 0⟩).1._current_angle.x
      = VALUE_TO_DEGREE 70000 ∧
    (read_incoming sample_driver
        ⟨frame CMD_GET_ANGLES_EXT sample_angles_ext_payload, [], 0⟩).1._current_angle.y
      = VALUE_TO_DEGREE (-2) :=
  ⟨(angles_ext_roll_pitch_decode sample_driver rfl (by decide) 100 0 0 70000 65534 0 0 5
      (List.replicate 10 0)
      (List.replicate 10 0 ++ [44, 1, 0, 0, 255, 255, 255, 255] ++ List.replicate 10 0)
      (by decide) sample_angles_ext_payload (by decide) (by decide) (by decide) (by decide)
      _ rfl).1.1 rfl,
   (angles_ext_roll_pitch_decode sample_driver rfl (by decide) 100 0 0 70000 65534 0 0 5
      (List.replicate 10 0)
      (List.replicate 10 0 ++ [44, 1, 0, 0, 255, 255, 255, 255] ++ List.replicate 10 0)
      (by decide) sample_angles_ext_payload (by decide) (by decide) (by decide) (by decide)
      _ rfl).2.2.1 (by decide)⟩

/-- C8: after an extended angles frame whose payload carries, least significant
byte first, the 16-bit yaw angle word `wy` at offset 36 and the 32-bit yaw
stator-rotor word `ry` at offset 40 (the words read as two's complement
numbers), the current yaw angle is the decoded plain word when the yaw input
mode is absolute frame and the decoded stator-rotor word for every other yaw
input mode, the angular rate mode included; when the two words differ in value,
the angle is the decoded plain word exactly when the mode is absolute frame. -/
theorem angles_ext_yaw_decode (s : Driver) (hs : s._step = 0)
    (hbuf : s._buffer.length = sizeof_buffer) (wy cy0 cy1 ry : Nat)
    (pre rest : List Nat) (hpre : pre.length = 36) (p : List Nat)
    (hpay : p
      = pre
        ++ [wy % 256, wy / 256, cy0, cy1, ry % 256, ry / 256 % 256, ry / 65536 % 256,
            ry / 16777216]
        ++ rest)
    (hmin : sizeof_alexmos_angles_ext ≤ p.length) (hlen : p.length ≤ 255)
    (hp : ∀ b ∈ p, b < 256) (port : UARTDriver) (hrx : port.rx = frame CMD_GET_ANGLES_EXT p) :
    (s._state._yaw_input_mode = Input_Mode_Angle_Absolute_Frame →
      (read_incoming s port).1._current_angle.z
        = VALUE_TO_DEGREE (if wy < 32768 then (wy : Int) else (wy : Int) - 65536)) ∧
    (s._state._yaw_input_mode ≠ Input_Mode_Angle_Absolute_Frame →
      (read_incoming s port).1._current_angle.z
        = VALUE_TO_DEGREE (if ry < 2147483648 then (ry : Int) else (ry : Int) - 4294967296)) ∧
    (s._state._yaw_input_mode = Input_Mode_Angular_Rate →
      (read_incoming s port).1._current_angle.z
        = VALUE_TO_DEGREE (if ry < 2147483648 then (ry : Int) else (ry : Int) - 4294967296)) ∧
    ((if ry < 2147483648 then (ry : Int) else (ry : Int) - 4294967296)
        ≠ (if wy < 32768 then (wy : Int) else (wy : Int) - 65536) →
      ((read_incoming s port).1._current_angle.z
          = VALUE_TO_DEGREE (if wy < 32768 then (wy : Int) else (wy : Int) - 65536)
        ↔ s._state._yaw_input_mode = Input_Mode_Angle_Absolute_Frame)) := by
  rw [read_incoming_angles_ext s hs hbuf p hmin hlen hp port hrx]
  have e1 : p
      = pre
        ++ ([wy % 256, wy / 256, cy0, cy1, ry % 256, ry / 256 % 256, ry / 65536 % 256,
            ry / 16777216]
          ++ rest) := by
    rw [hpay, List.append_assoc]
  have hA : angles_ext_angle_yaw p
      = (if wy < 32768 then (wy : Int) else (wy : Int) - 65536) := by
    unfold angles_ext_angle_yaw
    rw [e1]
    exact (i16At_append_right _ _ 36 0 hpre).trans (axis_block_fields wy cy0 cy1 ry _).1
  have hB : angles_ext_stator_rotor_angle_yaw p
      = (if ry < 2147483648 then (ry : Int) else (ry : Int) - 4294967296) := by
    unfold angles_ext_stator_rotor_angle_yaw
    rw [e1]
    exact (i32At_append_right _ _ 36 4 hpre).trans (axis_block_fields wy cy0 cy1 ry _).2
  unfold angles_ext_current_angle
  rw [hA, hB]
  refine ⟨?_, ?_, ?_, ?_⟩
  · intro h; simp only [h, ne_eq, not_true_eq_false, if_false]
  · intro h; simp only [ne_eq, h, not_false_eq_true, if_true]
  · intro h; simp only [h, ne_eq, reduceCtorEq, not_false_eq_true, if_true]
  · intro hd
    by_cases h : s._state._yaw_input_mode = Input_Mode_Angle_Absolute_Frame
    · simp only [h, ne_eq, not_true_eq_false, if_false]
    · simp only [ne_eq, h, not_false_eq_true, if_true, iff_false]
      exact fun e => hd (VALUE_TO_DEGREE_injective _ _ e)

/-- A witness of C8: the sample payload carries the yaw words 300 and
4294967295, that is -1; with yaw in absolute frame mode the yaw angle is that of
the plain word 300, and with yaw in angular rate mode that of the stator-rotor
word -1. -/
theorem angles_ext_yaw_decode_witness :
    (read_incoming sample_driver
        ⟨frame CMD_GET_ANGLES_EXT sample_angles_ext_payload, [], 0⟩).1._current_angle.z
      = VALUE_TO_DEGREE 300 ∧
    (read_incoming Driver.fresh
        ⟨frame CMD_GET_ANGLES_EXT sample_angles_ext_payload, [], 0⟩).1._current_angle.z
      = VALUE_TO_DEGREE (-1) :=
  ⟨(angles_ext_yaw_decode sample_driver rfl (by decide) 300 0 0 4294967295
      ([100, 0, 0, 0, 112, 17, 1, 0] ++ List.replicate 10 0
        ++ [254, 255, 0, 0, 5, 0, 0, 0] ++ List.replicate 10 0)
      (List.replicate 10 0) (by decide) sample_angles_ext_payload (by decide) (by decide)
      (by decide) (by decide) _ rfl).1 rfl,
   (angles_ext_yaw_decode Driver.fresh rfl (by decide) 300 0 0 4294967295
      ([100, 0, 0, 0, 112, 17, 1, 0] ++ List.replicate 10 0
        ++ [254, 255, 0, 0, 5, 0, 0, 0] ++ List.replicate 10 0)
      (List.replicate 10 0) (by decide) sample_angles_ext_payload (by decide) (by decide)
      (by decide) (by decide) _ rfl).2.2.1 rfl⟩

theorem sample_angles_ext_payload_fields :
    sample_angles_ext_payload.length = sizeof_alexmos_angles_ext ∧
    angles_ext_angle_roll sample_angles_ext_payload = 100 ∧
    angles_ext_stator_rotor_angle_roll sample_angles_ext_payload = 70000 ∧
    angles_ext_angle_pitch sample_angles_ext_payload = -2 ∧
    angles_ext_stator_rotor_angle_pitch sample_angles_ext_payload = 5 ∧
    angles_ext_angle_yaw sample_angles_ext_payload = 300 ∧
    angles_ext_stator_rotor_angle_yaw sample_angles_ext_payload = -1 := by
  decide

/-! ## What parse_body reads -/

theorem take_eq_of_take_eq (b1 b2 : List Nat) (k m : Nat) (hkm : k ≤ m)
    (h : b1.take m = b2.take m) : b1.take k = b2.take k := by
  have e1 : b1.take k = (b1.take m).take k := by
    rw [List.take_take, Nat.min_eq_left hkm]
  have e2 : b2.take k = (b2.take m).take k := by
    rw [List.take_take, Nat.min_eq_left hkm]
  rw [e1, e2, h]

theorem struct_size_le (c : Nat) : struct_size c ≤ sizeof_buffer := by
  unfold struct_size
  split_ifs <;> decide

theorem decoded_parse_body_of_take (s : Driver) (b1 b2 : List Nat)
    (h : b1.take (struct_size s._command_id) = b2.take (struct_size s._command_id)) :
    decoded (parse_body { s with _buffer := b1 })
      = decoded (parse_body { s with _buffer := b2 }) := by
  by_cases h1 : s._command_id = CMD_BOARD_INFO
  · rw [parse_body_of_board_info { s with _buffer := b1 } h1,
      parse_body_of_board_info { s with _buffer := b2 } h1]
    have hk : b1.take 6 = b2.take 6 := by
      simpa [struct_size, h1] using h
    simp only [decoded, parse_body_board_info, version_board_version,
      version_firmware_version, version_board_features,
      byteAt_eq_of_take_eq b1 b2 6 0 hk (by decide),
      u16At_eq_of_take_eq b1 b2 6 1 hk (by decide),
      u16At_eq_of_take_eq b1 b2 6 4 hk (by decide)]
  by_cases h2 : s._command_id = CMD_GET_ANGLES
  · rw [parse_body_of_angles { s with _buffer := b1 } h2,
      parse_body_of_angles { s with _buffer := b2 } h2]
    have hk : b1.take 18 = b2.take 18 := by
      simpa [struct_size, h2] using h
    simp only [decoded, parse_body_angles, angles_angle_roll, angles_angle_pitch,
      angles_angle_yaw,
      i16At_eq_of_take_eq b1 b2 18 0 hk (by decide),
      i16At_eq_of_take_eq b1 b2 18 6 hk (by decide),
      i16At_eq_of_take_eq b1 b2 18 12 hk (by decide)]
  by_cases h3 : s._command_id = CMD_GET_ANGLES_EXT
  · rw [parse_body_of_angles_ext { s with _buffer := b1 } h3,
      parse_body_of_angles_ext { s with _buffer := b2 } h3]
    have hk : b1.take sizeof_alexmos_angles_ext = b2.take sizeof_alexmos_angles_ext := by
      simpa [struct_size, h3] using h
    have ha := angles_ext_current_angle_of_take s._state b1 b2 hk
    unfold parse_body_angles_ext
    cases hm : s.mount <;> simp only [decoded, ha]
  by_cases h4 : s._command_id = CMD_READ_PARAMS
  · rw [parse_body_of_read_params { s with _buffer := b1 } h4,
      parse_body_of_read_params { s with _buffer := b2 } h4]
    have hk : b1.take sizeof_alexmos_params = b2.take sizeof_alexmos_params := by
      simpa [struct_size, h4] using h
    simp only [decoded, parse_body_read_params, hk]
  by_cases h5 : s._command_id = CMD_WRITE_PARAMS
  · rw [parse_body_of_write_params { s with _buffer := b1 } h5,
      parse_body_of_write_params { s with _buffer := b2 } h5]
    rfl
  · rw [parse_body_of_other { s with _buffer := b1 } h1 h2 h3 h4 h5,
      parse_body_of_other { s with _buffer := b2 } h1 h2 h3 h4 h5]
    rfl

/-- C9, as amended: for every command id, every declared length `n` that is at
least the size of the structure `parse_body` reads for that command id, and
every two receive buffers that agree on their first `min n 105` bytes,
`parse_body` run from the same prior driver state produces the same decoded
values. -/
theorem parse_body_reads_stored_payload (s : Driver) (n : Nat) (b1 b2 : List Nat)
    (hsize : struct_size s._command_id ≤ n)
    (hagree : b1.take (min n sizeof_buffer) = b2.take (min n sizeof_buffer)) :
    decoded (parse_body { s with _payload_length := n, _buffer := b1 })
      = decoded (parse_body { s with _payload_length := n, _buffer := b2 }) := by
  have hk : struct_size s._command_id ≤ min n sizeof_buffer :=
    Nat.le_min.mpr ⟨hsize, struct_size_le _⟩
  exact decoded_parse_body_of_take { s with _payload_length := n } b1 b2
    (take_eq_of_take_eq b1 b2 _ _ hk hagree)

theorem parse_body_reads_stored_payload_witness :
    decoded (parse_body { Driver.fresh with
        _command_id := CMD_BOARD_INFO, _payload_length := 6,
        _buffer := [31, 10, 11, 0, 3, 0, 1, 1] })
      = decoded (parse_body { Driver.fresh with
        _command_id := CMD_BOARD_INFO, _payload_length := 6,
        _buffer := [31, 10, 11, 0, 3, 0, 2, 2] }) :=
  parse_body_reads_stored_payload { Driver.fresh with _command_id := CMD_BOARD_INFO } 6
    [31, 10, 11, 0, 3, 0, 1, 1] [31, 10, 11, 0, 3, 0, 2, 2] (by decide) (by decide)

/-- C9, counterexample: for a board information frame of declared length 1,
two buffers that agree on their first byte and differ in the second, a byte
left from an earlier frame, give different firmware beta digits. -/
theorem parse_body_reads_stale_bytes :
    (31 :: List.replicate 104 0).take (min 1 sizeof_buffer)
      = (31 :: 7 :: List.replicate 103 0).take (min 1 sizeof_buffer) ∧
    decoded (parse_body { Driver.fresh with
        _command_id := CMD_BOARD_INFO, _payload_length := 1,
        _buffer := 31 :: List.replicate 104 0 })
      ≠ decoded (parse_body { Driver.fresh with
        _command_id := CMD_BOARD_INFO, _payload_length := 1,
        _buffer := 31 :: 7 :: List.replicate 103 0 }) := by
  refine ⟨by decide, ?_⟩
  intro h
  have h2 := congrArg Decoded.firmware_beta_version h
  revert h2
  decide

/-! ## The angle codec: properties -/

theorem trunc_toward_zero_intCast (x : Int) : trunc_toward_zero (x : ℚ) = x := by
  unfold trunc_toward_zero
  split <;> simp

theorem to_int16_of_range (z : Int) (h1 : -32768 ≤ z) (h2 : z ≤ 32767) : to_int16 z = z := by
  unfold to_int16
  omega

theorem trunc_toward_zero_bounds (q : ℚ) (lo hi : Int) (h1 : (lo : ℚ) ≤ q) (h2 : q ≤ (hi : ℚ)) :
    lo ≤ trunc_toward_zero q ∧ trunc_toward_zero q ≤ hi := by
  unfold trunc_toward_zero
  split
  · exact ⟨Int.le_floor.mpr h1, by
      have := Int.floor_le q
      exact_mod_cast (le_trans this h2)⟩
  · exact ⟨by
      have := Int.le_ceil q
      exact_mod_cast (le_trans h1 this), Int.ceil_le.mpr h2⟩

theorem trunc_toward_zero_abs_sub_lt (q : ℚ) : |(trunc_toward_zero q : ℚ) - q| < 1 := by
  unfold trunc_toward_zero
  split
  · have h1 := Int.floor_le q
    have h2 := Int.lt_floor_add_one q
    rw [abs_lt]
    constructor <;> linarith
  · have h1 := Int.le_ceil q
    have h2 := Int.ceil_lt_add_one q
    rw [abs_lt]
    constructor <;> linarith

/-- C16: converting a signed 16-bit wire value to degrees and back gives the
value again, the two scale factors taken as exact rationals. -/
theorem degree_to_value_value_to_degree (x : Int) (h1 : -32768 ≤ x) (h2 : x ≤ 32767) :
    DEGREE_TO_VALUE (VALUE_TO_DEGREE x) = x := by
  unfold DEGREE_TO_VALUE VALUE_TO_DEGREE
  have e : (x : ℚ) * (360 / 16384) * (16384 / 360) = (x : ℚ) := by
    field_simp
  rw [e, trunc_toward_zero_intCast, to_int16_of_range x h1 h2]

theorem degree_to_value_value_to_degree_witness :
    DEGREE_TO_VALUE (VALUE_TO_DEGREE (-12345)) = -12345 :=
  degree_to_value_value_to_degree (-12345) (by decide) (by decide)

theorem degree_to_value_of_range (d : ℚ) (h1 : -32768 ≤ d * (16384 / 360))
    (h2 : d * (16384 / 360) ≤ 32767) :
    DEGREE_TO_VALUE d = trunc_toward_zero (d * (16384 / 360)) := by
  unfold DEGREE_TO_VALUE
  obtain ⟨b1, b2⟩ := trunc_toward_zero_bounds (d * (16384 / 360)) (-32768) 32767
    (by push_cast; exact h1) (by push_cast; exact h2)
  exact to_int16_of_range _ b1 b2

/-- C17: for an angle in degrees whose scaled value lies in the signed 16-bit
range, converting to wire units and back gives an angle within 0.022 degrees
of the original, the arithmetic taken over exact rationals. -/
theorem value_to_degree_degree_to_value (d : ℚ) (h1 : -32768 ≤ d * (16384 / 360))
    (h2 : d * (16384 / 360) ≤ 32767) :
    |VALUE_TO_DEGREE (DEGREE_TO_VALUE d) - d| ≤ 22 / 1000 := by
  rw [degree_to_value_of_range d h1 h2]
  unfold VALUE_TO_DEGREE
  have h := trunc_toward_zero_abs_sub_lt (d * (16384 / 360))
  rw [abs_lt] at h
  rw [abs_le]
  constructor <;> linarith [h.1, h.2]

theorem value_to_degree_degree_to_value_witness :
    |VALUE_TO_DEGREE (DEGREE_TO_VALUE (45 / 7)) - 45 / 7| ≤ 22 / 1000 :=
  value_to_degree_degree_to_value (45 / 7) (by norm_num) (by norm_num)

/-- In exact arithmetic, for an angle in degrees whose scaled value lies in the
signed 16-bit range, the expression of DEGREE_TO_VALUE is the scaled value with
its fraction dropped: the floor of a scaled value that is not negative and the
ceiling of a negative one, less than one unit away from the scaled value and
never larger in magnitude. -/
theorem degree_to_value_truncates (d : ℚ) (h1 : -32768 ≤ d * (16384 / 360))
    (h2 : d * (16384 / 360) ≤ 32767) :
    (0 ≤ d * (16384 / 360) → DEGREE_TO_VALUE d = ⌊d * (16384 / 360)⌋) ∧
    (d * (16384 / 360) < 0 → DEGREE_TO_VALUE d = ⌈d * (16384 / 360)⌉) ∧
    |(DEGREE_TO_VALUE d : ℚ) - d * (16384 / 360)| < 1 ∧
    |(DEGREE_TO_VALUE d : ℚ)| ≤ |d * (16384 / 360)| := by
  rw [degree_to_value_of_range d h1 h2]
  refine ⟨?_, ?_, trunc_toward_zero_abs_sub_lt _, ?_⟩
  · intro h
    unfold trunc_toward_zero
    rw [if_pos h]
  · intro h
    unfold trunc_toward_zero
    rw [if_neg (not_le.mpr h)]
  · unfold trunc_toward_zero
    split
    · rename_i h
      have hf : (0 : ℚ) ≤ (⌊d * (16384 / 360)⌋ : ℚ) := by
        exact_mod_cast Int.floor_nonneg.mpr h
      rw [abs_of_nonneg hf, abs_of_nonneg h]
      exact Int.floor_le _
    · rename_i h
      have hneg : d * (16384 / 360) ≤ 0 := le_of_lt (not_le.mp h)
      have hc : (⌈d * (16384 / 360)⌉ : ℚ) ≤ 0 := by
        exact_mod_cast Int.ceil_le.mpr (by simpa using hneg)
      rw [abs_of_nonpos hc, abs_of_nonpos hneg]
      linarith [Int.le_ceil (d * (16384 / 360))]

theorem degree_to_value_truncates_witness :
    DEGREE_TO_VALUE (-1 / 50) = ⌈(-1 / 50 : ℚ) * (16384 / 360)⌉ :=
  (degree_to_value_truncates (-1 / 50) (by norm_num) (by norm_num)).2.1 (by norm_num)

/-- In exact arithmetic, 0.02 degrees has the scaled value 0.91, which is in
range and rounds to 1, while the expression of DEGREE_TO_VALUE gives 0. -/
theorem degree_to_value_does_not_round :
    -32768 ≤ (1 / 50 : ℚ) * (16384 / 360) ∧ (1 / 50 : ℚ) * (16384 / 360) ≤ 32767 ∧
    round ((1 / 50 : ℚ) * (16384 / 360)) = 1 ∧ DEGREE_TO_VALUE (1 / 50) = 0 ∧
    DEGREE_TO_VALUE (1 / 50) ≠ round ((1 / 50 : ℚ) * (16384 / 360)) := by
  have hr : round ((1 / 50 : ℚ) * (16384 / 360)) = 1 := by
    rw [round_eq, Int.floor_eq_iff]
    constructor <;> norm_num
  have hd : DEGREE_TO_VALUE (1 / 50) = 0 := by
    rw [degree_to_value_of_range _ (by norm_num) (by norm_num)]
    unfold trunc_toward_zero
    rw [if_pos (by norm_num), Int.floor_eq_iff]
    constructor <;> norm_num
  refine ⟨by norm_num, by norm_num, hr, hd, ?_⟩
  rw [hr, hd]
  decide

/-! ## The angle codec in single precision -/

theorem round_ties_even_abs_sub_le (q : ℚ) : |(round_ties_even q : ℚ) - q| ≤ 1 / 2 := by
  have h1 := Int.floor_le q
  have h2 := Int.lt_floor_add_one q
  unfold round_ties_even
  rw [abs_le]
  split_ifs <;> push_cast <;> constructor <;> linarith

theorem binary32_ulp_exponent_le (q : ℚ) (k : Int) (hk : 0 ≤ k) (h : |q| < 2 ^ (k + 1)) :
    binary32_ulp_exponent q ≤ k - 23 := by
  have hlog : Int.log 2 |q| ≤ k := by
    by_cases h0 : q = 0
    · rw [h0, abs_zero, Int.log_of_right_le_zero 2 (le_refl 0)]
      exact hk
    · have hpos : 0 < |q| := abs_pos.mpr h0
      have := (Int.lt_zpow_iff_log_lt (by norm_num : 1 < 2) hpos).mp (by exact_mod_cast h)
      omega
  unfold binary32_ulp_exponent
  have : max (Int.log 2 |q|) (-126) ≤ k := max_le hlog (by omega)
  omega

/-- The rounding to a `float` moves a value below `2 ^ (k + 1)` in magnitude
by at most half a unit in the last place of that magnitude. -/
theorem binary32_round_error (q : ℚ) (k : Int) (hk : 0 ≤ k) (h : |q| < 2 ^ (k + 1)) :
    |binary32_round q - q| ≤ 2 ^ (k - 23) / 2 := by
  have he := binary32_ulp_exponent_le q k hk h
  have hu : (0 : ℚ) < 2 ^ binary32_ulp_exponent q := zpow_pos (by norm_num) _
  have hr := round_ties_even_abs_sub_le (q / 2 ^ binary32_ulp_exponent q)
  have hle : (2 : ℚ) ^ binary32_ulp_exponent q ≤ 2 ^ (k - 23) :=
    zpow_le_zpow_right₀ (by norm_num) he
  have e : binary32_round q - q
      = ((round_ties_even (q / 2 ^ binary32_ulp_exponent q) : ℚ)
          - q / 2 ^ binary32_ulp_exponent q) * 2 ^ binary32_ulp_exponent q := by
    unfold binary32_round
    field_simp
  rw [e, abs_mul, abs_of_pos hu]
  calc |(round_ties_even (q / 2 ^ binary32_ulp_exponent q) : ℚ)
          - q / 2 ^ binary32_ulp_exponent q| * 2 ^ binary32_ulp_exponent q
      ≤ 1 / 2 * 2 ^ binary32_ulp_exponent q := by
        exact mul_le_mul_of_nonneg_right hr (le_of_lt hu)
    _ ≤ 1 / 2 * 2 ^ (k - 23) := by
        exact mul_le_mul_of_nonneg_left hle (by norm_num)
    _ = 2 ^ (k - 23) / 2 := by ring

/-- The product computed in single precision lies within 1/200 of a wire unit
of the exact scaled value, for a scaled value in the signed 16-bit range. -/
theorem binary32_product_error (d : ℚ) (h1 : -32768 ≤ d * (16384 / 360))
    (h2 : d * (16384 / 360) ≤ 32767) :
    |binary32_round (binary32_round d * binary32_round (16384 / 360)) - d * (16384 / 360)|
      ≤ 1 / 200 := by
  have hd : |d| ≤ 720 := by
    rw [abs_le]
    constructor <;> linarith
  have e10 : (2 : ℚ) ^ ((9 : Int) + 1) = 1024 := by norm_num
  have e9 : (2 : ℚ) ^ ((9 : Int) - 23) / 2 = 1 / 32768 := by norm_num
  have e6 : (2 : ℚ) ^ ((5 : Int) + 1) = 64 := by norm_num
  have e5 : (2 : ℚ) ^ ((5 : Int) - 23) / 2 = 1 / 524288 := by norm_num
  have e16 : (2 : ℚ) ^ ((15 : Int) + 1) = 65536 := by norm_num
  have e15 : (2 : ℚ) ^ ((15 : Int) - 23) / 2 = 1 / 512 := by norm_num
  have hc0 : |(16384 / 360 : ℚ)| = 16384 / 360 := abs_of_pos (by norm_num)
  have hδ1 : |binary32_round d - d| ≤ 1 / 32768 := by
    rw [← e9]
    exact binary32_round_error d 9 (by decide) (by rw [e10]; linarith)
  have hδ2 : |binary32_round (16384 / 360) - 16384 / 360| ≤ 1 / 524288 := by
    rw [← e5]
    exact binary32_round_error (16384 / 360) 5 (by decide) (by rw [e6, hc0]; norm_num)
  have hc : |binary32_round (16384 / 360)| ≤ 46 := by
    rw [abs_le] at hδ2 ⊢
    constructor <;> linarith [hδ2.1, hδ2.2]
  have hsplit : binary32_round d * binary32_round (16384 / 360) - d * (16384 / 360)
      = (binary32_round d - d) * binary32_round (16384 / 360)
        + d * (binary32_round (16384 / 360) - 16384 / 360) := by ring
  have hz : |binary32_round d * binary32_round (16384 / 360) - d * (16384 / 360)|
      ≤ 1 / 32768 * 46 + 720 * (1 / 524288) := by
    rw [hsplit]
    refine le_trans (abs_add _ _) (add_le_add ?_ ?_)
    · rw [abs_mul]
      exact mul_le_mul hδ1 hc (abs_nonneg _) (by norm_num)
    · rw [abs_mul]
      exact mul_le_mul hd hδ2 (abs_nonneg _) (by norm_num)
  have hzabs : |binary32_round d * binary32_round (16384 / 360)| < 2 ^ ((15 : Int) + 1) := by
    rw [e16, abs_lt]
    rw [abs_le] at hz
    constructor <;> linarith [hz.1, hz.2]
  have hδ3 := binary32_round_error (binary32_round d * binary32_round (16384 / 360)) 15
    (by decide) hzabs
  rw [e15] at hδ3
  rw [abs_le] at hz hδ3 ⊢
  constructor <;> linarith [hz.1, hz.2, hδ3.1, hδ3.2]

/-- The `float` nearest to a value with binary exponent `k` whose quotient by
the unit in the last place lies less than a half from the integer `n`. -/
theorem binary32_round_eq (q : ℚ) (k n : Int) (hk : -126 ≤ k) (h1 : 2 ^ k ≤ |q|)
    (h2 : |q| < 2 ^ (k + 1)) (h3 : |q / 2 ^ (k - 23) - n| < 1 / 2) :
    binary32_round q = n * 2 ^ (k - 23) := by
  have hpos : 0 < |q| := lt_of_lt_of_le (zpow_pos (by norm_num) k) h1
  have hlog : Int.log 2 |q| = k := by
    have ha := (Int.zpow_le_iff_le_log (by norm_num : 1 < 2) hpos).mp (by exact_mod_cast h1)
    have hb := (Int.lt_zpow_iff_log_lt (by norm_num : 1 < 2) hpos).mp (by exact_mod_cast h2)
    omega
  have he : binary32_ulp_exponent q = k - 23 := by
    unfold binary32_ulp_exponent
    rw [hlog, max_eq_left hk]
  unfold binary32_round
  rw [he]
  congr 1
  rw [abs_lt] at h3
  unfold round_ties_even
  by_cases hn : (n : ℚ) ≤ q / 2 ^ (k - 23)
  · have hf : ⌊q / 2 ^ (k - 23)⌋ = n := by
      rw [Int.floor_eq_iff]
      constructor <;> linarith [h3.1, h3.2]
    rw [hf, if_pos (by linarith [h3.2])]
  · have hf : ⌊q / 2 ^ (k - 23)⌋ = n - 1 := by
      rw [Int.floor_eq_iff]
      push_cast
      constructor <;> linarith [h3.1, h3.2]
    rw [hf]
    push_cast
    rw [if_neg (by linarith [h3.1]), if_pos (by linarith [h3.1])]
    ring

/-- C18, as amended: DEGREE_TO_VALUE drops the fraction of the product computed
in single precision. For every angle in degrees whose scaled value lies in the
signed 16-bit range, the result is that product rounded toward zero, without
wrapping; the product lies within 1/200 of a wire unit of the scaled value, so
the result lies less than 1 + 1/200 units from the scaled value and at most one
unit from the integer nearest to it. -/
theorem degree_to_value_binary32_truncates (d : ℚ) (h1 : -32768 ≤ d * (16384 / 360))
    (h2 : d * (16384 / 360) ≤ 32767) :
    DEGREE_TO_VALUE_binary32 d
      = trunc_toward_zero
          (binary32_round (binary32_round d * binary32_round (16384 / 360))) ∧
    (-32768 ≤ DEGREE_TO_VALUE_binary32 d ∧ DEGREE_TO_VALUE_binary32 d ≤ 32767) ∧
    |binary32_round (binary32_round d * binary32_round (16384 / 360)) - d * (16384 / 360)|
      ≤ 1 / 200 ∧
    |(DEGREE_TO_VALUE_binary32 d : ℚ) - d * (16384 / 360)| < 1 + 1 / 200 ∧
    |DEGREE_TO_VALUE_binary32 d - round (d * (16384 / 360))| ≤ 1 := by
  have hy := binary32_product_error d h1 h2
  have hy2 := abs_le.mp hy
  have hlo : -32768 ≤ trunc_toward_zero
      (binary32_round (binary32_round d * binary32_round (16384 / 360))) := by
    unfold trunc_toward_zero
    split
    · rename_i h0
      exact le_trans (by decide) (Int.floor_nonneg.mpr h0)
    · have : (-32769 : Int) < ⌈binary32_round
          (binary32_round d * binary32_round (16384 / 360))⌉ := by
        rw [Int.lt_ceil]
        push_cast
        linarith [hy2.1]
      omega
  have hhi : trunc_toward_zero
      (binary32_round (binary32_round d * binary32_round (16384 / 360))) ≤ 32767 := by
    unfold trunc_toward_zero
    split
    · have : ⌊binary32_round (binary32_round d * binary32_round (16384 / 360))⌋
          < (32768 : Int) := by
        rw [Int.floor_lt]
        push_cast
        linarith [hy2.2]
      omega
    · rename_i h0
      have : ⌈binary32_round (binary32_round d * binary32_round (16384 / 360))⌉
          ≤ (0 : Int) := by
        rw [Int.ceil_le]
        push_cast
        exact le_of_lt (not_le.mp h0)
      omega
  have hval : DEGREE_TO_VALUE_binary32 d
      = trunc_toward_zero
          (binary32_round (binary32_round d * binary32_round (16384 / 360))) := by
    unfold DEGREE_TO_VALUE_binary32
    exact to_int16_of_range _ hlo hhi
  have ht := abs_lt.mp (trunc_toward_zero_abs_sub_lt
    (binary32_round (binary32_round d * binary32_round (16384 / 360))))
  have hnear : |(DEGREE_TO_VALUE_binary32 d : ℚ) - d * (16384 / 360)| < 1 + 1 / 200 := by
    rw [hval, abs_lt]
    constructor <;> linarith [ht.1, ht.2, hy2.1, hy2.2]
  refine ⟨hval, ⟨by rw [hval]; exact hlo, by rw [hval]; exact hhi⟩, hy, hnear, ?_⟩
  have hr := abs_le.mp (abs_sub_round (d * (16384 / 360)))
  have hn := abs_lt.mp hnear
  have hq : |((DEGREE_TO_VALUE_binary32 d - round (d * (16384 / 360)) : Int) : ℚ)|
      < ((1 + 1 : Int) : ℚ) := by
    push_cast
    rw [abs_lt]
    constructor <;> linarith [hr.1, hr.2, hn.1, hn.2]
  rw [← Int.cast_abs, Int.cast_lt] at hq
  exact Int.lt_add_one_iff.mp hq

/-- A witness of C18 as amended, at 45/7 degrees. -/
theorem degree_to_value_binary32_truncates_witness :
    |(DEGREE_TO_VALUE_binary32 (45 / 7) : ℚ) - 45 / 7 * (16384 / 360)| < 1 + 1 / 200 ∧
    |DEGREE_TO_VALUE_binary32 (45 / 7) - round ((45 / 7 : ℚ) * (16384 / 360))| ≤ 1 :=
  ⟨(degree_to_value_binary32_truncates (45 / 7) (by norm_num) (by norm_num)).2.2.2.1,
   (degree_to_value_binary32_truncates (45 / 7) (by norm_num) (by norm_num)).2.2.2.2⟩

/-- C18, counterexample: 0.02 degrees has the scaled value 0.91, which is in
range and rounds to 1, while DEGREE_TO_VALUE, computed in single precision,
gives 0. -/
theorem degree_to_value_binary32_does_not_round :
    -32768 ≤ (1 / 50 : ℚ) * (16384 / 360) ∧ (1 / 50 : ℚ) * (16384 / 360) ≤ 32767 ∧
    round ((1 / 50 : ℚ) * (16384 / 360)) = 1 ∧ DEGREE_TO_VALUE_binary32 (1 / 50) = 0 ∧
    DEGREE_TO_VALUE_binary32 (1 / 50) ≠ round ((1 / 50 : ℚ) * (16384 / 360)) := by
  have hr : round ((1 / 50 : ℚ) * (16384 / 360)) = 1 := by
    rw [round_eq, Int.floor_eq_iff]
    constructor <;> norm_num
  have hy := abs_le.mp (binary32_product_error (1 / 50) (by norm_num) (by norm_num))
  have hd : DEGREE_TO_VALUE_binary32 (1 / 50) = 0 := by
    unfold DEGREE_TO_VALUE_binary32
    have h0 : (0 : ℚ) ≤ binary32_round (binary32_round (1 / 50) * binary32_round (16384 / 360)) := by
      linarith [hy.1]
    have hf : trunc_toward_zero
        (binary32_round (binary32_round (1 / 50) * binary32_round (16384 / 360))) = 0 := by
      unfold trunc_toward_zero
      rw [if_pos h0, Int.floor_eq_iff]
      push_cast
      constructor <;> linarith [hy.1, hy.2]
    rw [hf]
    rfl
  refine ⟨by norm_num, by norm_num, hr, hd, ?_⟩
  rw [hr, hd]
  decide

/-- The single precision product can round up to the next integer: for the
`float` 12277439 / 32768 (374.6777 degrees) the exact scaled value is a little
below 17052 and the exact expression gives 17051, while the product computed in
single precision is 17052, which is what the macro returns. -/
theorem degree_to_value_binary32_rounds_up :
    binary32_round (12277439 / 32768) = 12277439 / 32768 ∧
    binary32_round (16384 / 360) = 11930465 / 262144 ∧
    binary32_round (binary32_round (12277439 / 32768) * binary32_round (16384 / 360)) = 17052 ∧
    DEGREE_TO_VALUE_binary32 (12277439 / 32768) = 17052 ∧
    DEGREE_TO_VALUE (12277439 / 32768) = 17051 := by
  have hd : binary32_round (12277439 / 32768) = 12277439 / 32768 := by
    rw [binary32_round_eq (12277439 / 32768) 8 12277439 (by decide)
      (by rw [abs_of_pos (by norm_num)]; norm_num)
      (by rw [abs_of_pos (by norm_num)]; norm_num)
      (by rw [abs_lt]; constructor <;> norm_num)]
    norm_num
  have hc : binary32_round (16384 / 360) = 11930465 / 262144 := by
    rw [binary32_round_eq (16384 / 360) 5 11930465 (by decide)
      (by rw [abs_of_pos (by norm_num)]; norm_num)
      (by rw [abs_of_pos (by norm_num)]; norm_num)
      (by rw [abs_lt]; constructor <;> norm_num)]
    norm_num
  have hz : binary32_round ((12277439 / 32768 : ℚ) * (11930465 / 262144)) = 17052 := by
    rw [binary32_round_eq ((12277439 / 32768 : ℚ) * (11930465 / 262144)) 14 8730624 (by decide)
      (by rw [abs_of_pos (by norm_num)]; norm_num)
      (by rw [abs_of_pos (by norm_num)]; norm_num)
      (by rw [abs_lt]; constructor <;> norm_num)]
    norm_num
  have hy : binary32_round
      (binary32_round (12277439 / 32768) * binary32_round (16384 / 360)) = 17052 := by
    rw [hd, hc, hz]
  refine ⟨hd, hc, hy, ?_, ?_⟩
  · unfold DEGREE_TO_VALUE_binary32
    rw [hy]
    have : trunc_toward_zero (17052 : ℚ) = 17052 := by
      exact_mod_cast trunc_toward_zero_intCast 17052
    rw [this]
    rfl
  · rw [degree_to_value_of_range _ (by norm_num) (by norm_num)]
    unfold trunc_toward_zero
    rw [if_pos (by norm_num), Int.floor_eq_iff]
    constructor <;> norm_num

/-! ## What the receive loop leaves alone -/

theorem read_byte_decoded (s : Driver) (d : Nat) :
    decoded (read_byte s d).1 = decoded s ∧ settings (read_byte s d).1 = settings s := by
  unfold read_byte
  split_ifs <;> first | exact ⟨rfl, rfl⟩ | (simp only []; split_ifs <;> exact ⟨rfl, rfl⟩)

theorem parse_body_settings (s : Driver) : settings (parse_body s) = settings s := by
  unfold parse_body
  split_ifs
  · rfl
  · rfl
  · unfold parse_body_angles_ext
    cases h : s.mount <;> simp [settings, h]
  · rfl
  · rfl
  · rfl

theorem step_settings (s : Driver) (b : Nat) : settings (step s b) = settings s := by
  unfold step
  by_cases hc : (read_byte s (b % 256)).2 = true
  · simp only [hc, if_true]
    rw [parse_body_settings, (read_byte_decoded s (b % 256)).2]
  · simp only [hc]
    exact (read_byte_decoded s (b % 256)).2

theorem process_settings (bytes : List Nat) :
    ∀ s : Driver, settings (process s bytes) = settings s := by
  induction bytes with
  | nil => intro s; rfl
  | cons b bs ih => intro s; rw [process_cons, ih, step_settings]

theorem read_incoming_settings (s : Driver) (port : UARTDriver) :
    settings (read_incoming s port).1 = settings s := by
  rw [read_incoming_fst, process_settings]

theorem read_incoming_snd (s : Driver) (port : UARTDriver) :
    (read_incoming s port).2.tx = port.tx ∧ (read_incoming s port).2.txfree = port.txfree := by
  unfold read_incoming
  by_cases h : numc_of port.available < 0
  · simp [h]
  · simp [h]

/-! ## Board information -/

theorem parse_body_board_info_of_ne (s : Driver) (h : s._command_id ≠ CMD_BOARD_INFO) :
    board_info (parse_body s) = board_info s := by
  unfold parse_body
  rw [if_neg h]
  split_ifs
  · rfl
  · unfold parse_body_angles_ext
    cases s.mount <;> rfl
  · rfl
  · rfl
  · rfl

theorem read_byte_board_info (s : Driver) (d : Nat) :
    board_info (read_byte s d).1 = board_info s := by
  have h := (read_byte_decoded s d).1
  have h1 := congrArg Decoded.board_version h
  have h2 := congrArg Decoded.firmware_version h
  have h3 := congrArg Decoded.firmware_beta_version h
  have h4 := congrArg Decoded.gimbal_3axis h
  have h5 := congrArg Decoded.gimbal_bat_monitoring h
  simp only [decoded] at h1 h2 h3 h4 h5
  simp only [board_info, h1, h2, h3, h4, h5]

theorem process_board_info (bytes : List Nat) : ∀ s : Driver,
    (∀ t ∈ parse_calls s bytes, t._command_id ≠ CMD_BOARD_INFO) →
    board_info (process s bytes) = board_info s := by
  induction bytes with
  | nil => intro s _; rfl
  | cons b bs ih =>
    intro s h
    rw [process_cons, ih (step s b) (fun t ht => h t (by
      simp only [parse_calls, List.mem_append]
      exact Or.inr ht))]
    unfold step
    by_cases hc : (read_byte s (b % 256)).2 = true
    · simp only [hc, if_true]
      rw [parse_body_board_info_of_ne _ (h _ (by
        simp only [parse_calls, hc, if_true, List.mem_append, List.mem_singleton]
        exact Or.inl trivial)), read_byte_board_info]
    · simp only [hc]
      exact read_byte_board_info s (b % 256)

/-- The board information after a board information frame of at least six
payload bytes, read while waiting for sync. -/
theorem read_incoming_board_info (s : Driver) (hs : s._step = 0)
    (hbuf : s._buffer.length = sizeof_buffer) (b f dbg m : Nat) (tail : List Nat)
    (hb : b < 256) (hf : f < 65536) (hdbg : dbg < 256) (hm : m < 65536)
    (htail : ∀ x ∈ tail, x < 256) (hlen : tail.length + 6 ≤ 255) (port : UARTDriver)
    (hrx : port.rx
      = frame CMD_BOARD_INFO (b :: f % 256 :: f / 256 :: dbg :: m % 256 :: m / 256 :: tail)) :
    board_info (read_incoming s port).1
      = (b / 10, (f : ℚ) / 1000, f % 10, m.testBit 0, m.testBit 1) := by
  have hp : ∀ x ∈ b :: f % 256 :: f / 256 :: dbg :: m % 256 :: m / 256 :: tail, x < 256 := by
    intro x hx
    simp only [List.mem_cons] at hx
    rcases hx with h | h | h | h | h | h | h
    · omega
    · omega
    · omega
    · omega
    · omega
    · omega
    · exact htail x h
  have hr := read_incoming_frame s hs CMD_BOARD_INFO (by decide) _ (by simp)
    (by simp; omega) hp port hrx
  have htk := received_buffer_take s hbuf CMD_BOARD_INFO
    (b :: f % 256 :: f / 256 :: dbg :: m % 256 :: m / 256 :: tail) 6 (by simp) (by decide)
  have e0 : version_board_version (received s CMD_BOARD_INFO
      (b :: f % 256 :: f / 256 :: dbg :: m % 256 :: m / 256 :: tail))._buffer = b := by
    unfold version_board_version
    rw [byteAt_eq_of_take_eq _ _ 6 0 htk (by decide)]
    rfl
  have e1 : version_firmware_version (received s CMD_BOARD_INFO
      (b :: f % 256 :: f / 256 :: dbg :: m % 256 :: m / 256 :: tail))._buffer = f := by
    unfold version_firmware_version
    rw [u16At_eq_of_take_eq _ _ 6 1 htk (by decide)]
    show f % 256 + 256 * (f / 256) = f
    omega
  have e2 : version_board_features (received s CMD_BOARD_INFO
      (b :: f % 256 :: f / 256 :: dbg :: m % 256 :: m / 256 :: tail))._buffer = m := by
    unfold version_board_features
    rw [u16At_eq_of_take_eq _ _ 6 4 htk (by decide)]
    show m % 256 + 256 * (m / 256) = m
    omega
  rw [hr, parse_body_of_board_info _ rfl]
  unfold board_info parse_body_board_info
  simp only [e0, e1, e2, and_one_ne_zero, and_two_ne_zero]

/-- C11, as amended: the board information is asked for once and overwritten
by every board information frame that is interpreted. While the board version
is not zero `get_boardinfo` writes nothing; the five fields are unchanged by
every call of `read_incoming` in which `parse_body` is not entered with the
command id CMD_BOARD_INFO; and a board information frame with at least six
payload bytes, read while waiting for sync, whether asked for or not, replaces
the five fields, whatever they held, with the values decoded from its board
version byte `b`, firmware word `f` and feature word `m`. -/
theorem board_info_kept_without_board_info_frame (s : Driver) (port : UARTDriver) :
    (s._board_version ≠ 0 → get_boardinfo s port = port) ∧
    ((∀ t ∈ parse_calls s (bytes_read port), t._command_id ≠ CMD_BOARD_INFO) →
      board_info (read_incoming s port).1 = board_info s) ∧
    (∀ (b f dbg m : Nat) (tail : List Nat),
      s._step = 0 → s._buffer.length = sizeof_buffer →
      b < 256 → f < 65536 → dbg < 256 → m < 65536 → (∀ x ∈ tail, x < 256) →
      tail.length + 6 ≤ 255 →
      port.rx
        = frame CMD_BOARD_INFO
            (b :: f % 256 :: f / 256 :: dbg :: m % 256 :: m / 256 :: tail) →
      board_info (read_incoming s port).1
        = (b / 10, (f : ℚ) / 1000, f % 10, m.testBit 0, m.testBit 1)) := by
  refine ⟨?_, ?_, ?_⟩
  · intro h
    unfold get_boardinfo
    rw [if_pos h]
  · intro h
    rw [read_incoming_fst]
    exact process_board_info _ s h
  · intro b f dbg m tail hs hbuf hb hf hdbg hm htail hlen hrx
    exact read_incoming_board_info s hs hbuf b f dbg m tail hb hf hdbg hm htail hlen port hrx

/-- A witness of C11 as amended: with board version 3 held, no query is
written; a frame of another command leaves the five fields as they are; a board
information frame with board version byte 42, firmware word 3092 and feature
word 2 replaces them. -/
theorem board_info_kept_without_board_info_frame_witness :
    get_boardinfo { Driver.fresh with _board_version := 3 } ⟨[62, 73, 1, 74, 5, 5], [], 9⟩
      = ⟨[62, 73, 1, 74, 5, 5], [], 9⟩ ∧
    board_info (read_incoming { Driver.fresh with _board_version := 3 }
        ⟨[62, 73, 1, 74, 5, 5], [], 9⟩).1
      = board_info { Driver.fresh with _board_version := 3 } ∧
    board_info (read_incoming { Driver.fresh with _board_version := 3 }
        ⟨frame CMD_BOARD_INFO [42, 3092 % 256, 3092 / 256, 0, 2 % 256, 2 / 256], [], 0⟩).1
      = (42 / 10, ((3092 : Nat) : ℚ) / 1000, 3092 % 10, Nat.testBit 2 0, Nat.testBit 2 1) :=
  ⟨(board_info_kept_without_board_info_frame { Driver.fresh with _board_version := 3 }
      ⟨[62, 73, 1, 74, 5, 5], [], 9⟩).1 (by decide),
   (board_info_kept_without_board_info_frame { Driver.fresh with _board_version := 3 }
      ⟨[62, 73, 1, 74, 5, 5], [], 9⟩).2.1 (by decide),
   (board_info_kept_without_board_info_frame { Driver.fresh with _board_version := 3 }
      ⟨frame CMD_BOARD_INFO [42, 3092 % 256, 3092 / 256, 0, 2 % 256, 2 / 256], [], 0⟩).2.2
      42 3092 0 2 [] rfl (by decide) (by decide) (by decide) (by decide) (by decide)
      (by decide) (by decide) rfl⟩

/-- C11, counterexample: a first board information frame sets board version 3;
no query is sent afterwards, and a second board information frame with other
contents changes the board version to 4 and clears the three-axis flag. -/
theorem board_info_overwritten_by_second_frame :
    (read_incoming Driver.fresh
      ⟨frame CMD_BOARD_INFO [31, 10, 11, 0, 3, 0], [], 0⟩).1._board_version = 3 ∧
    (read_incoming Driver.fresh
      ⟨frame CMD_BOARD_INFO [31, 10, 11, 0, 3, 0], [], 0⟩).1._gimbal_3axis = true ∧
    get_boardinfo (read_incoming Driver.fresh
      ⟨frame CMD_BOARD_INFO [31, 10, 11, 0, 3, 0], [], 0⟩).1 ⟨[], [], 100⟩ = ⟨[], [], 100⟩ ∧
    (read_incoming (read_incoming Driver.fresh
        ⟨frame CMD_BOARD_INFO [31, 10, 11, 0, 3, 0], [], 0⟩).1
      ⟨frame CMD_BOARD_INFO [42, 20, 12, 0, 2, 0], [], 0⟩).1._board_version = 4 ∧
    (read_incoming (read_incoming Driver.fresh
        ⟨frame CMD_BOARD_INFO [31, 10, 11, 0, 3, 0], [], 0⟩).1
      ⟨frame CMD_BOARD_INFO [42, 20, 12, 0, 2, 0], [], 0⟩).1._gimbal_3axis = false := by
  refine ⟨by decide, by decide, by decide, by decide, by decide⟩

/-! ## Parameters -/

/-- A parameter read frame with a payload of 1 to 105 bytes, received while
waiting for sync, puts the payload at the start of the stored parameters and
sets the flag. -/
theorem read_params_frame_captured (s : Driver) (hs : s._step = 0)
    (hbuf : s._buffer.length = sizeof_buffer) (p : List Nat) (hne : p ≠ [])
    (hn : p.length ≤ sizeof_buffer) (hp : ∀ b ∈ p, b < 256) (port : UARTDriver)
    (hrx : port.rx = frame CMD_READ_PARAMS p) :
    (read_incoming s port).1._current_parameters.take p.length = p ∧
    (read_incoming s port).1._param_read_once = true := by
  rw [read_incoming_frame s hs CMD_READ_PARAMS (by decide) p hne (le_trans hn (by decide)) hp
    port hrx, parse_body_of_read_params _ rfl]
  constructor
  · show ((received s CMD_READ_PARAMS p)._buffer.take sizeof_alexmos_params
      ++ (received s CMD_READ_PARAMS p)._current_parameters.drop sizeof_alexmos_params).take
        p.length = p
    have hl : p.length ≤ ((received s CMD_READ_PARAMS p)._buffer.take
        sizeof_alexmos_params).length := by
      rw [List.length_take]
      have : (received s CMD_READ_PARAMS p)._buffer.length = sizeof_buffer := by
        show (store_body s._buffer 0 p).length = sizeof_buffer
        rw [store_body_length, hbuf]
      rw [this]
      exact le_trans hn (by decide)
    rw [List.take_append_of_le_length hl, List.take_take,
      Nat.min_eq_left (show p.length ≤ sizeof_alexmos_params from hn)]
    exact store_body_take s._buffer p hbuf hn
  · rfl

/-- C12, at the failing input: a parameter read frame with an empty payload,
received by a fresh driver waiting for sync, never reaches `parse_body`: the
flag stays false and the receiver is left in the body state. -/
theorem read_params_empty_frame_not_captured :
    frame CMD_READ_PARAMS [] = [62, 82, 0, 82, 0] ∧
    (read_incoming Driver.fresh ⟨frame CMD_READ_PARAMS [], [], 0⟩).1._param_read_once
      = false ∧
    (read_incoming Driver.fresh ⟨frame CMD_READ_PARAMS [], [], 0⟩).1._step = 4 ∧
    parse_calls Driver.fresh (bytes_read ⟨frame CMD_READ_PARAMS [], [], 0⟩) = [] := by
  refine ⟨by decide, by decide, by decide, by decide⟩

theorem parse_body_param_read_once (s : Driver) (h : s._param_read_once = true) :
    (parse_body s)._param_read_once = true := by
  unfold parse_body
  split_ifs
  · exact h
  · exact h
  · unfold parse_body_angles_ext
    cases s.mount <;> exact h
  · rfl
  · exact h
  · exact h

theorem read_byte_param_read_once (s : Driver) (d : Nat) :
    (read_byte s d).1._param_read_once = s._param_read_once := by
  have h := congrArg Decoded.param_read_once (read_byte_decoded s d).1
  simpa only [decoded] using h

theorem process_param_read_once (bytes : List Nat) : ∀ s : Driver,
    s._param_read_once = true → (process s bytes)._param_read_once = true := by
  induction bytes with
  | nil => intro s h; exact h
  | cons b bs ih =>
    intro s h
    rw [process_cons]
    apply ih
    unfold step
    by_cases hc : (read_byte s (b % 256)).2 = true
    · simp only [hc, if_true]
      exact parse_body_param_read_once _ (by rw [read_byte_param_read_once]; exact h)
    · simp only [hc, Bool.false_eq_true, if_false]
      rw [read_byte_param_read_once]; exact h

theorem update_target_param_read_once (e : Environment) (s : Driver) :
    (update_target e s).1._param_read_once = s._param_read_once := by
  unfold update_target
  split
  · rfl
  · rfl
  · cases s.mount with
    | none => rfl
    | some m => simp only []; split_ifs <;> rfl
  · rfl
  · split_ifs <;> rfl
  · rfl

theorem update_fst (e : Environment) (s : Driver) (port : UARTDriver)
    (h : s._initialised = true) :
    (update e s port).1 = (update_target e (read_incoming s (get_angles_ext port)).1).1 := by
  unfold update
  simp only [h, Bool.not_true, Bool.false_eq_true, if_false]
  split <;> rfl

/-- C13: once the flag `_param_read_once` is true it stays true through every
operation that returns a driver state: `read_incoming` on any port content,
`update` in any environment, `set_mode`, `parse_body` for any command id, and
`init`. (`write_params` and `send_command` read and write the port only.) -/
theorem param_read_once_permanent (s : Driver) (h : s._param_read_once = true)
    (e : Environment) (port : UARTDriver) (mode : MAV_MOUNT_MODE)
    (found : Option UARTDriver) :
    (read_incoming s port).1._param_read_once = true ∧
    (update e s port).1._param_read_once = true ∧
    (set_mode s mode)._param_read_once = true ∧
    (parse_body s)._param_read_once = true ∧
    (init s found).1._param_read_once = true := by
  have hr : ∀ q : UARTDriver, (read_incoming s q).1._param_read_once = true := by
    intro q
    rw [read_incoming_fst]
    exact process_param_read_once _ s h
  refine ⟨hr port, ?_, h, parse_body_param_read_once s h, ?_⟩
  · by_cases hi : s._initialised = true
    · rw [update_fst e s port hi, update_target_param_read_once]
      exact hr _
    · have : (update e s port).1 = s := by
        unfold update
        simp [hi]
      rw [this]
      exact h
  · unfold init
    cases found <;> exact h

theorem param_read_once_permanent_witness :
    (read_incoming { Driver.fresh with _param_read_once := true, _initialised := true }
      ⟨frame CMD_BOARD_INFO [31, 10, 11, 0, 3, 0], [], 40⟩).1._param_read_once = true ∧
    (update sample_environment
      { Driver.fresh with _param_read_once := true, _initialised := true }
      ⟨frame CMD_BOARD_INFO [31, 10, 11, 0, 3, 0], [], 40⟩).1._param_read_once = true ∧
    (set_mode { Driver.fresh with _param_read_once := true, _initialised := true }
      MAV_MOUNT_MODE_GPS_POINT)._param_read_once = true ∧
    (parse_body { Driver.fresh with _param_read_once := true, _initialised := true }
      )._param_read_once = true ∧
    (init { Driver.fresh with _param_read_once := true, _initialised := true }
      (some ⟨[], [], 40⟩)).1._param_read_once = true :=
  param_read_once_permanent { Driver.fresh with _param_read_once := true, _initialised := true }
    rfl sample_environment ⟨frame CMD_BOARD_INFO [31, 10, 11, 0, 3, 0], [], 40⟩
    MAV_MOUNT_MODE_GPS_POINT (some ⟨[], [], 40⟩)

/-- C14: `write_params` writes nothing while no parameter read reply has been
captured; once the flag is set and the port has room, it writes exactly one
parameter write frame whose payload is the stored parameter structure, all 105
bytes; after a parameter read frame with a payload of 105 bytes has been
received, that payload is what is sent back. -/
theorem write_params_sends_captured_block (s : Driver) (port : UARTDriver) :
    (s._param_read_once = false →
      write_params s port = port ∧ bytes_written port (write_params s port) = []) ∧
    (s._param_read_once = true → s._current_parameters.length = sizeof_alexmos_params →
      (∀ b ∈ s._current_parameters, b < 256) → sizeof_alexmos_params + 5 ≤ port.txspace →
      bytes_written port (write_params s port) = frame CMD_WRITE_PARAMS s._current_parameters) ∧
    (∀ (p : List Nat) (rxport : UARTDriver), s._step = 0 → s._buffer.length = sizeof_buffer →
      s._current_parameters.length = sizeof_alexmos_params →
      p.length = sizeof_alexmos_params → (∀ b ∈ p, b < 256) →
      rxport.rx = frame CMD_READ_PARAMS p → sizeof_alexmos_params + 5 ≤ port.txspace →
      bytes_written port (write_params (read_incoming s rxport).1 port)
        = frame CMD_WRITE_PARAMS p) := by
  have hsend : ∀ t : Driver, t._param_read_once = true →
      t._current_parameters.length = sizeof_alexmos_params →
      (∀ b ∈ t._current_parameters, b < 256) → sizeof_alexmos_params + 5 ≤ port.txspace →
      bytes_written port (write_params t port) = frame CMD_WRITE_PARAMS t._current_parameters := by
    intro t h hl hb hroom
    unfold write_params
    simp only [h, Bool.not_true, Bool.false_eq_true, if_false]
    have := send_command_written port CMD_WRITE_PARAMS t._current_parameters (by decide)
      (by rw [hl]; decide) hb (by rw [hl]; exact hroom)
    rw [hl] at this
    exact this
  refine ⟨?_, hsend s, ?_⟩
  · intro h
    have e : write_params s port = port := by
      unfold write_params
      simp [h]
    rw [e]
    exact ⟨rfl, by simp [bytes_written]⟩
  · intro p rxport hs hbuf hcp hpl hp hrx hroom
    have hne : p ≠ [] := by
      intro h0
      rw [h0] at hpl
      exact absurd hpl (by decide)
    have hle : p.length ≤ sizeof_buffer := by rw [hpl]; decide
    obtain ⟨h1, h2⟩ := read_params_frame_captured s hs hbuf p hne hle hp rxport hrx
    have hcur : (read_incoming s rxport).1._current_parameters = p := by
      have hlen : (read_incoming s rxport).1._current_parameters.length = p.length := by
        rw [read_incoming_frame s hs CMD_READ_PARAMS (by decide) p hne
          (le_trans hle (by decide)) hp rxport hrx, parse_body_of_read_params _ rfl]
        show ((received s CMD_READ_PARAMS p)._buffer.take sizeof_alexmos_params
          ++ (received s CMD_READ_PARAMS p)._current_parameters.drop
            sizeof_alexmos_params).length = p.length
        have hb2 : (received s CMD_READ_PARAMS p)._buffer.length = sizeof_buffer := by
          show (store_body s._buffer 0 p).length = sizeof_buffer
          rw [store_body_length, hbuf]
        have hc2 : (received s CMD_READ_PARAMS p)._current_parameters.length
            = sizeof_alexmos_params := hcp
        rw [List.length_append, List.length_take, List.length_drop, hb2, hc2, hpl]
        decide
      rw [← h1, ← hlen, List.take_length]
    have := hsend (read_incoming s rxport).1 h2 (by rw [hcur]; exact hpl)
      (by rw [hcur]; exact hp) hroom
    rw [hcur] at this
    exact this

theorem write_params_sends_captured_block_witness :
    (write_params Driver.fresh ⟨[], [], 200⟩ = ⟨[], [], 200⟩ ∧
      bytes_written ⟨[], [], 200⟩ (write_params Driver.fresh ⟨[], [], 200⟩) = []) ∧
    bytes_written ⟨[], [], 200⟩
        (write_params { Driver.fresh with _param_read_once := true } ⟨[], [], 200⟩)
      = frame CMD_WRITE_PARAMS { Driver.fresh with _param_read_once := true }._current_parameters ∧
    bytes_written ⟨[], [], 200⟩
        (write_params (read_incoming Driver.fresh
          ⟨frame CMD_READ_PARAMS (List.replicate 105 9), [], 0⟩).1 ⟨[], [], 200⟩)
      = frame CMD_WRITE_PARAMS (List.replicate 105 9) :=
  ⟨(write_params_sends_captured_block Driver.fresh ⟨[], [], 200⟩).1 rfl,
   (write_params_sends_captured_block { Driver.fresh with _param_read_once := true }
      ⟨[], [], 200⟩).2.1 rfl (by decide) (by decide) (by decide),
   (write_params_sends_captured_block Driver.fresh ⟨[], [], 200⟩).2.2 (List.replicate 105 9)
      ⟨frame CMD_READ_PARAMS (List.replicate 105 9), [], 0⟩ rfl (by decide) (by decide)
      (by decide) (by decide) rfl (by decide)⟩

/-! ## The confirmation flag -/

/-- After a frame with a payload of 1 to 255 bytes, received while waiting for
sync, the flag `_last_command_confirmed` is set exactly when the command id is
none of the five ids that `parse_body` knows. -/
theorem last_command_confirmed_after_frame (s : Driver) (hs : s._step = 0) (c : Nat)
    (hc : c < 256) (p : List Nat) (hne : p ≠ []) (hlen : p.length ≤ 255)
    (hp : ∀ b ∈ p, b < 256) (port : UARTDriver) (hrx : port.rx = frame c p) :
    (read_incoming s port).1._last_command_confirmed = true ↔
      (c ≠ CMD_BOARD_INFO ∧ c ≠ CMD_GET_ANGLES ∧ c ≠ CMD_GET_ANGLES_EXT ∧
        c ≠ CMD_READ_PARAMS ∧ c ≠ CMD_WRITE_PARAMS) := by
  rw [read_incoming_frame s hs c hc p hne hlen hp port hrx]
  have hid : (received s c p)._command_id = c := rfl
  have hfalse : (received s c p)._last_command_confirmed = false := rfl
  by_cases h1 : c = CMD_BOARD_INFO
  · rw [parse_body_of_board_info _ (hid.trans h1)]
    have : (parse_body_board_info (received s c p))._last_command_confirmed = false := rfl
    rw [this, h1]
    simp
  by_cases h2 : c = CMD_GET_ANGLES
  · rw [parse_body_of_angles _ (hid.trans h2)]
    have : (parse_body_angles (received s c p))._last_command_confirmed = false := rfl
    rw [this, h2]
    simp
  by_cases h3 : c = CMD_GET_ANGLES_EXT
  · rw [parse_body_of_angles_ext _ (hid.trans h3)]
    have : (parse_body_angles_ext (received s c p))._last_command_confirmed = false := by
      unfold parse_body_angles_ext
      cases (received s c p).mount <;> rfl
    rw [this, h3]
    simp
  by_cases h4 : c = CMD_READ_PARAMS
  · rw [parse_body_of_read_params _ (hid.trans h4)]
    have : (parse_body_read_params (received s c p))._last_command_confirmed = false := rfl
    rw [this, h4]
    simp
  by_cases h5 : c = CMD_WRITE_PARAMS
  · rw [parse_body_of_write_params _ (hid.trans h5), hfalse, h5]
    simp
  · rw [parse_body_of_other _ (by rw [hid]; exact h1) (by rw [hid]; exact h2)
      (by rw [hid]; exact h3) (by rw [hid]; exact h4) (by rw [hid]; exact h5)]
    simp only [true_iff]
    exact ⟨h1, h2, h3, h4, h5⟩

/-- C15, at the failing input: the motors-on command is none of the ids that
`parse_body` knows, yet after its frame with an empty payload, which has a
valid header checksum and a valid body checksum, the flag
`_last_command_confirmed` is false, also when it was true before: the sync
byte cleared it and `parse_body` was never entered. -/
theorem last_command_confirmed_not_set_by_empty_frame :
    frame CMD_MOTORS_ON [] = [62, 77, 0, 77, 0] ∧
    (read_incoming { Driver.fresh with _last_command_confirmed := true }
      ⟨frame CMD_MOTORS_ON [], [], 0⟩).1._last_command_confirmed = false ∧
    parse_calls { Driver.fresh with _last_command_confirmed := true }
      (bytes_read ⟨frame CMD_MOTORS_ON [], [], 0⟩) = [] := by
  refine ⟨by decide, by decide, by decide⟩

/-! ## The port after a command -/

theorem write_txfree (p : UARTDriver) (b : Nat) : (p.write b).txfree = p.txfree - 1 := rfl

theorem send_command_loop_txfree (data : List Nat) (size : Nat) (p : UARTDriver) (cs : Nat) :
    (send_command_loop data size (p, cs)).1.txfree = p.txfree - size := by
  induction size with
  | zero => simp [send_command_loop]
  | succ n ih =>
    unfold send_command_loop at ih ⊢
    rw [List.range_succ, List.foldl_append]
    simp only [List.foldl_cons, List.foldl_nil, write_txfree, ih]
    omega

theorem send_command_port (port : UARTDriver) (c : Nat) (p : List Nat)
    (hc : c < 256) (hn : p.length ≤ 255) (hp : ∀ b ∈ p, b < 256)
    (hroom : p.length + 5 ≤ port.txspace) :
    send_command port c p p.length
      = { rx := port.rx, tx := port.tx ++ frame c p, txfree := port.txfree - (p.length + 5) } := by
  have h1 := send_command_tx port c p hc hn hp hroom
  have hnot : ¬ port.txspace < p.length + 5 := by omega
  have h2 : (send_command port c p p.length).rx = port.rx := by
    unfold send_command
    rw [if_neg hnot]
    simp only [write_rx, send_command_loop_rx]
  have h3 : (send_command port c p p.length).txfree = port.txfree - (p.length + 5) := by
    unfold send_command
    rw [if_neg hnot]
    simp only [write_txfree, send_command_loop_txfree]
    omega
  cases h : send_command port c p p.length with
  | mk rx tx txfree =>
    rw [h] at h1 h2 h3
    simp only at h1 h2 h3
    rw [h1, h2, h3]

theorem int16_bytes_lt (v : Int) : ∀ b ∈ int16_bytes v, b < 256 := by
  intro b hb
  simp only [int16_bytes, List.mem_cons, List.mem_singleton, List.not_mem_nil, or_false] at hb
  have h0 : 0 ≤ v % 65536 := Int.emod_nonneg _ (by decide)
  have h1 : v % 65536 < 65536 := Int.emod_lt_of_pos _ (by decide)
  rcases hb with h | h
  · rw [h]; exact Nat.mod_lt _ (by decide)
  · rw [h]; omega

theorem angles_speed_bytes_length (st : mount_state) (v : Vector3f) :
    (angles_speed_bytes st v).length = sizeof_alexmos_angles_speed := by
  simp [angles_speed_bytes, int16_bytes]

theorem angles_speed_bytes_lt (st : mount_state) (v : Vector3f) :
    ∀ b ∈ angles_speed_bytes st v, b < 256 := by
  intro b hb
  simp only [angles_speed_bytes, List.mem_append, List.mem_cons, List.mem_singleton,
    List.not_mem_nil, or_false] at hb
  rcases hb with (((((h | h) | h) | h) | h) | h) | h
  · rcases h with h | h | h <;> (rw [h]; exact Nat.mod_lt _ (by decide))
  all_goals exact int16_bytes_lt _ b h

theorem get_angles_ext_port (port : UARTDriver) (hroom : 6 ≤ port.txspace) :
    get_angles_ext port
      = { rx := port.rx, tx := port.tx ++ frame CMD_GET_ANGLES_EXT [1],
          txfree := port.txfree - 6 } :=
  send_command_port port CMD_GET_ANGLES_EXT [1] (by decide) (by decide) (by decide) hroom

theorem control_axis_port (e : Environment) (s : Driver) (port : UARTDriver) (angle : Vector3f)
    (deg : Bool) (hroom : 20 ≤ port.txspace) :
    control_axis e s port angle deg
      = { rx := port.rx,
          tx := port.tx ++ frame CMD_CONTROL (angles_speed_bytes s._state (target_in_deg e angle deg)),
          txfree := port.txfree - 20 } := by
  unfold control_axis
  have hl := angles_speed_bytes_length s._state (target_in_deg e angle deg)
  have := send_command_port port CMD_CONTROL (angles_speed_bytes s._state (target_in_deg e angle deg))
    (by decide) (by rw [hl]; decide) (angles_speed_bytes_lt _ _) (by rw [hl]; exact hroom)
  rw [hl] at this
  exact this

/-! ## The control tick -/

theorem settings_fields (s t : Driver) (h : settings t = settings s) :
    t._state = s._state ∧ t._initialised = s._initialised ∧
    t.gimbal_yaw_scale = s.gimbal_yaw_scale ∧
    t._angle_ef_target_rad = s._angle_ef_target_rad ∧
    t.mount.map AP_Mount.mount_yaw_follow_mode = s.mount.map AP_Mount.mount_yaw_follow_mode := by
  unfold settings at h
  simp only [Prod.mk.injEq] at h
  exact h

theorem update_target_state (e : Environment) (s : Driver) :
    (update_target e s).1._state = s._state ∧
    (update_target e s).1._initialised = s._initialised := by
  unfold update_target
  split
  · exact ⟨rfl, rfl⟩
  · exact ⟨rfl, rfl⟩
  · cases s.mount with
    | none => exact ⟨rfl, rfl⟩
    | some m => simp only []; split_ifs <;> exact ⟨rfl, rfl⟩
  · exact ⟨rfl, rfl⟩
  · split_ifs <;> exact ⟨rfl, rfl⟩
  · exact ⟨rfl, rfl⟩

/-- The bytes written by one tick of an initialised driver with room for 26
bytes: the extended angles request, then the control frame for the arguments
that the switch hands to `control_axis`, if it calls it. -/
theorem update_written (e : Environment) (s : Driver) (port : UARTDriver)
    (hinit : s._initialised = true) (hroom : 26 ≤ port.txspace) :
    bytes_written port (update e s port).2
      = frame CMD_GET_ANGLES_EXT [1] ++
        match (update_target e (read_incoming s (get_angles_ext port)).1).2 with
        | some a =>
          frame CMD_CONTROL (angles_speed_bytes s._state (target_in_deg e a.1 a.2))
        | none => [] := by
  have hg := get_angles_ext_port port (by omega)
  obtain ⟨h1, h2⟩ := read_incoming_snd s (get_angles_ext port)
  have htx : (read_incoming s (get_angles_ext port)).2.tx
      = port.tx ++ frame CMD_GET_ANGLES_EXT [1] := by rw [h1, hg]
  have hfree : 20 ≤ (read_incoming s (get_angles_ext port)).2.txspace := by
    show 20 ≤ (read_incoming s (get_angles_ext port)).2.txfree
    rw [h2, hg]
    show 20 ≤ port.txfree - 6
    have : 26 ≤ port.txfree := hroom
    omega
  have hst : (update_target e (read_incoming s (get_angles_ext port)).1).1._state = s._state := by
    rw [(update_target_state e _).1,
      (settings_fields s _ (read_incoming_settings s (get_angles_ext port))).1]
  unfold update bytes_written
  simp only [hinit, Bool.not_true, Bool.false_eq_true, if_false]
  cases ht : (update_target e (read_incoming s (get_angles_ext port)).1).2 with
  | none =>
    simp only [htx, List.append_nil]
    exact List.drop_left _ _
  | some a =>
    simp only []
    rw [control_axis_port e _ _ a.1 a.2 hfree, hst]
    simp only [htx, List.append_assoc]
    exact List.drop_left _ _

theorem update_target_gps_point (e : Environment) (s : Driver)
    (hmode : s._state._mode = MAV_MOUNT_MODE_GPS_POINT) :
    update_target e s
      = if e.gps_status ≥ GPS_OK_FIX_2D then
          ({ s with _angle_ef_target_rad :=
              e.calc_angle_to_location s._state._roi_target s._angle_ef_target_rad },
            some (e.calc_angle_to_location s._state._roi_target s._angle_ef_target_rad, false))
        else (s, none) := by
  unfold update_target
  rw [hmode]

theorem frame_ne_nil (c : Nat) (p : List Nat) : frame c p ≠ [] := by
  simp [frame]

theorem update_gps_point_with_fix (e : Environment) (s : Driver) (port : UARTDriver)
    (hinit : s._initialised = true) (hmode : s._state._mode = MAV_MOUNT_MODE_GPS_POINT)
    (hroom : 26 ≤ port.txspace) (hfix : GPS_OK_FIX_2D ≤ e.gps_status) :
    bytes_written port (update e s port).2
      = frame CMD_GET_ANGLES_EXT [1] ++
        frame CMD_CONTROL (angles_speed_bytes s._state
          (target_in_deg e
            (e.calc_angle_to_location s._state._roi_target s._angle_ef_target_rad) false)) := by
  obtain ⟨h1, _, _, h4, _⟩ :=
    settings_fields s _ (read_incoming_settings s (get_angles_ext port))
  rw [update_written e s port hinit hroom,
    update_target_gps_point e _ (by rw [h1]; exact hmode), if_pos hfix]
  simp only [h1, h4]

theorem update_gps_point_without_fix (e : Environment) (s : Driver) (port : UARTDriver)
    (hinit : s._initialised = true) (hmode : s._state._mode = MAV_MOUNT_MODE_GPS_POINT)
    (hroom : 26 ≤ port.txspace) (hfix : e.gps_status < GPS_OK_FIX_2D) :
    bytes_written port (update e s port).2 = frame CMD_GET_ANGLES_EXT [1] ∧
    (update e s port).1._angle_ef_target_rad = s._angle_ef_target_rad := by
  obtain ⟨h1, _, _, h4, _⟩ :=
    settings_fields s _ (read_incoming_settings s (get_angles_ext port))
  have hn : ¬ e.gps_status ≥ GPS_OK_FIX_2D := Nat.not_le.mpr hfix
  constructor
  · rw [update_written e s port hinit hroom,
      update_target_gps_point e _ (by rw [h1]; exact hmode), if_neg hn]
    simp
  · rw [update_fst e s port hinit, update_target_gps_point e _ (by rw [h1]; exact hmode),
      if_neg hn]
    exact h4

/-- C19: one tick of an initialised driver in GPS point mode, with room in the
port, writes the extended angles request and, after it, a control frame if and
only if the fix quality is at least the two-dimensional fix. With a fix the
control frame carries the target computed for the region of interest; without
one the tick writes no control frame and leaves the target vector unchanged,
and a later tick with a fix writes a control frame again. -/
theorem gps_point_withholds_without_fix (e : Environment) (s : Driver) (port : UARTDriver)
    (hinit : s._initialised = true) (hmode : s._state._mode = MAV_MOUNT_MODE_GPS_POINT)
    (hroom : 26 ≤ port.txspace) :
    (GPS_OK_FIX_2D ≤ e.gps_status →
      bytes_written port (update e s port).2
        = frame CMD_GET_ANGLES_EXT [1] ++
          frame CMD_CONTROL (angles_speed_bytes s._state
            (target_in_deg e
              (e.calc_angle_to_location s._state._roi_target s._angle_ef_target_rad) false))) ∧
    (e.gps_status < GPS_OK_FIX_2D →
      bytes_written port (update e s port).2 = frame CMD_GET_ANGLES_EXT [1] ∧
      (update e s port).1._angle_ef_target_rad = s._angle_ef_target_rad) ∧
    ((∃ payload, bytes_written port (update e s port).2
        = frame CMD_GET_ANGLES_EXT [1] ++ frame CMD_CONTROL payload)
      ↔ GPS_OK_FIX_2D ≤ e.gps_status) ∧
    (∀ (e2 : Environment) (port2 : UARTDriver), GPS_OK_FIX_2D ≤ e2.gps_status →
      26 ≤ port2.txspace →
      ∃ payload, bytes_written port2 (update e2 (update e s port).1 port2).2
        = frame CMD_GET_ANGLES_EXT [1] ++ frame CMD_CONTROL payload) := by
  refine ⟨update_gps_point_with_fix e s port hinit hmode hroom,
    update_gps_point_without_fix e s port hinit hmode hroom, ?_, ?_⟩
  · constructor
    · rintro ⟨payload, hp⟩
      by_contra hfix
      have h := (update_gps_point_without_fix e s port hinit hmode hroom
        (Nat.not_le.mp hfix)).1
      rw [h] at hp
      have hl := congrArg List.length hp
      simp only [List.length_append, frame_length] at hl
      omega
    · intro hfix
      exact ⟨_, update_gps_point_with_fix e s port hinit hmode hroom hfix⟩
  · intro e2 port2 hfix2 hroom2
    obtain ⟨h1, h2, _, _, _⟩ :=
      settings_fields s _ (read_incoming_settings s (get_angles_ext port))
    have hi2 : (update e s port).1._initialised = true := by
      rw [update_fst e s port hinit, (update_target_state e _).2, h2]
      exact hinit
    have hm2 : (update e s port).1._state._mode = MAV_MOUNT_MODE_GPS_POINT := by
      rw [update_fst e s port hinit, (update_target_state e _).1, h1]
      exact hmode
    exact ⟨_, update_gps_point_with_fix e2 _ port2 hi2 hm2 hroom2 hfix2⟩

theorem gps_point_withholds_without_fix_witness :
    (bytes_written ⟨[], [], 64⟩
        (update { sample_environment with gps_status := 1 } sample_gps_point_driver
          ⟨[], [], 64⟩).2 = frame CMD_GET_ANGLES_EXT [1] ∧
      (update { sample_environment with gps_status := 1 } sample_gps_point_driver
          ⟨[], [], 64⟩).1._angle_ef_target_rad = sample_gps_point_driver._angle_ef_target_rad) ∧
    bytes_written ⟨[], [], 64⟩ (update sample_environment sample_gps_point_driver ⟨[], [], 64⟩).2
      = frame CMD_GET_ANGLES_EXT [1] ++
        frame CMD_CONTROL (angles_speed_bytes sample_gps_point_driver._state
          (target_in_deg sample_environment
            (sample_environment.calc_angle_to_location sample_gps_point_driver._state._roi_target
              sample_gps_point_driver._angle_ef_target_rad) false)) :=
  ⟨(gps_point_withholds_without_fix { sample_environment with gps_status := 1 }
      sample_gps_point_driver ⟨[], [], 64⟩ rfl rfl (by decide)).2.1 (by decide),
   (gps_point_withholds_without_fix sample_environment sample_gps_point_driver
      ⟨[], [], 64⟩ rfl rfl (by decide)).1 (by decide)⟩

/-! ## Yaw follow in MAVLink targeting mode -/

theorem update_target_mavlink_targeting (e : Environment) (s : Driver)
    (hmode : s._state._mode = MAV_MOUNT_MODE_MAVLINK_TARGETING) :
    (s.mount.map AP_Mount.mount_yaw_follow_mode = some e.gimbal_yaw_follows_vehicle →
      update_target e s
        = ({ s with _angle_ef_target_rad :=
              { s._angle_ef_target_rad with z := -s._current_angle.z * s.gimbal_yaw_scale } },
            some ({ s._angle_ef_target_rad with z := -s._current_angle.z * s.gimbal_yaw_scale },
              false))) ∧
    (s.mount.map AP_Mount.mount_yaw_follow_mode ≠ some e.gimbal_yaw_follows_vehicle →
      update_target e s = (s, some (s._angle_ef_target_rad, false))) := by
  unfold update_target
  rw [hmode]
  cases hm : s.mount with
  | none => simp
  | some m =>
    by_cases hf : m.mount_yaw_follow_mode = e.gimbal_yaw_follows_vehicle
    · simp [hf]
    · simp [hf]

theorem update_target_current_angle (e : Environment) (s : Driver) :
    (update_target e s).1._current_angle = s._current_angle ∧
    (update_target e s).1.gimbal_yaw_scale = s.gimbal_yaw_scale := by
  unfold update_target
  split
  · exact ⟨rfl, rfl⟩
  · exact ⟨rfl, rfl⟩
  · cases s.mount with
    | none => exact ⟨rfl, rfl⟩
    | some m => simp only []; split_ifs <;> exact ⟨rfl, rfl⟩
  · exact ⟨rfl, rfl⟩
  · split_ifs <;> exact ⟨rfl, rfl⟩
  · exact ⟨rfl, rfl⟩

/-- C20: `init` sets the follow gain to 1/20, and a tick keeps the gain. In one
tick of an initialised driver in MAVLink targeting mode, with room in the port:
when the AP_Mount singleton exists and its yaw follow mode is
yaw-follows-vehicle, the vector handed to `control_axis` keeps the supplied
roll and pitch and has the yaw `-currentYaw * gain`, where `currentYaw` is the
yaw angle held after the bytes of this tick have been read, and this vector is
stored as the target and encoded in the control frame; otherwise the supplied
target vector is handed on, encoded and kept unchanged. -/
theorem mavlink_targeting_yaw_follow (e : Environment) (s : Driver) (port : UARTDriver)
    (hinit : s._initialised = true)
    (hmode : s._state._mode = MAV_MOUNT_MODE_MAVLINK_TARGETING) (hroom : 26 ≤ port.txspace)
    (s0 : Driver) (found : Option UARTDriver) :
    (init s0 found).1.gimbal_yaw_scale = 1 / 20 ∧
    (update e s port).1.gimbal_yaw_scale = s.gimbal_yaw_scale ∧
    (s.mount.map AP_Mount.mount_yaw_follow_mode = some e.gimbal_yaw_follows_vehicle →
      (update_target e (read_incoming s (get_angles_ext port)).1).2
        = some ({ x := s._angle_ef_target_rad.x, y := s._angle_ef_target_rad.y,
                  z := -(update e s port).1._current_angle.z * s.gimbal_yaw_scale }, false) ∧
      (update e s port).1._current_angle
        = (read_incoming s (get_angles_ext port)).1._current_angle ∧
      (update e s port).1._angle_ef_target_rad
        = { x := s._angle_ef_target_rad.x, y := s._angle_ef_target_rad.y,
            z := -(update e s port).1._current_angle.z * s.gimbal_yaw_scale } ∧
      bytes_written port (update e s port).2
        = frame CMD_GET_ANGLES_EXT [1] ++
          frame CMD_CONTROL (angles_speed_bytes s._state
            (target_in_deg e
              { x := s._angle_ef_target_rad.x, y := s._angle_ef_target_rad.y,
                z := -(update e s port).1._current_angle.z * s.gimbal_yaw_scale } false))) ∧
    (s.mount.map AP_Mount.mount_yaw_follow_mode ≠ some e.gimbal_yaw_follows_vehicle →
      (update_target e (read_incoming s (get_angles_ext port)).1).2
        = some (s._angle_ef_target_rad, false) ∧
      (update e s port).1._angle_ef_target_rad = s._angle_ef_target_rad ∧
      bytes_written port (update e s port).2
        = frame CMD_GET_ANGLES_EXT [1] ++
          frame CMD_CONTROL (angles_speed_bytes s._state
            (target_in_deg e s._angle_ef_target_rad false))) := by
  obtain ⟨h1, _, h3, h4, h5⟩ :=
    settings_fields s _ (read_incoming_settings s (get_angles_ext port))
  have hm : (read_incoming s (get_angles_ext port)).1._state._mode
      = MAV_MOUNT_MODE_MAVLINK_TARGETING := by rw [h1]; exact hmode
  obtain ⟨hyes, hno⟩ := update_target_mavlink_targeting e _ hm
  have hcur : (update e s port).1._current_angle
      = (read_incoming s (get_angles_ext port)).1._current_angle := by
    rw [update_fst e s port hinit, (update_target_current_angle e _).1]
  refine ⟨?_, ?_, ?_, ?_⟩
  · unfold init
    cases found <;> rfl
  · rw [update_fst e s port hinit, (update_target_current_angle e _).2, h3]
  · intro hen
    have ht := hyes (by rw [h5]; exact hen)
    refine ⟨?_, hcur, ?_, ?_⟩
    · rw [ht, hcur, h3, h4]
    · rw [hcur, update_fst e s port hinit, ht, h3, h4]
    · rw [update_written e s port hinit hroom, ht, hcur, h3, h4]
  · intro hdis
    have ht := hno (by rw [h5]; exact hdis)
    refine ⟨?_, ?_, ?_⟩
    · rw [ht, h4]
    · rw [update_fst e s port hinit, ht, h4]
    · rw [update_written e s port hinit hroom, ht, h4]

theorem mavlink_targeting_yaw_follow_witness :
    (init Driver.fresh none).1.gimbal_yaw_scale = 1 / 20 ∧
    (update sample_environment sample_targeting_driver ⟨[], [], 64⟩).1._angle_ef_target_rad
      = { x := sample_targeting_driver._angle_ef_target_rad.x,
          y := sample_targeting_driver._angle_ef_target_rad.y,
          z := -(update sample_environment sample_targeting_driver
                  ⟨[], [], 64⟩).1._current_angle.z * sample_targeting_driver.gimbal_yaw_scale } ∧
    (update { sample_environment with gimbal_yaw_follows_vehicle := 2 } sample_targeting_driver
        ⟨[], [], 64⟩).1._angle_ef_target_rad
      = sample_targeting_driver._angle_ef_target_rad :=
  ⟨(mavlink_targeting_yaw_follow sample_environment sample_targeting_driver ⟨[], [], 64⟩
      rfl rfl (by decide) Driver.fresh none).1,
   ((mavlink_targeting_yaw_follow sample_environment sample_targeting_driver ⟨[], [], 64⟩
      rfl rfl (by decide) Driver.fresh none).2.2.1 rfl).2.2.1,
   ((mavlink_targeting_yaw_follow { sample_environment with gimbal_yaw_follows_vehicle := 2 }
      sample_targeting_driver ⟨[], [], 64⟩
      rfl rfl (by decide) Driver.fresh none).2.2.2 (by decide)).2.1⟩

/-! ## Control mode bytes -/

/-- C21: `get_control_mode` gives the speed tag 1 for the angular rate mode,
the angle tag 2 for the absolute frame mode, the body-relative tag 5 for the
body frame mode and the angle tag 2 for every other input mode; the payload
of the control frame that `control_axis` writes has 15 bytes and starts with
`get_control_mode` of the roll, the pitch and the yaw input mode, in that
order. -/
theorem control_mode_bytes (e : Environment) (s : Driver) (port : UARTDriver) (angle : Vector3f)
    (deg : Bool) :
    get_control_mode Input_Mode_Angular_Rate = 1 ∧
    get_control_mode Input_Mode_Angle_Absolute_Frame = 2 ∧
    get_control_mode Input_Mode_Angle_Body_Frame = 5 ∧
    (∀ m : Input_Mode, m ≠ Input_Mode_Angular_Rate → m ≠ Input_Mode_Angle_Absolute_Frame →
      m ≠ Input_Mode_Angle_Body_Frame → get_control_mode m = 2) ∧
    (angles_speed_bytes s._state (target_in_deg e angle deg)).take 3
      = [get_control_mode s._state._roll_input_mode,
         get_control_mode s._state._pitch_input_mode,
         get_control_mode s._state._yaw_input_mode] ∧
    (20 ≤ port.txspace →
      bytes_written port (control_axis e s port angle deg)
        = frame CMD_CONTROL (angles_speed_bytes s._state (target_in_deg e angle deg))) := by
  have hlt : ∀ m : Input_Mode, get_control_mode m % 256 = get_control_mode m := by
    intro m
    cases m <;> rfl
  refine ⟨rfl, rfl, rfl, ?_, ?_, ?_⟩
  · intro m h1 h2 h3
    cases m with
    | Input_Mode_Angle_Body_Frame => exact absurd rfl h3
    | Input_Mode_Angular_Rate => exact absurd rfl h1
    | Input_Mode_Angle_Absolute_Frame => exact absurd rfl h2
    | Other raw => rfl
  · simp only [angles_speed_bytes, List.cons_append, List.nil_append, List.take_succ_cons,
      List.take_zero, hlt]
  · intro hroom
    rw [control_axis_port e s port angle deg hroom]
    simp [bytes_written]

theorem control_mode_bytes_witness :
    get_control_mode (Input_Mode.Other 9) = 2 ∧
    bytes_written ⟨[], [7], 20⟩
        (control_axis sample_environment sample_driver ⟨[], [7], 20⟩ ⟨10, -20, 1 / 50⟩ true)
      = frame CMD_CONTROL (angles_speed_bytes sample_driver._state
          (target_in_deg sample_environment ⟨10, -20, 1 / 50⟩ true)) :=
  ⟨(control_mode_bytes sample_environment sample_driver ⟨[], [7], 20⟩ ⟨10, -20, 1 / 50⟩
      true).2.2.2.1 (Input_Mode.Other 9) (by decide) (by decide) (by decide),
   (control_mode_bytes sample_environment sample_driver ⟨[], [7], 20⟩ ⟨10, -20, 1 / 50⟩
      true).2.2.2.2.2 (by decide)⟩

/-! ## Acceptance of frames -/

theorem read_incoming_of_rx (s : Driver) (port : UARTDriver) (bytes : List Nat)
    (h : port.rx = bytes) (hl : bytes.length < 32768) :
    (read_incoming s port).1 = process s bytes ∧ bytes_read port = bytes := by
  have hs : port.rx.length < 32768 := by rw [h]; exact hl
  rw [read_incoming_fst, bytes_read_small port hs, h]
  exact ⟨rfl, rfl⟩

/-- C22: for every command id, every declared length from 1 to 255 and every
body of that length, the frame with valid checksums, read while waiting for
sync, enters `parse_body` exactly once, with the command id, the accumulated
checksum over all body bytes and the body bytes at the buffer offsets below
`min n 105`; the buffer keeps its size, its bytes beyond the body are
unchanged, and the receiver ends waiting for sync. -/
theorem frame_accepted (s : Driver) (hs : s._step = 0) (hbuf : s._buffer.length = sizeof_buffer)
    (c : Nat) (hc : c < 256) (d : List Nat) (h1 : 1 ≤ d.length) (h2 : d.length ≤ 255)
    (hd : ∀ b ∈ d, b < 256) (port : UARTDriver)
    (hrx : port.rx = [62, c, d.length, (c + d.length) % 256] ++ d ++ [d.sum % 256]) :
    ∃ t, parse_calls s (bytes_read port) = [t] ∧ t._command_id = c ∧
      t._checksum = d.sum % 256 ∧
      (∀ i, i < min d.length sizeof_buffer → byteAt t._buffer i = byteAt d i) ∧
      t._buffer = d.take sizeof_buffer ++ s._buffer.drop (min d.length sizeof_buffer) ∧
      t._buffer.length = sizeof_buffer ∧
      (read_incoming s port).1 = parse_body t ∧ (read_incoming s port).1._step = 0 := by
  have hne : d ≠ [] := by
    intro h0
    rw [h0] at h1
    exact absurd h1 (by decide)
  have hf : port.rx = frame c d := hrx
  have hlen : (frame c d).length < 32768 := by rw [frame_length]; omega
  obtain ⟨e1, e2⟩ := read_incoming_of_rx s port (frame c d) hf hlen
  obtain ⟨p1, p2⟩ := process_frame s hs c hc d hne h2 hd
  refine ⟨received s c d, ?_, rfl, rfl, ?_, ?_, ?_, ?_, ?_⟩
  · rw [e2, p2]
  · intro i hi
    exact byteAt_store_body s._buffer d hbuf i (by omega) (by omega)
  · exact store_body_eq s._buffer d hbuf
  · show (store_body s._buffer 0 d).length = sizeof_buffer
    rw [store_body_length, hbuf]
  · rw [e1, p1]
  · rw [e1, p1, (parse_body_parser_fields _).1]
    rfl

theorem frame_accepted_witness :
    ∃ t, parse_calls Driver.fresh
        (bytes_read ⟨[62, 77, [5, 6].length, (77 + [5, 6].length) % 256] ++ [5, 6]
          ++ [[5, 6].sum % 256], [], 0⟩) = [t] ∧ t._command_id = 77 ∧
      t._checksum = [5, 6].sum % 256 ∧
      (∀ i, i < min [5, 6].length sizeof_buffer → byteAt t._buffer i = byteAt [5, 6] i) ∧
      t._buffer = [5, 6].take sizeof_buffer
        ++ Driver.fresh._buffer.drop (min [5, 6].length sizeof_buffer) ∧
      t._buffer.length = sizeof_buffer ∧
      (read_incoming Driver.fresh
        ⟨[62, 77, [5, 6].length, (77 + [5, 6].length) % 256] ++ [5, 6]
          ++ [[5, 6].sum % 256], [], 0⟩).1 = parse_body t ∧
      (read_incoming Driver.fresh
        ⟨[62, 77, [5, 6].length, (77 + [5, 6].length) % 256] ++ [5, 6]
          ++ [[5, 6].sum % 256], [], 0⟩).1._step = 0 :=
  frame_accepted Driver.fresh rfl (by decide) 77 (by decide) [5, 6] (by decide) (by decide)
    (by decide) _ rfl

/-! ## The header checksum -/

theorem header_invariant_of_step (t : Driver) (h2 : t._step ≠ 2) (h3 : t._step ≠ 3) :
    header_invariant t :=
  ⟨fun h => absurd h h2, fun h => absurd h h3⟩

theorem read_byte_header_invariant (s : Driver) (d : Nat) (h : header_invariant s) :
    header_invariant (read_byte s d).1 := by
  by_cases h0 : s._step = 0
  · by_cases hd : d = SYNC
    · rw [hd, read_byte_sync s h0]
      exact header_invariant_of_step _ (by simp) (by simp)
    · rw [read_byte_noise s h0 d hd]
      exact h
  by_cases h1 : s._step = 1
  · rw [read_byte_command s h1 d]
    exact ⟨fun _ => rfl, fun h3 => absurd h3 (by simp)⟩
  by_cases h2 : s._step = 2
  · rw [read_byte_length s h2 d]
    refine ⟨fun h2 => absurd h2 (by simp), fun _ => ?_⟩
    show (s._checksum + d) % 256 = (s._command_id + d) % 256
    rw [h.1 h2]
  by_cases h3 : s._step = 3
  · by_cases hc : s._checksum = d
    · rw [read_byte_header_ok s h3 d hc]
      exact header_invariant_of_step _ (by simp) (by simp)
    · rw [read_byte_header_bad s h3 d hc]
      exact header_invariant_of_step _ (by simp) (by simp)
  by_cases h4 : s._step = 4
  · rw [read_byte_body s h4 d]
    apply header_invariant_of_step
    · show (if (s._payload_counter + 1) % 256 = s._payload_length then 5 else 4) ≠ 2
      split_ifs <;> decide
    · show (if (s._payload_counter + 1) % 256 = s._payload_length then 5 else 4) ≠ 3
      split_ifs <;> decide
  by_cases h5 : s._step = 5
  · by_cases hc : s._checksum = d
    · rw [read_byte_checksum_ok s h5 d hc]
      exact header_invariant_of_step _ (by simp) (by simp)
    · rw [read_byte_checksum_bad s h5 d hc]
      exact header_invariant_of_step _ (by simp) (by simp)
  · have : read_byte s d = (s, false) := by
      unfold read_byte
      simp [h0, h1, h2, h3, h4, h5]
    rw [this]
    exact h

theorem parse_body_header_invariant (s : Driver) (h : header_invariant s) :
    header_invariant (parse_body s) := by
  obtain ⟨e1, _, e3, e4, e5, _, _⟩ := parse_body_parser_fields s
  unfold header_invariant
  rw [e1, e3, e4, e5]
  exact h

theorem process_header_invariant (bytes : List Nat) :
    ∀ s : Driver, header_invariant s → header_invariant (process s bytes) := by
  induction bytes with
  | nil => intro s h; exact h
  | cons b bs ih =>
    intro s h
    rw [process_cons]
    apply ih
    unfold step
    by_cases hc : (read_byte s (b % 256)).2 = true
    · simp only [hc, if_true]
      exact parse_body_header_invariant _ (read_byte_header_invariant s _ h)
    · simp only [hc, Bool.false_eq_true, if_false]
      exact read_byte_header_invariant s _ h

/-- C23: in every driver state that the receiver reaches from waiting for sync
and in which the header checksum is awaited (`_step = 3`), with stored command
id `c` and declared length `n`: a byte other than `(c + n) mod 256` sends the
receiver back to waiting for sync without entering `parse_body` and without
changing a decoded value; the byte `(c + n) mod 256` zeroes the checksum
accumulator and the payload counter and moves the receiver on to the body
state. -/
theorem header_checksum_gate (s0 : Driver) (h0 : s0._step = 0) (bytes : List Nat)
    (h3 : (process s0 bytes)._step = 3) (b : Nat) (hb : b < 256) :
    (b ≠ ((process s0 bytes)._command_id + (process s0 bytes)._payload_length) % 256 →
      (step (process s0 bytes) b)._step = 0 ∧
      parse_calls (process s0 bytes) [b] = [] ∧
      decoded (step (process s0 bytes) b) = decoded (process s0 bytes)) ∧
    (b = ((process s0 bytes)._command_id + (process s0 bytes)._payload_length) % 256 →
      (step (process s0 bytes) b)._checksum = 0 ∧
      (step (process s0 bytes) b)._payload_counter = 0 ∧
      (step (process s0 bytes) b)._step = 4 ∧
      parse_calls (process s0 bytes) [b] = [] ∧
      decoded (step (process s0 bytes) b) = decoded (process s0 bytes)) := by
  have hinv : header_invariant (process s0 bytes) :=
    process_header_invariant bytes s0
      ⟨fun h => absurd (h0.symm.trans h) (by decide), fun h => absurd (h0.symm.trans h) (by decide)⟩
  have hcs := hinv.2 h3
  constructor
  · intro hne
    have hrb := read_byte_header_bad (process s0 bytes) h3 b (by rw [hcs]; exact fun h => hne h.symm)
    rw [step_of_read_byte _ _ _ hb hrb, parse_calls_cons_false _ _ _ _ hb hrb]
    exact ⟨rfl, rfl, rfl⟩
  · intro heq
    have hrb := read_byte_header_ok (process s0 bytes) h3 b (by rw [hcs]; exact heq.symm)
    rw [step_of_read_byte _ _ _ hb hrb, parse_calls_cons_false _ _ _ _ hb hrb]
    exact ⟨rfl, rfl, rfl, rfl, rfl⟩

theorem header_checksum_gate_witness :
    ((step (process Driver.fresh [62, 86, 6]) 93)._step = 0 ∧
      parse_calls (process Driver.fresh [62, 86, 6]) [93] = [] ∧
      decoded (step (process Driver.fresh [62, 86, 6]) 93)
        = decoded (process Driver.fresh [62, 86, 6])) ∧
    ((step (process Driver.fresh [62, 86, 6]) 92)._checksum = 0 ∧
      (step (process Driver.fresh [62, 86, 6]) 92)._payload_counter = 0 ∧
      (step (process Driver.fresh [62, 86, 6]) 92)._step = 4 ∧
      parse_calls (process Driver.fresh [62, 86, 6]) [92] = [] ∧
      decoded (step (process Driver.fresh [62, 86, 6]) 92)
        = decoded (process Driver.fresh [62, 86, 6])) :=
  ⟨(header_checksum_gate Driver.fresh rfl [62, 86, 6] (by decide) 93 (by decide)).1 (by decide),
   (header_checksum_gate Driver.fresh rfl [62, 86, 6] (by decide) 92 (by decide)).2 (by decide)⟩

/-! ## Frames of declared length zero -/

/-- C24, at the failing input: after the header of a frame of declared length
zero (here for the motors-on command), read by a fresh driver waiting for
sync, the receiver is in the body state, not in the body checksum state; the
next byte, 0, is stored as a body byte instead of being compared with the
checksum of the empty body, and `parse_body` is not entered. -/
theorem zero_length_header_enters_body_state :
    (read_incoming Driver.fresh ⟨[62, 77, 0, 77], [], 0⟩).1._step = 4 ∧
    (read_incoming Driver.fresh ⟨[62, 77, 0, 77, 0], [], 0⟩).1._step = 4 ∧
    (read_incoming Driver.fresh ⟨[62, 77, 0, 77, 0], [], 0⟩).1._payload_counter = 1 ∧
    store_indices Driver.fresh (bytes_read ⟨[62, 77, 0, 77, 0], [], 0⟩) = [0] ∧
    parse_calls Driver.fresh (bytes_read ⟨[62, 77, 0, 77, 0], [], 0⟩) = [] := by
  refine ⟨by decide, by decide, by decide, by decide, by decide⟩

/-! ## Noise -/

/-- C25: while the receiver waits for sync, bytes among which there is no sync
byte leave the whole driver state as it is, whatever their number; so bytes
that follow the noise are processed exactly as they are without it. -/
theorem noise_is_inert (s : Driver) (hs : s._step = 0) (port : UARTDriver)
    (hb : ∀ b ∈ port.rx, b < 256) (hn : ∀ b ∈ port.rx, b ≠ 62) :
    (read_incoming s port).1 = s ∧ process s port.rx = s ∧
    ∀ later : List Nat, process s (port.rx ++ later) = process s later := by
  have hmod : ∀ l : List Nat, (∀ b ∈ l, b ∈ port.rx) → ∀ b ∈ l, b % 256 ≠ SYNC := by
    intro l hl b hbl
    rw [Nat.mod_eq_of_lt (hb b (hl b hbl))]
    exact hn b (hl b hbl)
  have hall : process s port.rx = s := process_noise _ s hs (hmod _ (fun _ h => h))
  refine ⟨?_, hall, ?_⟩
  · rw [read_incoming_fst]
    apply process_noise _ s hs
    apply hmod
    intro b hbr
    unfold bytes_read at hbr
    split_ifs at hbr
    · simp at hbr
    · exact List.mem_of_mem_take hbr
  · intro later
    rw [process_append, hall]

theorem noise_is_inert_witness :
    (read_incoming sample_driver ⟨[0, 255, 61, 63, 7], [], 0⟩).1 = sample_driver ∧
    process sample_driver ((⟨[0, 255, 61, 63, 7], [], 0⟩ : UARTDriver).rx ++ [62, 73])
      = process sample_driver [62, 73] :=
  ⟨(noise_is_inert sample_driver rfl ⟨[0, 255, 61, 63, 7], [], 0⟩ (by decide) (by decide)).1,
   (noise_is_inert sample_driver rfl ⟨[0, 255, 61, 63, 7], [], 0⟩ (by decide)
      (by decide)).2.2 [62, 73]⟩

theorem process_body_zero_length (bytes : List Nat) : ∀ s : Driver, s._step = 4 →
    s._payload_length = 0 → s._payload_counter + bytes.length < 256 → s._checksum < 256 →
    (∀ b ∈ bytes, b < 256) →
    process s bytes
      = { s with _checksum := (s._checksum + bytes.sum) % 256,
                 _payload_counter := s._payload_counter + bytes.length,
                 _buffer := store_body s._buffer s._payload_counter bytes } ∧
    parse_calls s bytes = [] := by
  induction bytes with
  | nil =>
    intro s _ _ _ hcs _
    simp only [process_nil, parse_calls, List.sum_nil, Nat.add_zero, List.length_nil,
      store_body, Nat.mod_eq_of_lt hcs, and_true]
  | cons b bs ih =>
    intro s hs hz hlen hcs hb
    have hb256 : b < 256 := hb b (List.mem_cons_self _ _)
    have hrb := read_byte_body s hs b
    rw [process_cons, step_of_read_byte _ _ _ hb256 hrb,
      parse_calls_cons_false _ _ _ _ hb256 hrb]
    simp only [List.length_cons] at hlen
    have h1 : (s._payload_counter + 1) % 256 = s._payload_counter + 1 := by omega
    have h2 : ¬ (s._payload_counter + 1 = s._payload_length) := by omega
    simp only [h1, if_neg h2]
    have hmod : (s._checksum + b) % 256 < 256 := Nat.mod_lt _ (by decide)
    obtain ⟨e1, e2⟩ := ih { s with
          _checksum := (s._checksum + b) % 256
          _buffer := if s._payload_counter < sizeof_buffer then
              s._buffer.set s._payload_counter b else s._buffer
          _payload_counter := s._payload_counter + 1
          _step := 4 } rfl hz
      (by show s._payload_counter + 1 + bs.length < 256; omega) hmod
      (fun x hx => hb x (List.mem_cons_of_mem _ hx))
    rw [e1, e2]
    simp only [List.sum_cons, List.length_cons, store_body, and_true, Nat.mod_add_mod,
      Nat.add_assoc, Nat.add_comm 1, hs]

theorem process_body_wrap (bytes : List Nat) : ∀ s : Driver, s._step = 4 →
    s._payload_length = 0 → s._payload_counter + bytes.length = 256 → bytes ≠ [] →
    s._checksum < 256 → (∀ b ∈ bytes, b < 256) →
    process s bytes
      = { s with _step := 5, _checksum := (s._checksum + bytes.sum) % 256,
                 _payload_counter := 0,
                 _buffer := store_body s._buffer s._payload_counter bytes } ∧
    parse_calls s bytes = [] := by
  induction bytes with
  | nil => intro s _ _ _ h; exact absurd rfl h
  | cons b bs ih =>
    intro s hs hz hlen _ hcs hb
    have hb256 : b < 256 := hb b (List.mem_cons_self _ _)
    have hrb := read_byte_body s hs b
    rw [process_cons, step_of_read_byte _ _ _ hb256 hrb,
      parse_calls_cons_false _ _ _ _ hb256 hrb]
    simp only [List.length_cons] at hlen
    by_cases hbs : bs = []
    · subst hbs
      have h1 : (s._payload_counter + 1) % 256 = 0 := by
        simp only [List.length_nil] at hlen; omega
      simp only [process_nil, parse_calls, h1, hz, if_true, List.sum_cons, List.sum_nil,
        Nat.add_zero, store_body, and_true]
    · have hpos : 0 < bs.length := List.length_pos.mpr hbs
      have h1 : (s._payload_counter + 1) % 256 = s._payload_counter + 1 := by omega
      have h2 : ¬ (s._payload_counter + 1 = s._payload_length) := by omega
      simp only [h1, if_neg h2]
      have hmod : (s._checksum + b) % 256 < 256 := Nat.mod_lt _ (by decide)
      obtain ⟨e1, e2⟩ := ih { s with
            _checksum := (s._checksum + b) % 256
            _buffer := if s._payload_counter < sizeof_buffer then
                s._buffer.set s._payload_counter b else s._buffer
            _payload_counter := s._payload_counter + 1
            _step := 4 } rfl hz
        (by show s._payload_counter + 1 + bs.length = 256; omega) hbs hmod
        (fun x hx => hb x (List.mem_cons_of_mem _ hx))
      rw [e1, e2]
      simp only [List.sum_cons, store_body, and_true, Nat.mod_add_mod, Nat.add_assoc]

/-- C26: after the header of a frame of declared length zero, read while
waiting for sync, the receiver stays in the body state while the next 255
bytes arrive and leaves it with the 256th: each of the 256 bytes is added to
the checksum, the first 105 are stored in the buffer, the payload counter has
wrapped to zero and `parse_body` has not been entered; the byte after these,
the 257th, is the one compared with the accumulated checksum. -/
theorem zero_length_counter_wraps (s : Driver) (hs : s._step = 0)
    (hbuf : s._buffer.length = sizeof_buffer) (c : Nat) (hc : c < 256) (body : List Nat)
    (hlen : body.length = 256) (hb : ∀ b ∈ body, b < 256) :
    (∀ j, j < 256 →
      (process s ([62, c, 0, (c + 0) % 256] ++ body.take j))._step = 4 ∧
      (process s ([62, c, 0, (c + 0) % 256] ++ body.take j))._payload_counter = j) ∧
    (process s ([62, c, 0, (c + 0) % 256] ++ body))._step = 5 ∧
    (process s ([62, c, 0, (c + 0) % 256] ++ body))._payload_counter = 0 ∧
    (process s ([62, c, 0, (c + 0) % 256] ++ body))._checksum = body.sum % 256 ∧
    (process s ([62, c, 0, (c + 0) % 256] ++ body))._buffer = body.take sizeof_buffer ∧
    parse_calls s ([62, c, 0, (c + 0) % 256] ++ body) = [] ∧
    (∀ x, x < 256 →
      (x = body.sum % 256 →
        parse_calls s ([62, c, 0, (c + 0) % 256] ++ body ++ [x])
          = [{ process s ([62, c, 0, (c + 0) % 256] ++ body) with _step := 0 }]) ∧
      (x ≠ body.sum % 256 →
        parse_calls s ([62, c, 0, (c + 0) % 256] ++ body ++ [x]) = []) ∧
      (process s ([62, c, 0, (c + 0) % 256] ++ body ++ [x]))._step = 0) := by
  obtain ⟨h1, h2⟩ := process_header s hs c 0 hc (by decide)
  have hpart : ∀ l : List Nat, l.length < 256 → (∀ b ∈ l, b < 256) →
      process s ([62, c, 0, (c + 0) % 256] ++ l)
        = { after_header s c 0 with
            _checksum := (0 + l.sum) % 256, _payload_counter := 0 + l.length,
            _buffer := store_body s._buffer 0 l } ∧
      parse_calls s ([62, c, 0, (c + 0) % 256] ++ l) = [] := by
    intro l hl hlb
    obtain ⟨e1, e2⟩ := process_body_zero_length l (after_header s c 0) rfl rfl
      (by show 0 + l.length < 256; omega) (by show 0 < 256; decide) hlb
    rw [process_append, parse_calls_append, h1, h2, e1, e2]
    exact ⟨rfl, rfl⟩
  have hne : body ≠ [] := by
    intro h0
    rw [h0] at hlen
    exact absurd hlen (by decide)
  have hfull : process s ([62, c, 0, (c + 0) % 256] ++ body)
        = { after_header s c 0 with
            _step := 5, _checksum := (0 + body.sum) % 256, _payload_counter := 0,
            _buffer := store_body s._buffer 0 body } ∧
      parse_calls s ([62, c, 0, (c + 0) % 256] ++ body) = [] := by
    obtain ⟨e1, e2⟩ := process_body_wrap body (after_header s c 0) rfl rfl
      (by show 0 + body.length = 256; omega) hne (by show 0 < 256; decide) hb
    rw [process_append, parse_calls_append, h1, h2, e1, e2]
    exact ⟨rfl, rfl⟩
  obtain ⟨f1, f2⟩ := hfull
  refine ⟨?_, ?_, ?_, ?_, ?_, f2, ?_⟩
  · intro j hj
    obtain ⟨e1, _⟩ := hpart (body.take j) (by rw [List.length_take, hlen]; omega)
      (fun b hbm => hb b (List.mem_of_mem_take hbm))
    rw [e1]
    constructor
    · rfl
    · show 0 + (body.take j).length = j
      rw [List.length_take, hlen]
      omega
  · rw [f1]
  · rw [f1]
  · rw [f1]
    show (0 + body.sum) % 256 = body.sum % 256
    rw [Nat.zero_add]
  · rw [f1]
    show store_body s._buffer 0 body = body.take sizeof_buffer
    rw [store_body_eq s._buffer body hbuf, hlen]
    have : s._buffer.drop (min 256 sizeof_buffer) = [] :=
      List.drop_of_length_le (by rw [hbuf]; decide)
    rw [this, List.append_nil]
  · intro x hx
    have hs5 : (process s ([62, c, 0, (c + 0) % 256] ++ body))._step = 5 := by rw [f1]
    have hcs : (process s ([62, c, 0, (c + 0) % 256] ++ body))._checksum = body.sum % 256 := by
      rw [f1]
      show (0 + body.sum) % 256 = body.sum % 256
      rw [Nat.zero_add]
    refine ⟨?_, ?_, ?_⟩
    · intro heq
      have hrb := read_byte_checksum_ok _ hs5 x (by rw [hcs]; exact heq.symm)
      rw [parse_calls_append, f2, List.nil_append, parse_calls_cons_true _ _ _ _ hx hrb]
      rfl
    · intro hne
      have hrb := read_byte_checksum_bad _ hs5 x (by rw [hcs]; exact fun h => hne h.symm)
      rw [parse_calls_append, f2, List.nil_append, parse_calls_cons_false _ _ _ _ hx hrb]
      rfl
    · by_cases heq : (process s ([62, c, 0, (c + 0) % 256] ++ body))._checksum = x
      · have hrb := read_byte_checksum_ok _ hs5 x heq
        rw [process_append, process_cons, step_of_read_byte_call _ _ _ hx hrb, process_nil,
          (parse_body_parser_fields _).1]
      · have hrb := read_byte_checksum_bad _ hs5 x heq
        rw [process_append, process_cons, step_of_read_byte _ _ _ hx hrb, process_nil]

theorem zero_length_counter_wraps_witness :
    ((process Driver.fresh
        ([62, 77, 0, (77 + 0) % 256] ++ (List.replicate 256 1).take 255))._step = 4 ∧
      (process Driver.fresh
        ([62, 77, 0, (77 + 0) % 256] ++ (List.replicate 256 1).take 255))._payload_counter
        = 255) ∧
    (process Driver.fresh ([62, 77, 0, (77 + 0) % 256] ++ List.replicate 256 1))._step = 5 ∧
    (process Driver.fresh ([62, 77, 0, (77 + 0) % 256] ++ List.replicate 256 1))._payload_counter
      = 0 :=
  ⟨(zero_length_counter_wraps Driver.fresh rfl (by decide) 77 (by decide)
      (List.replicate 256 1) (List.length_replicate _ _)
      (fun b hb => by rw [List.eq_of_mem_replicate hb]; decide)).1 255 (by decide),
   (zero_length_counter_wraps Driver.fresh rfl (by decide) 77 (by decide)
      (List.replicate 256 1) (List.length_replicate _ _)
      (fun b hb => by rw [List.eq_of_mem_replicate hb]; decide)).2.1,
   (zero_length_counter_wraps Driver.fresh rfl (by decide) 77 (by decide)
      (List.replicate 256 1) (List.length_replicate _ _)
      (fun b hb => by rw [List.eq_of_mem_replicate hb]; decide)).2.2.1⟩

end AP_Mount_Alexmos

namespace AC_Planck
open cmd_type mavlink_payload
open AP_Mount_Alexmos (Vector3f Location)

/-! ## The Planck command interface -/

/-- A mask that has the three attitude bits has the yaw bit. -/
theorem att_implies_yaw (m : Nat) (h : m &&& 0x0E00 = 0x0E00) : m &&& 0x0800 = 0x0800 := by
  have h1 : (0x0E00 : Nat) &&& 0x0800 = 0x0800 := by decide
  calc m &&& 0x0800 = m &&& (0x0E00 &&& 0x0800) := by rw [h1]
    _ = (m &&& 0x0E00) &&& 0x0800 := by rw [Nat.and_assoc]
    _ = 0x0800 := by rw [h, h1]

/-- The state after a command message: only `_cmd` changes, with the type of
the mask and the new flag set. -/
theorem handle_cmd_msg (c : Context) (s : State) (chan compid : Nat)
    (pc : mavlink_planck_cmd_msg_t) :
    (handle_planck_mavlink_msg c s chan ⟨compid, PLANCK_CMD_MSG pc⟩)._cmd.type =
        command_type pc.type_mask ∧
      (handle_planck_mavlink_msg c s chan ⟨compid, PLANCK_CMD_MSG pc⟩)._cmd.is_new = true :=
  ⟨rfl, rfl⟩

/-- C27: the command type that `handle_planck_mavlink_msg` assigns for a
command message is a total function of the type mask. With pos, vel, acc and
att the tests of the mask against 0x0007, 0x0038, 0x01C0 and 0x0E00 and vz the
bit 0x0020, the type is POSITION iff pos and not vel, POSVEL iff pos and vel,
VELOCITY iff vel and not pos, ATTITUDE iff not pos, not vel, vz, not acc and
att (att implies the yaw bit 0x0800, so the yaw test adds nothing), ACCEL iff
not pos, not vel, vz, acc, not att and one of the bits 0x0800 and 0x1000, and
NONE iff none of these holds; the type is the one of `command_type` and
`is_new` is set. -/
theorem command_type_classification (c : Context) (s : State) (chan compid : Nat)
    (pc : mavlink_planck_cmd_msg_t) :
    ((handle_planck_mavlink_msg c s chan ⟨compid, PLANCK_CMD_MSG pc⟩)._cmd.type = POSITION ↔
        pc.type_mask &&& 0x0007 = 0x0007 ∧ ¬ pc.type_mask &&& 0x0038 = 0x0038) ∧
    ((handle_planck_mavlink_msg c s chan ⟨compid, PLANCK_CMD_MSG pc⟩)._cmd.type = POSVEL ↔
        pc.type_mask &&& 0x0007 = 0x0007 ∧ pc.type_mask &&& 0x0038 = 0x0038) ∧
    ((handle_planck_mavlink_msg c s chan ⟨compid, PLANCK_CMD_MSG pc⟩)._cmd.type = VELOCITY ↔
        pc.type_mask &&& 0x0038 = 0x0038 ∧ ¬ pc.type_mask &&& 0x0007 = 0x0007) ∧
    ((handle_planck_mavlink_msg c s chan ⟨compid, PLANCK_CMD_MSG pc⟩)._cmd.type = ATTITUDE ↔
        ¬ pc.type_mask &&& 0x0007 = 0x0007 ∧ ¬ pc.type_mask &&& 0x0038 = 0x0038 ∧
        pc.type_mask &&& 0x0020 = 0x0020 ∧ ¬ pc.type_mask &&& 0x01C0 = 0x01C0 ∧
        pc.type_mask &&& 0x0E00 = 0x0E00) ∧
    ((handle_planck_mavlink_msg c s chan ⟨compid, PLANCK_CMD_MSG pc⟩)._cmd.type = ACCEL ↔
        ¬ pc.type_mask &&& 0x0007 = 0x0007 ∧ ¬ pc.type_mask &&& 0x0038 = 0x0038 ∧
        pc.type_mask &&& 0x0020 = 0x0020 ∧ pc.type_mask &&& 0x01C0 = 0x01C0 ∧
        ¬ pc.type_mask &&& 0x0E00 = 0x0E00 ∧
        (pc.type_mask &&& 0x0800 = 0x0800 ∨ pc.type_mask &&& 0x1000 = 0x1000)) ∧
    ((handle_planck_mavlink_msg c s chan ⟨compid, PLANCK_CMD_MSG pc⟩)._cmd.type = NONE ↔
        ¬ pc.type_mask &&& 0x0007 = 0x0007 ∧ ¬ pc.type_mask &&& 0x0038 = 0x0038 ∧
        ¬ (pc.type_mask &&& 0x0020 = 0x0020 ∧ ¬ pc.type_mask &&& 0x01C0 = 0x01C0 ∧
            pc.type_mask &&& 0x0E00 = 0x0E00) ∧
        ¬ (pc.type_mask &&& 0x0020 = 0x0020 ∧ pc.type_mask &&& 0x01C0 = 0x01C0 ∧
            ¬ pc.type_mask &&& 0x0E00 = 0x0E00 ∧
            (pc.type_mask &&& 0x0800 = 0x0800 ∨ pc.type_mask &&& 0x1000 = 0x1000))) ∧
    (pc.type_mask &&& 0x0E00 = 0x0E00 → pc.type_mask &&& 0x0800 = 0x0800) ∧
    (handle_planck_mavlink_msg c s chan ⟨compid, PLANCK_CMD_MSG pc⟩)._cmd.type =
        command_type pc.type_mask ∧
    (handle_planck_mavlink_msg c s chan ⟨compid, PLANCK_CMD_MSG pc⟩)._cmd.is_new = true := by
  have hty := (handle_cmd_msg c s chan compid pc).1
  have hnew := (handle_cmd_msg c s chan compid pc).2
  have hyaw := att_implies_yaw pc.type_mask
  rw [hty]
  refine ⟨?_, ?_, ?_, ?_, ?_, ?_, hyaw, rfl, hnew⟩ <;>
  · by_cases hp : pc.type_mask &&& 0x0007 = 0x0007 <;>
    by_cases hv : pc.type_mask &&& 0x0038 = 0x0038 <;>
    by_cases hz : pc.type_mask &&& 0x0020 = 0x0020 <;>
    by_cases ha : pc.type_mask &&& 0x01C0 = 0x01C0 <;>
    by_cases ht : pc.type_mask &&& 0x0E00 = 0x0E00 <;>
    by_cases hy : pc.type_mask &&& 0x0800 = 0x0800 <;>
    by_cases hr : pc.type_mask &&& 0x1000 = 0x1000 <;>
    first
    | exact absurd (hyaw ht) hy
    | simp [command_type, hp, hv, hz, ha, ht, hy, hr]

/-- A witness of C27: the mask 0x0E20 (vz and the three attitude bits, neither
the position bits nor the full velocity or acceleration groups) gives an
ATTITUDE command, and the new flag is set. -/
theorem command_type_classification_witness :
    (handle_planck_mavlink_msg sample_context sample_state 0 (sample_cmd_msg 0x0E20))._cmd.type =
        ATTITUDE ∧
      (handle_planck_mavlink_msg sample_context sample_state 0
        (sample_cmd_msg 0x0E20))._cmd.is_new = true :=
  ⟨(command_type_classification sample_context sample_state 0 90
      { lat := 1, lon := 2, alt := 3, frame := MAV_FRAME_GLOBAL_RELATIVE_ALT, vel := ⟨1, 2, 3⟩,
        acc := ⟨4, 5, 6⟩, att := ⟨0, 0, 1⟩, type_mask := 0x0E20 }).2.2.2.1.2
      ⟨by decide, by decide, by decide, by decide, by decide⟩,
    (command_type_classification sample_context sample_state 0 90
      { lat := 1, lon := 2, alt := 3, frame := MAV_FRAME_GLOBAL_RELATIVE_ALT, vel := ⟨1, 2, 3⟩,
        acc := ⟨4, 5, 6⟩, att := ⟨0, 0, 1⟩, type_mask := 0x0E20 }).2.2.2.2.2.2.2.2⟩

/-- A getter returns the new flag and leaves it cleared. -/
theorem call_getter_spec (g : Getter) (s : State) (v : Vector3f) (q : ℚ) (b : Bool)
    (loc : Location) :
    (call_getter g s v q b loc).1 = s._cmd.is_new ∧
      (call_getter g s v q b loc).2._cmd.is_new = false := by
  cases g <;> cases h : s._cmd.is_new <;>
    simp [call_getter, get_accel_yaw_zrate_cmd, get_attitude_zrate_cmd, get_velocity_cmd,
      get_position_cmd, get_posvel_cmd, h]

/-- A message other than a command message leaves `_cmd` as it is. -/
theorem handle_other_cmd (c : Context) (s : State) (chan : Nat) (m : mavlink_message_t)
    (hm : ∀ pc, m.payload ≠ PLANCK_CMD_MSG pc) :
    (handle_planck_mavlink_msg c s chan m)._cmd = s._cmd := by
  obtain ⟨compid, p⟩ := m
  cases p with
  | COMMAND_ACK ack =>
    simp only [handle_planck_mavlink_msg]
    split_ifs <;> rfl
  | PLANCK_STATUS ps => rfl
  | PLANCK_CMD_MSG pc => exact absurd rfl (hm pc)
  | OTHER msgid => rfl

/-- C28: the five command getters are one-shot and blind to the command type.
Each returns true iff `_cmd.is_new` is set, whatever `_cmd.type` is; when the
flag is clear it returns false with its output arguments and the state
unchanged; when the flag is set it returns true with the stored fields copied
to the outputs and the flag cleared. Of any two getter calls, also with
messages other than a command message handled in between, the second returns
false. -/
theorem getters_one_shot (s : State) (v : Vector3f) (q r : ℚ) (b : Bool) (loc : Location) :
    ((get_accel_yaw_zrate_cmd s v q r b).1 = s._cmd.is_new ∧
      (get_attitude_zrate_cmd s v q b).1 = s._cmd.is_new ∧
      (get_velocity_cmd s v).1 = s._cmd.is_new ∧
      (get_position_cmd s loc).1 = s._cmd.is_new ∧
      (get_posvel_cmd s loc v).1 = s._cmd.is_new) ∧
    (s._cmd.is_new = false →
      get_accel_yaw_zrate_cmd s v q r b = (false, (v, q, r, b), s) ∧
      get_attitude_zrate_cmd s v q b = (false, (v, q, b), s) ∧
      get_velocity_cmd s v = (false, v, s) ∧
      get_position_cmd s loc = (false, loc, s) ∧
      get_posvel_cmd s loc v = (false, (loc, v), s)) ∧
    (s._cmd.is_new = true →
      get_accel_yaw_zrate_cmd s v q r b =
        (true, (s._cmd.accel_cmss, s._cmd.att_cd.z, s._cmd.vel_cms.z, s._cmd.is_yaw_rate),
          { s with _cmd := { s._cmd with is_new := false } }) ∧
      get_attitude_zrate_cmd s v q b =
        (true, (s._cmd.att_cd, s._cmd.vel_cms.z, s._cmd.is_yaw_rate),
          { s with _cmd := { s._cmd with is_new := false } }) ∧
      get_velocity_cmd s v =
        (true, s._cmd.vel_cms, { s with _cmd := { s._cmd with is_new := false } }) ∧
      get_position_cmd s loc =
        (true, s._cmd.pos, { s with _cmd := { s._cmd with is_new := false } }) ∧
      get_posvel_cmd s loc v =
        (true, (s._cmd.pos, s._cmd.vel_cms),
          { s with _cmd := { s._cmd with is_new := false } })) ∧
    (∀ (g : Getter) (t : cmd_type),
      (call_getter g { s with _cmd := { s._cmd with type := t } } v q b loc).1 =
        (call_getter g s v q b loc).1) ∧
    (∀ (g1 g2 : Getter) (v2 : Vector3f) (q2 : ℚ) (b2 : Bool) (loc2 : Location),
      (call_getter g2 (call_getter g1 s v q b loc).2 v2 q2 b2 loc2).1 = false) ∧
    (∀ (g1 g2 : Getter) (c : Context) (chan : Nat) (m : mavlink_message_t)
        (v2 : Vector3f) (q2 : ℚ) (b2 : Bool) (loc2 : Location),
      (∀ pc, m.payload ≠ PLANCK_CMD_MSG pc) →
      (call_getter g2 (handle_planck_mavlink_msg c (call_getter g1 s v q b loc).2 chan m)
        v2 q2 b2 loc2).1 = false) := by
  refine ⟨?_, ?_, ?_, ?_, ?_, ?_⟩
  · cases h : s._cmd.is_new <;>
      simp [get_accel_yaw_zrate_cmd, get_attitude_zrate_cmd, get_velocity_cmd,
        get_position_cmd, get_posvel_cmd, h]
  · intro h
    simp [get_accel_yaw_zrate_cmd, get_attitude_zrate_cmd, get_velocity_cmd,
      get_position_cmd, get_posvel_cmd, h]
  · intro h
    simp [get_accel_yaw_zrate_cmd, get_attitude_zrate_cmd, get_velocity_cmd,
      get_position_cmd, get_posvel_cmd, h]
  · intro g t
    rw [(call_getter_spec g _ v q b loc).1, (call_getter_spec g s v q b loc).1]
  · intro g1 g2 v2 q2 b2 loc2
    rw [(call_getter_spec g2 _ v2 q2 b2 loc2).1]
    exact (call_getter_spec g1 s v q b loc).2
  · intro g1 g2 c chan m v2 q2 b2 loc2 hm
    rw [(call_getter_spec g2 _ v2 q2 b2 loc2).1, handle_other_cmd c _ chan m hm]
    exact (call_getter_spec g1 s v q b loc).2

/-- A witness of C28: after a command message the velocity getter returns true
with the stored velocity and clears the flag, and the position getter called
next returns false. -/
theorem getters_one_shot_witness :
    get_velocity_cmd
        (handle_planck_mavlink_msg sample_context sample_state 0 (sample_cmd_msg 0x0038))
        ⟨0, 0, 0⟩ =
      (true,
        (handle_planck_mavlink_msg sample_context sample_state 0
          (sample_cmd_msg 0x0038))._cmd.vel_cms,
        { handle_planck_mavlink_msg sample_context sample_state 0 (sample_cmd_msg 0x0038) with
          _cmd :=
            { (handle_planck_mavlink_msg sample_context sample_state 0
                (sample_cmd_msg 0x0038))._cmd with is_new := false } }) ∧
    (call_getter Getter.position
      (call_getter Getter.velocity
        (handle_planck_mavlink_msg sample_context sample_state 0 (sample_cmd_msg 0x0038))
        ⟨0, 0, 0⟩ 0 false ⟨0, 0, 0, false, false⟩).2
      ⟨0, 0, 0⟩ 0 false ⟨0, 0, 0, false, false⟩).1 = false ∧
    get_position_cmd sample_state ⟨7, 8, 9, false, false⟩ =
      (false, ⟨7, 8, 9, false, false⟩, sample_state) :=
  ⟨((getters_one_shot
        (handle_planck_mavlink_msg sample_context sample_state 0 (sample_cmd_msg 0x0038))
        ⟨0, 0, 0⟩ 0 0 false ⟨0, 0, 0, false, false⟩).2.2.1 rfl).2.2.1,
    (getters_one_shot
        (handle_planck_mavlink_msg sample_context sample_state 0 (sample_cmd_msg 0x0038))
        ⟨0, 0, 0⟩ 0 0 false ⟨0, 0, 0, false, false⟩).2.2.2.2.1
      Getter.velocity Getter.position ⟨0, 0, 0⟩ 0 false ⟨0, 0, 0, false, false⟩,
    ((getters_one_shot sample_state ⟨0, 0, 0⟩ 0 0 false ⟨7, 8, 9, false, false⟩).2.1
      rfl).2.2.2.1⟩

end AC_Planck
